import Mathlib

/-!
# ForceCalendar core: event model, event store, conflict detector and the demo hosts

A shallow embedding of the event model, the event store, the conflict detector
and the two hosts of `force-calendar-core`, with the properties of the
specification proved about them.

* The hosts `src/demo/demo.js` (`CalendarDemo`) and
  `src/packages/.../minimalCalendar.js` (`MinimalCalendar`) are translated from
  their source text.
* The core classes they import (`Event`, `EventStore`, `ConflictDetector`,
  `Calendar`) are not among the sources; each of them is modelled from the
  specification and marked as such in its doc comment.

Instants are JavaScript `Date.getTime()` values: integers counting milliseconds.
Calendar arithmetic (`new Date(y, m, d + k, h, min)`) is done on the local
wall-clock time line, on which every day has `86400000` milliseconds.
-/

namespace ForceCalendar

/-! ## Data model (spec §3, §6) -/

/-- Response of an attendee to an invitation. -/
inductive ResponseStatus where
  | accepted | tentative | declined | pending
  deriving DecidableEq, Repr

/-- Status of an event. -/
inductive EventStatus where
  | confirmed | tentative | cancelled
  deriving DecidableEq, Repr

/-- An attendee entry `{name, email, responseStatus?, resource?}`; an absent
`resource` key reads as `false`. -/
structure Attendee where
  name : String
  email : String
  responseStatus : Option ResponseStatus
  resource : Bool
  deriving DecidableEq, Repr

/-- The organizer `{name, email}`. -/
structure Organizer where
  name : String
  email : String
  deriving DecidableEq, Repr

/-- A reminder `{method, minutesBefore}`. -/
structure Reminder where
  method : String
  minutesBefore : Nat
  deriving DecidableEq, Repr

/-- Conference data `{solution, url, accessCode, password}`. -/
structure ConferenceData where
  solution : String
  url : String
  accessCode : String
  password : String
  deriving DecidableEq, Repr

/-- Weekday codes of a recurrence rule. -/
inductive Weekday where
  | SU | MO | TU | WE | TH | FR | SA
  deriving DecidableEq, Repr

/-- Recurrence frequencies. -/
inductive Freq where
  | DAILY | WEEKLY
  deriving DecidableEq, Repr

/-- A recurrence rule `{freq, byDay}`; an empty `byDay` means "no weekday filter". -/
structure RecurrenceRule where
  freq : Freq
  byDay : List Weekday
  deriving DecidableEq, Repr

/-- The event input/output shape of spec §6. Keys that a JavaScript object may
leave out are `Option`s (`none` = key absent); `allDay` and `recurring` read as
`false` and `attendees`/`reminders` as empty when absent. -/
structure EventData where
  id : Option String
  title : Option String
  start : Option Int
  «end» : Option Int
  allDay : Bool
  recurring : Bool
  recurrenceRule : Option RecurrenceRule
  description : Option String
  location : Option String
  organizer : Option Organizer
  attendees : List Attendee
  reminders : List Reminder
  category : Option String
  categories : Option (List String)
  status : Option EventStatus
  conferenceData : Option ConferenceData
  deriving DecidableEq, Repr

/-- The object with no key set. -/
def EventData.empty : EventData :=
  { id := none, title := none, start := none, «end» := none, allDay := false,
    recurring := false, recurrenceRule := none, description := none, location := none,
    organizer := none, attendees := [], reminders := [], category := none,
    categories := none, status := none, conferenceData := none }

/-! ## Event normalizer -/

/-- The `categories` of a normalized form, from the input's singular `category`
and its own `categories` (empty when absent). Spec §8: "for any input carrying a
singular `category`, the normalized form has no singular key and `categories`
contains exactly that value"; so a singular value, when given, is the one member
of the collection, and otherwise the collection is the input's own. -/
def foldCategory : Option String → List String → List String
  | none, cs => cs
  | some c, _ => [c]

/-- Modelled from the spec: `Event.normalize` of `core/events/Event.js`, which is
not among the sources (only its debug script `test-category-debug.js` is).
Spec §3: "a singular `category` field is accepted as input and normalized — folded —
into `categories`; the singular key is never retained after normalization", and
"`categories` always materializes as a collection (never absent, never the
singular form) after normalization"; spec §8 says what the collection holds
(see `foldCategory`). Every other key is passed through. -/
def Event.normalize (data : EventData) : EventData :=
  { data with
    category := none
    categories := some (foldCategory data.category (data.categories.getD [])) }

/-- The `testData` object of `test-category-debug.js`. The two dates are
2025-01-15 10:00 and 11:00 as milliseconds on the wall-clock time line. -/
def testData : EventData :=
  { EventData.empty with
    id := some "test-1"
    title := some "Test Meeting"
    start := some 1736935200000
    «end» := some 1736938800000
    category := some "meeting" }

/-- The argument of `event2` in `test-category-debug.js`:
`{...testData, categories: ['meeting', 'important']}`. -/
def event2Data : EventData :=
  { testData with categories := some ["meeting", "important"] }

/-! ## Time line -/

/-- Milliseconds in a minute. -/
def MINUTE : Int := 60000

/-- Milliseconds in an hour. -/
def HOUR : Int := 3600000

/-- Milliseconds in a day of the wall-clock time line. -/
def DAY : Int := 86400000

/-- Midnight of the day an instant falls on: `new Date(y, m, d)` for the
`y, m, d` of the instant. -/
def startOfDay (t : Int) : Int := t - t % DAY

/-- Weekday of an instant; day `0` of the time line (1970-01-01) is a Thursday. -/
def weekdayOf (t : Int) : Weekday :=
  match ((t / DAY + 4) % 7).toNat with
  | 0 => Weekday.SU
  | 1 => Weekday.MO
  | 2 => Weekday.TU
  | 3 => Weekday.WE
  | 4 => Weekday.TH
  | 5 => Weekday.FR
  | _ => Weekday.SA

/-! ## Event store (spec §4.1) -/

/-- An element of a range-query result: a stored event, or one occurrence of a
stored recurring event. An occurrence is the template with `start`/`end` moved
to the occurrence; `occurrence` is its synthesized identity (the number of steps
from the template to the occurrence), `none` for an event that is not expanded. -/
structure RangeItem where
  event : EventData
  occurrence : Option Int
  deriving DecidableEq, Repr

/-- Step between two occurrences of a frequency. -/
def Freq.step : Freq → Int
  | Freq.DAILY => DAY
  | Freq.WEEKLY => 7 * DAY

/-- The weekday filter `W` of a rule: every weekday passes when `byDay` is empty. -/
def RecurrenceRule.allows (r : RecurrenceRule) (t : Int) : Bool :=
  r.byDay.isEmpty || decide (weekdayOf t ∈ r.byDay)

/-- Closed spans `[s, e]` and `[a, b]` intersect. -/
def spansIntersect (s e a b : Int) : Bool := decide (s ≤ b) && decide (a ≤ e)

/-- Modelled from the spec: the recurrence expansion of `getEventsInRange`
(`core/events/EventStore.js` is not among the sources). Spec §4.1: "for a recurring
event with frequency F and weekday set W, generate occurrence start instants
stepping by F within `[start, end]`, filtered to W when specified, each inheriting
the template event's duration and metadata but carrying a distinct synthesized
occurrence identity"; spec §3: "a recurring event's `start`/`end` describe one
occurrence's template; the rule expands it into further occurrences". The
occurrence start instants are the template's `start` moved by whole numbers of
steps; the spec names no first and no last one, so every such instant whose span
intersects the window is generated: `first` and `last` are the least and the
greatest number of steps that can reach the window. `s` and `dur` are the
template's start and duration. -/
def expandRecurring (e : EventData) (r : RecurrenceRule) (s dur a b : Int) : List RangeItem :=
  let first := -((s + dur - a) / r.freq.step)
  let last := (b - s) / r.freq.step
  (((List.range (last - first + 1).toNat).map (fun (j : Nat) => first + (j : Int))).filter
      (fun (k : Int) => r.allows (s + k * r.freq.step)
        && spansIntersect (s + k * r.freq.step) (s + k * r.freq.step + dur) a b)).map
      (fun (k : Int) =>
        { event := { e with start := some (s + k * r.freq.step)
                            «end» := some (s + k * r.freq.step + dur) }
          occurrence := some k })

/-- The part of a range-query result that one stored event contributes. A
missing `end` reads as `start`. -/
def expandEvent (a b : Int) (e : EventData) : List RangeItem :=
  match e.start with
  | none => []
  | some s =>
    let en := e.«end».getD s
    match e.recurring, e.recurrenceRule with
    | true, some r => expandRecurring e r s (en - s) a b
    | _, _ => if spansIntersect s en a b then [{ event := e, occurrence := none }] else []

/-- Modelled from the spec: the uncached result of `getEventsInRange(start, end)`,
"all events (including expanded occurrences of recurring events) whose span
intersects `[start, end]`", in storage order. -/
def rangeQuery (events : List EventData) (a b : Int) : List RangeItem :=
  events.flatMap (expandEvent a b)

/-- What the store does when `addEvent` meets an id that is already stored
(spec §9: "implement as a configurable policy"). -/
inductive DuplicatePolicy where
  | overwrite | reject
  deriving DecidableEq, Repr

/-- What `removeEvent` does for an unknown id (spec §9). -/
inductive MissingPolicy where
  | silent | report
  deriving DecidableEq, Repr

/-- Failures of the store (spec §7). -/
inductive StoreError where
  | validation | duplicateId | notFound
  deriving DecidableEq, Repr

/-- A query-cache entry: the result computed for the range `[rangeStart, rangeEnd]`. -/
structure CacheEntry where
  rangeStart : Int
  rangeEnd : Int
  result : List RangeItem
  deriving DecidableEq, Repr

/-- Modelled from the spec: the state of an `EventStore` (`core/events/EventStore.js`
is not among the sources). `events` is the canonical collection in insertion order,
`cache` the query cache with the most recently used entry first, `capacity` its
injectable capacity, and `hits`/`misses`/`evictions` its counters. -/
structure EventStore where
  events : List EventData
  cache : List CacheEntry
  capacity : Nat
  hits : Nat
  misses : Nat
  evictions : Nat
  onDuplicate : DuplicatePolicy
  onMissing : MissingPolicy
  deriving DecidableEq, Repr

/-- A store as constructed: no events, empty cache, counters at zero. -/
def EventStore.new (capacity : Nat) (onDuplicate : DuplicatePolicy)
    (onMissing : MissingPolicy) : EventStore :=
  { events := [], cache := [], capacity := capacity, hits := 0, misses := 0,
    evictions := 0, onDuplicate := onDuplicate, onMissing := onMissing }

/-- Modelled from the spec: the acceptance condition of `addEvent`, which
"rejects with a validation failure if `id`, `title`, or `start` is missing or if
`start > end` for a non-all-day event". -/
def EventStore.isValid (e : EventData) : Bool :=
  e.id.isSome && e.title.isSome && e.start.isSome &&
    (e.allDay ||
      match e.start, e.«end» with
      | some s, some en => decide (s ≤ en)
      | _, _ => true)

/-- Modelled from the spec: `addEvent(data)` "normalizes `data` into an Event,
rejects with a validation failure [...], otherwise inserts"; a mutation
invalidates every cache entry (the conservative discipline of §4.1). An id that
is already stored is overwritten in place or rejected, by the store's policy. -/
def EventStore.addEvent (s : EventStore) (data : EventData) :
    Except StoreError (EventData × EventStore) :=
  let e := Event.normalize data
  if EventStore.isValid e then
    if s.events.any (fun x => decide (x.id = e.id)) then
      match s.onDuplicate with
      | DuplicatePolicy.reject => Except.error StoreError.duplicateId
      | DuplicatePolicy.overwrite =>
        Except.ok (e, { s with
          events := s.events.map (fun x => if x.id = e.id then e else x)
          cache := [] })
    else
      Except.ok (e, { s with events := s.events ++ [e], cache := [] })
  else
    Except.error StoreError.validation

/-- Modelled from the spec: `removeEvent(id)` "removes by id; no-op (or reports
not-found [...]) when absent; invalidates caches". -/
def EventStore.removeEvent (s : EventStore) (id : String) : Except StoreError EventStore :=
  if s.events.any (fun x => decide (x.id = some id)) then
    Except.ok { s with
      events := s.events.filter (fun x => !decide (x.id = some id))
      cache := [] }
  else
    match s.onMissing with
    | MissingPolicy.silent => Except.ok s
    | MissingPolicy.report => Except.error StoreError.notFound

/-- Modelled from the spec: `addEvents(collection)`, the "batch form of
`addEvent`": every item is normalized, validated and inserted as `addEvent` does,
and a failure rejects the batch. -/
def EventStore.addEvents : EventStore → List EventData →
    Except StoreError (List EventData × EventStore)
  | s, [] => Except.ok ([], s)
  | s, e :: rest =>
    match s.addEvent e with
    | Except.error err => Except.error err
    | Except.ok a =>
      match EventStore.addEvents a.2 rest with
      | Except.error err => Except.error err
      | Except.ok b => Except.ok (a.1 :: b.1, b.2)

/-- Modelled from the spec: `getEvent(id)` "returns the event or a not-found
indication". -/
def EventStore.getEvent (s : EventStore) (id : String) : Option EventData :=
  s.events.find? (fun x => decide (x.id = some id))

/-- Modelled from the spec: `getAllEvents()` "returns all events in an unspecified
but stable (e.g., insertion) order; does not expand recurrence". -/
def EventStore.getAllEvents (s : EventStore) : List EventData := s.events

/-- Whether a cache entry is the entry of the range `[a, b]`. -/
def CacheEntry.hasKey (c : CacheEntry) (a b : Int) : Bool :=
  decide (c.rangeStart = a) && decide (c.rangeEnd = b)

/-- Modelled from the spec: `getEventsInRange(start, end)`: "a miss computes the
result via the range index and recurrence expansion, then populates the cache; a
hit returns the cached result without recomputation"; "when the cache exceeds its
capacity, the least-recently-used entry is evicted and the eviction counter
increments; hit/miss counters increment on every `getEventsInRange` call". -/
def EventStore.getEventsInRange (s : EventStore) (a b : Int) : List RangeItem × EventStore :=
  match s.cache.find? (fun c => c.hasKey a b) with
  | some c =>
    (c.result, { s with
      cache := c :: s.cache.filter (fun x => !x.hasKey a b)
      hits := s.hits + 1 })
  | none =>
    let r := rangeQuery s.events a b
    let cache := { rangeStart := a, rangeEnd := b, result := r } :: s.cache
    if s.capacity < cache.length then
      (r, { s with cache := cache.dropLast, misses := s.misses + 1,
                   evictions := s.evictions + 1 })
    else
      (r, { s with cache := cache, misses := s.misses + 1 })

/-- Cache statistics `{hits, misses, evictions}`. -/
structure CacheStats where
  hits : Nat
  misses : Nat
  evictions : Nat
  deriving DecidableEq, Repr

/-- The breakdown `{recurring, nonRecurring}`. -/
structure ByRecurring where
  recurring : Nat
  nonRecurring : Nat
  deriving DecidableEq, Repr

/-- The result `{totalEvents, byRecurring, cache}` of `getStats()`. -/
structure StoreStats where
  totalEvents : Nat
  byRecurring : ByRecurring
  cache : CacheStats
  deriving DecidableEq, Repr

/-- Modelled from the spec: `getStats()` "returns aggregate counts: total events,
breakdown by recurring/non-recurring, and cache statistics {hits, misses,
evictions} for the query cache". -/
def EventStore.getStats (s : EventStore) : StoreStats :=
  { totalEvents := s.events.length
    byRecurring :=
      { recurring := (s.events.filter (fun e => e.recurring)).length
        nonRecurring := (s.events.filter (fun e => !e.recurring)).length }
    cache := { hits := s.hits, misses := s.misses, evictions := s.evictions } }

/-- Modelled from the spec: `clear()` "removes all events and all cache entries;
resets counts". -/
def EventStore.clear (s : EventStore) : EventStore :=
  { s with events := [], cache := [], hits := 0, misses := 0, evictions := 0 }

/-- Every cache entry holds the result of its range on the current events: no
entry is stale. -/
def EventStore.CacheValid (s : EventStore) : Prop :=
  ∀ c ∈ s.cache, c.result = rangeQuery s.events c.rangeStart c.rangeEnd

/-! ## Conflict detector (spec §4.2) -/

/-- Conflict types. -/
inductive ConflictType where
  | Time | Resource
  deriving DecidableEq, Repr

/-- Conflict severities. -/
inductive Severity where
  | low | medium | high
  deriving DecidableEq, Repr

/-- A conflict `{type, description, severity}`. -/
structure Conflict where
  type : ConflictType
  description : String
  severity : Severity
  deriving DecidableEq, Repr

/-- The result `{hasConflicts, totalConflicts, conflicts}` of `checkConflicts`. -/
structure ConflictResult where
  hasConflicts : Bool
  totalConflicts : Nat
  conflicts : List Conflict
  deriving DecidableEq, Repr

/-- Modelled from the spec: a `ConflictDetector` (`core/conflicts/ConflictDetector.js`
is not among the sources). The spec fixes when a conflict of each type exists but
only sketches how it is graded and worded, so the grading and the wording are
parameters of the detector. The store it analyses is passed to each call. -/
structure ConflictDetector where
  severity : ConflictType → EventData → EventData → Severity
  description : ConflictType → EventData → EventData → String

/-- Two events list a common attendee (same contact) among their resources
(`resource = true`) or among their real persons (`resource = false`). -/
def sharesAttendee (resource : Bool) (x y : EventData) : Bool :=
  x.attendees.any (fun p => p.resource == resource &&
    y.attendees.any (fun q => q.resource == resource && p.email == q.email))

/-- Modelled from the spec: step 2 of `checkConflicts`, the classification of one
overlapping event. "Time conflict — any temporal overlap between two non-all-day
events with overlapping real-person attendees or no resource relation";
"Resource conflict — both events share at least one attendee flagged
`resource: true`". -/
def ConflictDetector.classify (cd : ConflictDetector) (cand other : EventData) : List Conflict :=
  (if !cand.allDay && !other.allDay &&
      (sharesAttendee false cand other || !sharesAttendee true cand other) then
    [{ type := ConflictType.Time
       description := cd.description ConflictType.Time cand other
       severity := cd.severity ConflictType.Time cand other }]
  else []) ++
  (if sharesAttendee true cand other then
    [{ type := ConflictType.Resource
       description := cd.description ConflictType.Resource cand other
       severity := cd.severity ConflictType.Resource cand other }]
  else [])

/-- The overlap candidates of `checkConflicts`: the queried items "excluding the
candidate itself if it is already stored (matched by id)". -/
def overlapCandidates (items : List RangeItem) (cand : EventData) : List RangeItem :=
  items.filter (fun it => !decide (it.event.id = cand.id))

/-- Every detected conflict together with the overlap candidate it was detected
against. -/
def ConflictDetector.detect (cd : ConflictDetector) (items : List RangeItem)
    (cand : EventData) : List (RangeItem × Conflict) :=
  (overlapCandidates items cand).flatMap
    (fun it => (cd.classify cand it.event).map (fun c => (it, c)))

/-- Package a list of conflicts as a result: "`totalConflicts` is the count of
detected conflicts; `hasConflicts` is true iff `totalConflicts > 0`". -/
def ConflictResult.ofConflicts (cs : List Conflict) : ConflictResult :=
  { hasConflicts := decide (0 < cs.length), totalConflicts := cs.length, conflicts := cs }

/-- Modelled from the spec: steps 1 and 2 of `checkConflicts(candidateEvent)`.
"Query the store for events overlapping the candidate's `[start, end]` span (using
`getEventsInRange`), excluding the candidate itself", and classify each. Every
conflict is returned with the overlap candidate it is a conflict with. The query
goes through the store's cache, so the store is returned as well. A candidate
with no `start` has no span and no conflicts. -/
def ConflictDetector.analyse (cd : ConflictDetector) (s : EventStore)
    (cand : EventData) : List (RangeItem × Conflict) × EventStore :=
  match cand.start with
  | none => ([], s)
  | some st =>
    let q := s.getEventsInRange st (cand.«end».getD st)
    (cd.detect q.1 cand, q.2)

/-- Modelled from the spec: `checkConflicts(candidateEvent)` →
`{hasConflicts, totalConflicts, conflicts}`: the conflicts of the analysis,
counted. -/
def ConflictDetector.checkConflicts (cd : ConflictDetector) (s : EventStore)
    (cand : EventData) : ConflictResult × EventStore :=
  let r := cd.analyse s cand
  (ConflictResult.ofConflicts (r.1.map Prod.snd), r.2)

/-! ## Calendar (spec §4.3) -/

/-- View types. -/
inductive ViewType where
  | month | week | day | list
  deriving DecidableEq, Repr

/-- Modelled from the spec: the state of a `Calendar` (`core/calendar/Calendar.js`
is not among the sources): the current view, the anchor date, the week-start
day, and the one event store it owns. `viewDays` and `shiftDate` stand for the
absent view engine and calendar arithmetic: the day spans that the view of a
type anchored at a date is made of, and the anchor date moved by a number of
units of a view's granularity ("month → ±1 calendar month; week → ±7 days;
day → ±1 day"). -/
structure Calendar where
  view : ViewType
  date : Int
  weekStartsOn : Nat
  eventStore : EventStore
  viewDays : ViewType → Int → List (Int × Int)
  shiftDate : ViewType → Int → Int → Int

/-- Run the range queries of a list of spans in order, through the cache. -/
def queryDays : EventStore → List (Int × Int) → List (List RangeItem) × EventStore
  | s, [] => ([], s)
  | s, (a, b) :: rest =>
    let q := s.getEventsInRange a b
    let r := queryDays q.2 rest
    (q.1 :: r.1, r.2)

/-- Modelled from the spec: `getViewData()` "synthesizes, from the Event Store, a
structure appropriate to the current view", each day carrying "the events
occurring on that day (via `getEventsInRange` for that day's span)". The result
is the list of the days' events; the queries leave their trace in the cache. -/
def Calendar.getViewData (c : Calendar) : List (List RangeItem) × Calendar :=
  let r := queryDays c.eventStore (c.viewDays c.view c.date)
  (r.1, { c with eventStore := r.2 })

/-- The name of a view type. -/
def ViewType.name : ViewType → String
  | ViewType.month => "month"
  | ViewType.week => "week"
  | ViewType.day => "day"
  | ViewType.list => "list"

/-- The view type of a name, if it is one of the four. -/
def ViewType.ofName? (name : String) : Option ViewType :=
  if name = "month" then some ViewType.month
  else if name = "week" then some ViewType.week
  else if name = "day" then some ViewType.day
  else if name = "list" then some ViewType.list
  else none

/-- Modelled from the spec: `setView(view)`, "a pure state change" of the state
machine over `view` ∈ {month, week, day, list}. The spec does not say what a
value outside the four does; here it leaves the view as it is. -/
def Calendar.setView (c : Calendar) (view : String) : Calendar :=
  match ViewType.ofName? view with
  | some v => { c with view := v }
  | none => c

/-- Modelled from the spec: `previous()` moves the anchor date back by one unit of
the current view's granularity. -/
def Calendar.previous (c : Calendar) : Calendar :=
  { c with date := c.shiftDate c.view c.date (-1) }

/-- Modelled from the spec: `next()` moves the anchor date forward by one unit of
the current view's granularity. -/
def Calendar.next (c : Calendar) : Calendar :=
  { c with date := c.shiftDate c.view c.date 1 }

/-- Modelled from the spec: `today()` moves the anchor date to the current
instant. -/
def Calendar.today (c : Calendar) (now : Int) : Calendar :=
  { c with date := now }

/-! ## JavaScript numbers

A JavaScript number is an IEEE 754 binary64 value. The finite ones are rationals,
and each arithmetic operation returns the exact result rounded to the nearest
binary64 value, ties to the even significand. The model below rounds to 53
significant bits and leaves the exponent unbounded: it is exact for results
in the normal range of binary64, which is where the demo's numbers lie. -/

/-- Nearest integer, ties to the even one. -/
def roundHalfEven (x : ℚ) : Int :=
  if x - Int.floor x < 1 / 2 then Int.floor x
  else if 1 / 2 < x - Int.floor x then Int.floor x + 1
  else if Int.floor x % 2 = 0 then Int.floor x else Int.floor x + 1

/-- The binary exponent `e` of a positive rational: `2 ^ e ≤ q < 2 ^ (e + 1)`. -/
def binade (q : ℚ) : Int := Int.log 2 q

/-- The binary64 value nearest to a rational: the significand `q / 2 ^ (e - 52)`,
which lies in `[2 ^ 52, 2 ^ 53)`, is rounded to an integer. -/
def toDouble (q : ℚ) : ℚ :=
  if q = 0 then 0
  else if 0 < q then
    roundHalfEven (q * (2 : ℚ) ^ (52 - binade q)) * (2 : ℚ) ^ (binade q - 52)
  else
    -(roundHalfEven (-q * (2 : ℚ) ^ (52 - binade (-q))) * (2 : ℚ) ^ (binade (-q) - 52))

/-- The function `Math.round`: "the value of x rounded to the nearest integer",
halves going up. -/
def mathRound (x : ℚ) : Int := Int.floor (x + 1 / 2)

/-! ## The demo host `CalendarDemo` (src/demo/demo.js) -/

/-- An entry of the conflict panel: `{...c, eventTitle: event.title}`. -/
structure DisplayedConflict where
  type : ConflictType
  description : String
  severity : Severity
  eventTitle : Option String
  deriving DecidableEq, Repr

/-- The entry `{...c, eventTitle: event.title}` made from the conflict `c` of
the event titled `title`. -/
def DisplayedConflict.ofConflict (title : Option String) (c : Conflict) : DisplayedConflict :=
  { type := c.type, description := c.description, severity := c.severity, eventTitle := title }

/-- The statistics panel that `updateStatistics` writes. -/
structure StatsPanel where
  totalEvents : Nat
  recurringEvents : Nat
  attendeeEvents : Nat
  cacheHitRate : Int
  cacheHits : Nat
  cacheMisses : Nat
  cacheEvictions : Nat
  deriving DecidableEq, Repr

/-- State of a `CalendarDemo`. `this.eventStore` is the same object as
`this.calendar.eventStore`, so the store is kept once, inside the calendar.
`eventIdCounter` is a JavaScript number used as a counter from `1000` up, a
natural number here.
The page is kept as far as the demo's methods write it: which renderer produced
the calendar pane (`none`: the html was left empty) from which view data, the
statistics panel, and the list handed to `updateConflictInfo`. -/
structure CalendarDemo where
  calendar : Calendar
  conflictDetector : ConflictDetector
  currentView : String
  eventIdCounter : Nat
  renderedBy : Option ViewType
  renderedDays : List (List RangeItem)
  statsPanel : StatsPanel
  conflictInfo : List DisplayedConflict

/-- The accessor `this.eventStore`. -/
def CalendarDemo.eventStore (d : CalendarDemo) : EventStore := d.calendar.eventStore

/-- Write through `this.eventStore`. -/
def CalendarDemo.withStore (d : CalendarDemo) (s : EventStore) : CalendarDemo :=
  { d with calendar := { d.calendar with eventStore := s } }

/-- The id template `event-${n}`. -/
def eventId (n : Nat) : String := "event-" ++ toString n

/-- The date `new Date(y, m, d + k, h, min)` for the `y, m, d` of `today`. -/
def dateAt (today k h min : Int) : Int := startOfDay today + k * DAY + h * HOUR + min * MINUTE

/-- The `switch (this.currentView)` of `render`. -/
def rendererFor (view : String) : Option ViewType :=
  if view = "month" then some ViewType.month
  else if view = "week" then some ViewType.week
  else if view = "day" then some ViewType.day
  else if view = "list" then some ViewType.list
  else none

/-- The method `render()`: pull the view data and render it with the renderer of
`currentView`. -/
def CalendarDemo.render (d : CalendarDemo) : CalendarDemo :=
  let v := d.calendar.getViewData
  { d with calendar := v.2, renderedBy := rendererFor d.currentView, renderedDays := v.1 }

/-- The hit rate of `updateStatistics`:
`hits + misses > 0 ? Math.round((hits / (hits + misses)) * 100) : 0`.
The counters are integers below `2 ^ 53`, which binary64 holds exactly and adds
exactly; the quotient and the product are rounded to binary64. -/
def hitRate (hits misses : Nat) : Int :=
  if 0 < hits + misses then
    mathRound (toDouble (toDouble ((hits : ℚ) / ((hits + misses : Nat) : ℚ)) * 100))
  else 0

/-- The hit rate in the words of its description: `100 * hits / (hits + misses)`
rounded to the nearest integer, halves rounded up, and `0` when there was no
lookup. -/
def hitRateExact (hits misses : Nat) : Int :=
  if 0 < hits + misses then mathRound ((100 * hits : ℚ) / ((hits + misses : Nat) : ℚ)) else 0

/-- The method `updateStatistics()`: fill the statistics panel from `getStats()`,
`getAllEvents()` and the cache counters. The store's `optimizer` is taken to be
present and `getCacheStats().eventCache` to report the counters of the query
cache. -/
def CalendarDemo.updateStatistics (d : CalendarDemo) : CalendarDemo :=
  let stats := d.eventStore.getStats
  let events := d.eventStore.getAllEvents
  { d with statsPanel :=
      { totalEvents := stats.totalEvents
        recurringEvents := stats.byRecurring.recurring
        attendeeEvents := (events.filter (fun e => decide (0 < e.attendees.length))).length
        cacheHitRate := hitRate d.eventStore.hits d.eventStore.misses
        cacheHits := d.eventStore.hits
        cacheMisses := d.eventStore.misses
        cacheEvictions := d.eventStore.evictions } }

/-- The method `updateConflictInfo(conflicts)`: show the list in the conflict panel. -/
def CalendarDemo.updateConflictInfo (d : CalendarDemo) (conflicts : List DisplayedConflict) :
    CalendarDemo :=
  { d with conflictInfo := conflicts }

/-- The body of the `events.forEach` of `detectAndShowConflicts` for one event:
check it and, when it has conflicts, push them with the event's title. -/
def detectStep (cd : ConflictDetector) (acc : List DisplayedConflict × EventStore)
    (event : EventData) : List DisplayedConflict × EventStore :=
  let r := cd.checkConflicts acc.2 event
  (if r.1.hasConflicts then
      acc.1 ++ r.1.conflicts.map (fun c =>
        { type := c.type, description := c.description, severity := c.severity,
          eventTitle := event.title })
    else acc.1,
   r.2)

/-- The method `detectAndShowConflicts()`: check every stored event, in
`getAllEvents()` order, and show the conflicts collected. -/
def CalendarDemo.detectAndShowConflicts (d : CalendarDemo) : CalendarDemo :=
  let events := d.eventStore.getAllEvents
  let r := events.foldl (detectStep d.conflictDetector) ([], d.eventStore)
  (d.withStore r.2).updateConflictInfo r.1

/-- The loop `events.forEach(event => this.eventStore.addEvent(event))`: a rejected event
raises and ends the loop. -/
def addEach : EventStore → List EventData → Except StoreError EventStore
  | s, [] => Except.ok s
  | s, e :: rest =>
    match s.addEvent e with
    | Except.error err => Except.error err
    | Except.ok r => addEach r.2 rest

/-- The first object pushed by `loadSampleEvents`, "Quarterly Business Review", for the counter value
`c` found on entry and `today`. -/
def quarterlyBusinessReview (c : Nat) (today : Int) : EventData :=
  { EventData.empty with
    id := some (eventId (c + 1))
    title := some "Quarterly Business Review"
    start := some (dateAt today 1 10 0)
    «end» := some (dateAt today 1 12 0)
    description := some "Review Q4 performance and plan for next quarter"
    location := some "Conference Room A"
    organizer := some { name := "Sarah Johnson", email := "sarah.johnson@company.com" }
    attendees :=
      [ { name := "John Smith", email := "john.smith@company.com",
          responseStatus := some ResponseStatus.accepted, resource := false },
        { name := "Emily Davis", email := "emily.davis@company.com",
          responseStatus := some ResponseStatus.tentative, resource := false },
        { name := "Michael Chen", email := "michael.chen@company.com",
          responseStatus := some ResponseStatus.accepted, resource := false },
        { name := "Conference Room A", email := "room-a@company.com",
          responseStatus := none, resource := true } ]
    reminders := [ { method := "email", minutesBefore := 15 },
                   { method := "popup", minutesBefore := 5 } ]
    categories := some ["meeting", "important"]
    status := some EventStatus.confirmed }

/-- The second object pushed by `loadSampleEvents`, "Daily Standup", for the counter value
`c` found on entry and `today`. -/
def dailyStandup (c : Nat) (today : Int) : EventData :=
  { EventData.empty with
    id := some (eventId (c + 2))
    title := some "Daily Standup"
    start := some (dateAt today 0 9 0)
    «end» := some (dateAt today 0 9 15)
    recurring := true
    recurrenceRule :=
      some { freq := Freq.DAILY
             byDay := [Weekday.MO, Weekday.TU, Weekday.WE, Weekday.TH, Weekday.FR] }
    attendees :=
      [ { name := "Dev Team", email := "dev-team@company.com",
          responseStatus := some ResponseStatus.accepted, resource := false } ]
    categories := some ["recurring", "team"]
    status := some EventStatus.confirmed }

/-- The third object pushed by `loadSampleEvents`, "Product Workshop", for the counter value
`c` found on entry and `today`. -/
def productWorkshop (c : Nat) (today : Int) : EventData :=
  { EventData.empty with
    id := some (eventId (c + 3))
    title := some "Product Workshop"
    start := some (dateAt today 2 14 0)
    «end» := some (dateAt today 2 16 0)
    location := some "Conference Room A"
    attendees :=
      [ { name := "Product Team", email := "product@company.com",
          responseStatus := none, resource := false },
        { name := "Conference Room A", email := "room-a@company.com",
          responseStatus := none, resource := true } ]
    categories := some ["workshop"]
    status := some EventStatus.confirmed }

/-- The fourth object pushed by `loadSampleEvents`, "Client Presentation", for the counter value
`c` found on entry and `today`. -/
def clientPresentation (c : Nat) (today : Int) : EventData :=
  { EventData.empty with
    id := some (eventId (c + 4))
    title := some "Client Presentation"
    start := some (dateAt today 2 15 0)
    «end» := some (dateAt today 2 17 0)
    location := some "Conference Room A"
    attendees :=
      [ { name := "Sales Team", email := "sales@company.com",
          responseStatus := none, resource := false },
        { name := "Conference Room A", email := "room-a@company.com",
          responseStatus := none, resource := true } ]
    categories := some ["client", "important"]
    status := some EventStatus.tentative }

/-- The fifth object pushed by `loadSampleEvents`, "Security Compliance Training", for the counter value
`c` found on entry and `today`. -/
def securityTraining (c : Nat) (today : Int) : EventData :=
  { EventData.empty with
    id := some (eventId (c + 5))
    title := some "Security Compliance Training"
    start := some (dateAt today 5 13 0)
    «end» := some (dateAt today 5 15 0)
    description := some "Annual security compliance training for all employees"
    categories := some ["training", "compliance", "mandatory"]
    attendees :=
      [ { name := "All Staff", email := "all@company.com",
          responseStatus := none, resource := false } ]
    reminders := [ { method := "email", minutesBefore := 1440 },
                   { method := "email", minutesBefore := 60 } ]
    status := some EventStatus.confirmed }

/-- The sixth object pushed by `loadSampleEvents`, "1:1 with Manager", for the counter value
`c` found on entry and `today`. -/
def oneOnOne (c : Nat) (today : Int) : EventData :=
  { EventData.empty with
    id := some (eventId (c + 6))
    title := some "1:1 with Manager"
    start := some (dateAt today 3 11 0)
    «end» := some (dateAt today 3 11 30)
    attendees :=
      [ { name := "You", email := "you@company.com",
          responseStatus := some ResponseStatus.accepted, resource := false },
        { name := "Manager", email := "manager@company.com",
          responseStatus := some ResponseStatus.accepted, resource := false } ]
    categories := some ["1on1", "recurring"]
    status := some EventStatus.confirmed }

/-- The seventh object pushed by `loadSampleEvents`, "Company Holiday", for the counter value
`c` found on entry and `today`. -/
def companyHoliday (c : Nat) (today : Int) : EventData :=
  { EventData.empty with
    id := some (eventId (c + 7))
    title := some "Company Holiday"
    start := some (dateAt today 10 0 0)
    «end» := some (dateAt today 10 0 0)
    allDay := true
    categories := some ["holiday"]
    status := some EventStatus.confirmed }

/-- The eighth object pushed by `loadSampleEvents`, "Remote Team Sync", for the counter value
`c` found on entry and `today`. -/
def remoteTeamSync (c : Nat) (today : Int) : EventData :=
  { EventData.empty with
    id := some (eventId (c + 8))
    title := some "Remote Team Sync"
    start := some (dateAt today 4 15 0)
    «end» := some (dateAt today 4 16 0)
    conferenceData := some { solution := "zoom", url := "https://zoom.us/j/123456789",
                             accessCode := "123456", password := "abc123" }
    attendees :=
      [ { name := "Remote Team", email := "remote@company.com",
          responseStatus := none, resource := false } ]
    categories := some ["meeting", "virtual"]
    status := some EventStatus.confirmed } 

/-- The eight objects pushed by `loadSampleEvents`, for the counter value `c`
found on entry (each id is `event-${++this.eventIdCounter}`) and `today`. -/
def sampleEvents (c : Nat) (today : Int) : List EventData :=
  [ quarterlyBusinessReview c today, dailyStandup c today, productWorkshop c today,
    clientPresentation c today, securityTraining c today, oneOnOne c today,
    companyHoliday c today, remoteTeamSync c today ]

/-- The method `loadSampleEvents()` run at the instant `today`: clear the store, build the
eight samples (advancing the id counter by eight), add each, then render, update
the statistics and show the conflicts. -/
def CalendarDemo.loadSampleEvents (d : CalendarDemo) (today : Int) :
    Except StoreError CalendarDemo :=
  let events := sampleEvents d.eventIdCounter today
  let d1 := { d with eventIdCounter := d.eventIdCounter + 8 }
  match addEach d.eventStore.clear events with
  | Except.error err => Except.error err
  | Except.ok s => Except.ok (d1.withStore s).render.updateStatistics.detectAndShowConflicts

/-! ## `addRandomEvent` (demo.js:268-326) -/

/-- A value that `Math.random()` can return: a binary64 value in `[0, 1)`, the
largest of which is `1 - 2 ^ (-53)`. -/
def IsDraw (r : ℚ) : Prop := 0 ≤ r ∧ r ≤ 1 - (2 : ℚ) ^ (-53 : Int)

/-- The expression `Math.floor(Math.random() * n)` for the draw `r`. -/
def randomIndex (r : ℚ) (n : Nat) : Int := Int.floor (toDouble (r * n))

/-- The offset `Math.floor(Math.random() * 14) - 7`, commented "-7 to +7 days". -/
def daysOffset (r : ℚ) : Int := randomIndex r 14 - 7

/-- The hour `9 + Math.floor(Math.random() * 8)`, commented "9 AM to 5 PM". -/
def randomHour (r : ℚ) : Int := 9 + randomIndex r 8

/-- The minute `Math.random() < 0.5 ? 0 : 30`. -/
def randomMinute (r : ℚ) : Int := if r < 1 / 2 then 0 else 30

/-- The duration `(0.5 + Math.random() * 1.5) * 60 * 60 * 1000`, commented
"30-120 minutes": a sum and four products, each rounded to binary64. -/
def randomDuration (r : ℚ) : ℚ :=
  toDouble (toDouble (toDouble (toDouble (1 / 2 + toDouble (r * (3 / 2))) * 60) * 60) * 1000)

/-- The time value of `new Date(x)` for a number `x`: the number with its
fraction dropped. -/
def timeClip (x : ℚ) : Int := if 0 ≤ x then Int.floor x else Int.ceil x

/-- The array `titles`. -/
def titles : List String :=
  ["Strategy Meeting", "Code Review", "Customer Call", "Team Lunch",
   "Project Planning", "Sprint Review", "Training Session", "Interview"]

/-- The array `locations`. -/
def locations : List String :=
  ["Conference Room A", "Conference Room B", "Virtual", "Cafeteria", "Office"]

/-- The array `attendees` of `addRandomEvent`. -/
def attendeePool : List Attendee :=
  [ { name := "Alice Johnson", email := "alice@company.com", responseStatus := none,
      resource := false },
    { name := "Bob Smith", email := "bob@company.com", responseStatus := none,
      resource := false },
    { name := "Carol White", email := "carol@company.com", responseStatus := none,
      resource := false },
    { name := "David Brown", email := "david@company.com", responseStatus := none,
      resource := false } ]

/-- The array `['accepted', 'tentative', 'declined']`. -/
def responseChoices : List ResponseStatus :=
  [ResponseStatus.accepted, ResponseStatus.tentative, ResponseStatus.declined]

/-- The array `['confirmed', 'tentative']`. -/
def statusChoices : List EventStatus := [EventStatus.confirmed, EventStatus.tentative]

/-- The attendee pushed in round `i` of the loop: a copy of a pool entry with a
chosen response. The loop's draws are number `5 + 2 * i` and `6 + 2 * i` of the
call. An index outside the pool would copy nothing. -/
def randomAttendee (rand : Nat → ℚ) (i : Nat) : Attendee :=
  { attendeePool.getD (randomIndex (rand (5 + 2 * i)) 4).toNat
      { name := "", email := "", responseStatus := none, resource := false } with
    responseStatus := responseChoices.get? (randomIndex (rand (6 + 2 * i)) 3).toNat }

/-- The number `Math.floor(Math.random() * 3) + 1` of attendees. -/
def numAttendees (r : ℚ) : Nat := (randomIndex r 3).toNat + 1

/-- The object `event` built by `addRandomEvent` when the counter is `c` on entry,
the clock reads `today`, and `rand i` is the value of the `i`-th call of
`Math.random()`: days offset, hour, minute, duration, number of attendees, two
per attendee, then title, location, status and reminders. -/
def randomEvent (c : Nat) (today : Int) (rand : Nat → ℚ) : EventData :=
  { EventData.empty with
    id := some (eventId (c + 1))
    title := titles.get? (randomIndex (rand (5 + 2 * numAttendees (rand 4))) 8).toNat
    start := some (dateAt today (daysOffset (rand 0)) (randomHour (rand 1)) (randomMinute (rand 2)))
    «end» := some (timeClip (toDouble
      ((dateAt today (daysOffset (rand 0)) (randomHour (rand 1)) (randomMinute (rand 2)) : ℚ)
        + randomDuration (rand 3))))
    location := locations.get? (randomIndex (rand (6 + 2 * numAttendees (rand 4))) 5).toNat
    attendees := (List.range (numAttendees (rand 4))).map (randomAttendee rand)
    categories := some ["generated"]
    status := statusChoices.get? (randomIndex (rand (7 + 2 * numAttendees (rand 4))) 2).toNat
    reminders :=
      if rand (8 + 2 * numAttendees (rand 4)) < 1 / 2 then
        [{ method := "email", minutesBefore := 15 }]
      else [] }

/-- The method `addRandomEvent()`: build the event, check it for conflicts, ask
the user when there are some (`proceed` is the answer of `confirm`), and unless
the user declines add the event and show the conflicts. -/
def CalendarDemo.addRandomEvent (d : CalendarDemo) (rand : Nat → ℚ) (today : Int)
    (proceed : Bool) : Except StoreError CalendarDemo :=
  let event := randomEvent d.eventIdCounter today rand
  let d1 := { d with eventIdCounter := d.eventIdCounter + 1 }
  let r := d.conflictDetector.checkConflicts d.eventStore event
  if r.1.hasConflicts && !proceed then
    Except.ok (d1.withStore r.2)
  else
    match r.2.addEvent event with
    | Except.error err => Except.error err
    | Except.ok a => Except.ok (d1.withStore a.2).detectAndShowConflicts

/-! ## `measurePerformance` (demo.js:398-442) -/

/-- The readings of the clock during one run of `measurePerformance`: the
`Date.now()` of the test id, the `new Date()` and `Date.now()` of the test event,
those of the range query, and those of each batch event. The `performance.now()`
timings only reach the page and are not kept. -/
structure PerfClock where
  idStamp : Int
  testStart : Int
  testEndBase : Int
  queryStart : Int
  queryEndBase : Int
  batchStart : Nat → Int
  batchEndBase : Nat → Int

/-- The clock does not run backwards between the two readings of an event. -/
def PerfClock.Forward (k : PerfClock) : Prop :=
  k.testStart ≤ k.testEndBase ∧ ∀ i, k.batchStart i ≤ k.batchEndBase i

/-- The id template `perf-test-${t}`. -/
def perfTestId (t : Int) : String := "perf-test-" ++ toString t

/-- The id template `batch-${i}`. -/
def batchId (i : Nat) : String := "batch-" ++ toString i

/-- The object `testEvent`. -/
def testEvent (k : PerfClock) : EventData :=
  { EventData.empty with
    id := some (perfTestId k.idStamp)
    title := some "Performance Test"
    start := some k.testStart
    «end» := some (k.testEndBase + 3600000) }

/-- The element `i` of `batchEvents`. -/
def batchEvent (k : PerfClock) (i : Nat) : EventData :=
  { EventData.empty with
    id := some (batchId i)
    title := some ("Batch Event " ++ toString i)
    start := some (k.batchStart i)
    «end» := some (k.batchEndBase i + 3600000) }

/-- The array `batchEvents`: `Array.from({ length: 100 }, (_, i) => ...)`. -/
def batchEvents (k : PerfClock) : List EventData := (List.range 100).map (batchEvent k)

/-- The loop `batchEvents.forEach(e => this.eventStore.removeEvent(e.id))`, over
the ids of the events. -/
def removeEach : EventStore → List String → Except StoreError EventStore
  | s, [] => Except.ok s
  | s, id :: rest =>
    match s.removeEvent id with
    | Except.error err => Except.error err
    | Except.ok s' => removeEach s' rest

/-- The method `measurePerformance()`: add the test event, run a range query and
a conflict check, remove the test event, add the batch and remove its events. -/
def CalendarDemo.measurePerformance (d : CalendarDemo) (k : PerfClock) :
    Except StoreError CalendarDemo :=
  match d.eventStore.addEvent (testEvent k) with
  | Except.error err => Except.error err
  | Except.ok a =>
    let q := a.2.getEventsInRange k.queryStart (k.queryEndBase + 86400000 * 30)
    let c := d.conflictDetector.checkConflicts q.2 (testEvent k)
    match c.2.removeEvent (perfTestId k.idStamp) with
    | Except.error err => Except.error err
    | Except.ok s2 =>
      match s2.addEvents (batchEvents k) with
      | Except.error err => Except.error err
      | Except.ok b =>
        match removeEach b.2 ((batchEvents k).filterMap (fun e => e.id)) with
        | Except.error err => Except.error err
        | Except.ok s4 => Except.ok (d.withStore s4)

/-! ## The demo as a state machine -/

/-- What can happen to a running demo: a click on a view button (with the
`data-view` value of the button), on a navigation button, on an action button, or
a tick of the performance timer. The arguments are what the handler reads from
outside: the clock, the random draws, the answer to `confirm`. -/
inductive DemoAction where
  | viewButton (view : String)
  | prevBtn
  | todayBtn (now : Int)
  | nextBtn
  | addEventBtn (rand : Nat → ℚ) (today : Int) (proceed : Bool)
  | detectConflictsBtn
  | loadSampleBtn (today : Int)
  | clearBtn
  | performanceTick (k : PerfClock)

/-- The handlers registered by `setupEventListeners` and the timer of
`startPerformanceMonitoring`. -/
def CalendarDemo.step (d : CalendarDemo) : DemoAction → Except StoreError CalendarDemo
  | DemoAction.viewButton view =>
    Except.ok ({ d with currentView := view, calendar := d.calendar.setView view }).render
  | DemoAction.prevBtn =>
    Except.ok ({ d with calendar := d.calendar.previous }).render
  | DemoAction.todayBtn now =>
    Except.ok ({ d with calendar := d.calendar.today now }).render
  | DemoAction.nextBtn =>
    Except.ok ({ d with calendar := d.calendar.next }).render
  | DemoAction.addEventBtn rand today proceed => d.addRandomEvent rand today proceed
  | DemoAction.detectConflictsBtn => Except.ok d.detectAndShowConflicts
  | DemoAction.loadSampleBtn today => d.loadSampleEvents today
  | DemoAction.clearBtn =>
    Except.ok ((d.withStore d.eventStore.clear).render.updateStatistics.updateConflictInfo [])
  | DemoAction.performanceTick k => d.measurePerformance k

/-- The numbers `N` of the ids `event-N` that a handler generates when the
counter is `c` on entry. -/
def DemoAction.generated (c : Nat) : DemoAction → List Nat
  | DemoAction.addEventBtn _ _ _ => [c + 1]
  | DemoAction.loadSampleBtn _ => (List.range 8).map (fun i => c + 1 + i)
  | _ => []

/-- What the outside may supply to a handler: a view button carries one of the
page's `data-view` values, draws are values of `Math.random()`, the clock reads
a time value at least ten days inside the range of `Date` (within 8.64e15 ms of
the epoch), so that every date computed from it is a valid one, and does not run
backwards. -/
def DemoAction.Admissible (buttons : List String) : DemoAction → Prop
  | DemoAction.viewButton view => view ∈ buttons
  | DemoAction.addEventBtn rand today _ =>
    (∀ i, IsDraw (rand i)) ∧ |today| ≤ 8639999136000000
  | DemoAction.performanceTick k => k.Forward
  | _ => True

/-- The constructor and `init()`: a calendar on the month view with a new store,
`currentView = 'month'`, the counter at 1000, then the samples are loaded and the
page is rendered. -/
def CalendarDemo.create (cd : ConflictDetector) (capacity : Nat) (onDuplicate : DuplicatePolicy)
    (onMissing : MissingPolicy) (viewDays : ViewType → Int → List (Int × Int))
    (shiftDate : ViewType → Int → Int → Int) (now today : Int) :
    Except StoreError CalendarDemo :=
  let d0 : CalendarDemo :=
    { calendar :=
        { view := ViewType.month, date := now, weekStartsOn := 0,
          eventStore := EventStore.new capacity onDuplicate onMissing,
          viewDays := viewDays, shiftDate := shiftDate }
      conflictDetector := cd
      currentView := "month"
      eventIdCounter := 1000
      renderedBy := none
      renderedDays := []
      statsPanel := { totalEvents := 0, recurringEvents := 0, attendeeEvents := 0,
                      cacheHitRate := 0, cacheHits := 0, cacheMisses := 0, cacheEvictions := 0 }
      conflictInfo := [] }
  match d0.loadSampleEvents today with
  | Except.error err => Except.error err
  | Except.ok d1 => Except.ok d1.render.updateStatistics

/-- The states a demo can be in, each with the numbers of the ids `event-N`
generated so far, in the order of their generation. `buttons` are the `data-view`
values of the page's view buttons (the page is not among the sources). -/
inductive CalendarDemo.Trace (buttons : List String) : CalendarDemo → List Nat → Prop where
  | init (cd : ConflictDetector) (capacity : Nat) (onDuplicate : DuplicatePolicy)
      (onMissing : MissingPolicy) (viewDays : ViewType → Int → List (Int × Int))
      (shiftDate : ViewType → Int → Int → Int) (now today : Int) (d : CalendarDemo) :
      CalendarDemo.create cd capacity onDuplicate onMissing viewDays shiftDate now today
        = Except.ok d →
      CalendarDemo.Trace buttons d ((List.range 8).map (fun i => 1000 + 1 + i))
  | step (d d' : CalendarDemo) (hist : List Nat) (a : DemoAction) :
      CalendarDemo.Trace buttons d hist → a.Admissible buttons → d.step a = Except.ok d' →
      CalendarDemo.Trace buttons d' (hist ++ a.generated d.eventIdCounter)

/-- The demo's view and the calendar's view agree, and the calendar pane was
rendered by the renderer of that view. -/
def CalendarDemo.ViewInvariant (d : CalendarDemo) : Prop :=
  d.currentView = d.calendar.view.name ∧
    rendererFor d.currentView = some d.calendar.view ∧
    d.renderedBy = some d.calendar.view

/-- The numbers generated so far are increasing and bounded by the counter, and
the stored events carry distinct ids `event-N` with `N` among them. -/
def CalendarDemo.IdsInvariant (d : CalendarDemo) (hist : List Nat) : Prop :=
  hist.Pairwise (fun m n => m < n) ∧
    (∀ n ∈ hist, n ≤ d.eventIdCounter) ∧
    (∀ e ∈ d.eventStore.events, ∃ n ∈ hist, e.id = some (eventId n)) ∧
    (d.eventStore.events.map (fun e => e.id)).Nodup

/-! ## The wrapper `MinimalCalendar` (minimalCalendar.js) -/

/-- The argument of `new window.LightningCalendar.Calendar({...})`. -/
structure CalendarConfig where
  view : String
  date : Int
  weekStartsOn : Nat
  deriving DecidableEq, Repr

/-- A call that the wrapper's public methods make on `this.calendar`, with its
argument. -/
inductive CalendarCall where
  | addEvent (eventData : EventData)
  | removeEvent (eventId : String)
  | getEvents
  | setView (viewType : String)
  | goToDate (date : Int)
  deriving DecidableEq, Repr

/-- What a public method hands back: `undefined`, the array literal `[]`, or
whatever the forwarded call returned. -/
inductive Returned where
  | undefined
  | emptyArray
  | resultOf (call : CalendarCall)
  deriving DecidableEq, Repr

/-- The fields of a `MinimalCalendar`: `calendarInitialized`, `calendar` (`none`
while unset) and `renderer` (set or not). -/
structure MinimalCalendar where
  calendarInitialized : Bool
  calendar : Option CalendarConfig
  renderer : Bool
  deriving DecidableEq, Repr

/-- The field initializers: `calendarInitialized = false; calendar; renderer;`. -/
def MinimalCalendar.new : MinimalCalendar :=
  { calendarInitialized := false, calendar := none, renderer := false }

/-- The steps of `connectedCallback` that can throw into its `catch`. -/
inductive InitStep where
  | loadScript
  | createCalendar
  | createRenderer
  | addDemoEvents
  | setupEventListeners
  deriving DecidableEq, Repr

/-- The method `connectedCallback()` run at `now`, with the step that throws, if
any: nothing happens when already initialized; otherwise the fields are assigned
in order up to the failing step, and `calendarInitialized` is set when no step
fails. -/
def MinimalCalendar.connectedCallback (w : MinimalCalendar) (now : Int)
    (failure : Option InitStep) : MinimalCalendar :=
  if w.calendarInitialized then w
  else
    match failure with
    | some InitStep.loadScript => w
    | some InitStep.createCalendar => w
    | some InitStep.createRenderer =>
      { w with calendar := some { view := "month", date := now, weekStartsOn := 0 } }
    | some InitStep.addDemoEvents =>
      { w with calendar := some { view := "month", date := now, weekStartsOn := 0 },
               renderer := true }
    | some InitStep.setupEventListeners =>
      { w with calendar := some { view := "month", date := now, weekStartsOn := 0 },
               renderer := true }
    | none =>
      { calendarInitialized := true
        calendar := some { view := "month", date := now, weekStartsOn := 0 }
        renderer := true }

/-- The method `addEvent(eventData)`: the calls it makes on the calendar and what
it returns. -/
def MinimalCalendar.addEvent (w : MinimalCalendar) (eventData : EventData) :
    List CalendarCall × Returned :=
  match w.calendar with
  | some _ => ([CalendarCall.addEvent eventData], Returned.resultOf (CalendarCall.addEvent eventData))
  | none => ([], Returned.undefined)

/-- The method `removeEvent(eventId)`. -/
def MinimalCalendar.removeEvent (w : MinimalCalendar) (eventId : String) :
    List CalendarCall × Returned :=
  match w.calendar with
  | some _ =>
    ([CalendarCall.removeEvent eventId], Returned.resultOf (CalendarCall.removeEvent eventId))
  | none => ([], Returned.undefined)

/-- The method `getEvents()`: `this.calendar ? this.calendar.getEvents() : []`. -/
def MinimalCalendar.getEvents (w : MinimalCalendar) : List CalendarCall × Returned :=
  match w.calendar with
  | some _ => ([CalendarCall.getEvents], Returned.resultOf CalendarCall.getEvents)
  | none => ([], Returned.emptyArray)

/-- The method `setView(viewType)`, which returns nothing. -/
def MinimalCalendar.setView (w : MinimalCalendar) (viewType : String) :
    List CalendarCall × Returned :=
  match w.calendar with
  | some _ => ([CalendarCall.setView viewType], Returned.undefined)
  | none => ([], Returned.undefined)

/-- The method `navigateToDate(date)`, which calls `goToDate` and returns nothing. -/
def MinimalCalendar.navigateToDate (w : MinimalCalendar) (date : Int) :
    List CalendarCall × Returned :=
  match w.calendar with
  | some _ => ([CalendarCall.goToDate date], Returned.undefined)
  | none => ([], Returned.undefined)

/-! ## Concrete instances used as witnesses -/

/-- A detector that grades a Resource conflict high and a Time conflict medium,
worded as in the example of spec §4.2. -/
def sampleDetector : ConflictDetector :=
  { severity := fun t _ _ =>
      match t with
      | ConflictType.Resource => Severity.high
      | ConflictType.Time => Severity.medium
    description := fun t _ _ =>
      match t with
      | ConflictType.Resource => "overlaps with an existing booking of the same resource"
      | ConflictType.Time => "overlaps in time" }

/-- A store as constructed with room for 100 cached queries. -/
def freshStore : EventStore :=
  EventStore.new 100 DuplicatePolicy.overwrite MissingPolicy.silent

/-- The store after the demo's "Product Workshop" and "Client Presentation" (ids
`event-1003`, `event-1004`, day `0` of the time line as today) were added to a
fresh store. -/
def roomStore : EventStore :=
  { freshStore with events := [productWorkshop 1000 0, clientPresentation 1000 0] }

/-- The store after `testData` was added to a fresh store. -/
def singleStore : EventStore :=
  { freshStore with events := [Event.normalize testData] }

/-- The rule of the demo's "Daily Standup":
`{freq: 'DAILY', byDay: ['MO', 'TU', 'WE', 'TH', 'FR']}`. -/
def weekdayRule : RecurrenceRule :=
  { freq := Freq.DAILY
    byDay := [Weekday.MO, Weekday.TU, Weekday.WE, Weekday.TH, Weekday.FR] }

/-- The store after the demo's "Daily Standup" was added to a fresh store on
day `11` of the time line (Monday 1970-01-12). -/
def standupStore : EventStore :=
  { freshStore with events := [dailyStandup 1000 (11 * DAY)] }

/-- The view engine of the witnesses: the seven days from the anchor's day on. -/
def weekOfDays (_ : ViewType) (date : Int) : List (Int × Int) :=
  (List.range 7).map (fun i => (startOfDay date + i * DAY, startOfDay date + (i + 1) * DAY - 1))

/-- The calendar arithmetic of the witnesses: every unit is a day. -/
def shiftByDays (_ : ViewType) (date n : Int) : Int := date + n * DAY

/-- A demo before `init()` has loaded anything: month view, empty store, the
counter at 1000. -/
def emptyDemo : CalendarDemo :=
  { calendar :=
      { view := ViewType.month, date := 0, weekStartsOn := 0, eventStore := freshStore,
        viewDays := weekOfDays, shiftDate := shiftByDays }
    conflictDetector := sampleDetector
    currentView := "month"
    eventIdCounter := 1000
    renderedBy := none
    renderedDays := []
    statsPanel := { totalEvents := 0, recurringEvents := 0, attendeeEvents := 0,
                    cacheHitRate := 0, cacheHits := 0, cacheMisses := 0, cacheEvictions := 0 }
    conflictInfo := [] }

/-- A clock that stands still at `0`. -/
def stillClock : PerfClock :=
  { idStamp := 0, testStart := 0, testEndBase := 0, queryStart := 0, queryEndBase := 0,
    batchStart := fun _ => 0, batchEndBase := fun _ => 0 }

/-- The four `data-view` values of a page with one button per view. -/
def viewNames : List String := ["month", "week", "day", "list"]

/-- A demo whose store holds the "Product Workshop" and the "Client
Presentation". -/
def roomDemo : CalendarDemo := emptyDemo.withStore roomStore

/-- A demo whose store holds the "Daily Standup" added on Monday, day `11`. -/
def standupDemo : CalendarDemo := emptyDemo.withStore standupStore

/-- The event that `addRandomEvent` builds on day `18` with the counter at 1000
when every draw is `0`: seven days back, on day `11`, from 09:00 to 09:30, with
the first entry of every list. -/
def zeroDrawEvent : EventData :=
  { EventData.empty with
    id := some "event-1001"
    title := some "Strategy Meeting"
    start := some (11 * DAY + 9 * HOUR)
    «end» := some (11 * DAY + 9 * HOUR + 30 * MINUTE)
    location := some "Conference Room A"
    attendees :=
      [ { name := "Alice Johnson", email := "alice@company.com",
          responseStatus := some ResponseStatus.accepted, resource := false } ]
    categories := some ["generated"]
    status := some EventStatus.confirmed
    reminders := [{ method := "email", minutesBefore := 15 }] }

/-! ## Reading a decimal numeral back -/

/-- Value of a decimal digit character. -/
def digitValue (c : Char) : Nat := c.toNat - 48

/-- Value of a string of decimal digits read after the prefix of value `acc`. -/
def digitsValue (acc : Nat) (cs : List Char) : Nat :=
  cs.foldl (fun a c => a * 10 + digitValue c) acc

/-! ## What the hosts use of the core -/

/-- The kinds of core object a host holds. -/
inductive CoreObject where
  | Calendar | EventStore | ConflictDetector | Optimizer
  deriving DecidableEq, Repr

/-- A place in a host's source where a member of a core object is called or read:
the source line, the kind of the receiver, and the member's name. -/
structure CoreAccess where
  line : Nat
  object : CoreObject
  member : String
  deriving DecidableEq, Repr

/-- The operations of the external interface of spec §6. -/
def specInterface : List (CoreObject × String) :=
  [ (CoreObject.EventStore, "addEvent"), (CoreObject.EventStore, "addEvents"),
    (CoreObject.EventStore, "removeEvent"), (CoreObject.EventStore, "getEvent"),
    (CoreObject.EventStore, "getAllEvents"), (CoreObject.EventStore, "getEventsInRange"),
    (CoreObject.EventStore, "getStats"), (CoreObject.EventStore, "clear"),
    (CoreObject.ConflictDetector, "checkConflicts"),
    (CoreObject.Calendar, "setView"), (CoreObject.Calendar, "previous"),
    (CoreObject.Calendar, "next"), (CoreObject.Calendar, "today"),
    (CoreObject.Calendar, "getViewData"), (CoreObject.Calendar, "on"),
    (CoreObject.Calendar, "addEvent"), (CoreObject.Calendar, "addEvents"),
    (CoreObject.Calendar, "removeEvent") ]

/-- Every member access on `this.calendar`, `this.eventStore`,
`this.conflictDetector` (and on the store's `optimizer`) in `src/demo/demo.js`,
in source order. -/
def CalendarDemo.coreAccesses : List CoreAccess :=
  [ { line := 32, object := CoreObject.Calendar, member := "eventStore" },
    { line := 58, object := CoreObject.Calendar, member := "setView" },
    { line := 65, object := CoreObject.Calendar, member := "previous" },
    { line := 70, object := CoreObject.Calendar, member := "today" },
    { line := 75, object := CoreObject.Calendar, member := "next" },
    { line := 93, object := CoreObject.EventStore, member := "clear" },
    { line := 100, object := CoreObject.Calendar, member := "on" },
    { line := 105, object := CoreObject.Calendar, member := "on" },
    { line := 110, object := CoreObject.Calendar, member := "on" },
    { line := 118, object := CoreObject.EventStore, member := "clear" },
    { line := 260, object := CoreObject.EventStore, member := "addEvent" },
    { line := 318, object := CoreObject.ConflictDetector, member := "checkConflicts" },
    { line := 324, object := CoreObject.EventStore, member := "addEvent" },
    { line := 329, object := CoreObject.EventStore, member := "getAllEvents" },
    { line := 333, object := CoreObject.ConflictDetector, member := "checkConflicts" },
    { line := 365, object := CoreObject.EventStore, member := "getStats" },
    { line := 366, object := CoreObject.EventStore, member := "getAllEvents" },
    { line := 377, object := CoreObject.EventStore, member := "optimizer" },
    { line := 377, object := CoreObject.Optimizer, member := "getCacheStats" },
    { line := 408, object := CoreObject.EventStore, member := "addEvent" },
    { line := 414, object := CoreObject.EventStore, member := "getEventsInRange" },
    { line := 420, object := CoreObject.ConflictDetector, member := "checkConflicts" },
    { line := 425, object := CoreObject.EventStore, member := "removeEvent" },
    { line := 436, object := CoreObject.EventStore, member := "addEvents" },
    { line := 441, object := CoreObject.EventStore, member := "removeEvent" },
    { line := 448, object := CoreObject.Calendar, member := "getViewData" },
    { line := 475, object := CoreObject.EventStore, member := "getEvent" } ]

/-- Every member access on `this.calendar` in `minimalCalendar.js`, in source
order. -/
def MinimalCalendar.coreAccesses : List CoreAccess :=
  [ { line := 93, object := CoreObject.Calendar, member := "addEvent" },
    { line := 99, object := CoreObject.Calendar, member := "on" },
    { line := 106, object := CoreObject.Calendar, member := "on" },
    { line := 112, object := CoreObject.Calendar, member := "on" },
    { line := 121, object := CoreObject.Calendar, member := "addEvent" },
    { line := 128, object := CoreObject.Calendar, member := "removeEvent" },
    { line := 134, object := CoreObject.Calendar, member := "getEvents" },
    { line := 140, object := CoreObject.Calendar, member := "setView" },
    { line := 147, object := CoreObject.Calendar, member := "goToDate" } ]

/-- The members the hosts use beyond the interface of spec §6. -/
def hostExtensions : List (CoreObject × String) :=
  [ (CoreObject.Calendar, "eventStore"), (CoreObject.EventStore, "optimizer"),
    (CoreObject.Optimizer, "getCacheStats"), (CoreObject.Calendar, "getEvents"),
    (CoreObject.Calendar, "goToDate") ]

/-- A subscription `this.calendar.on(eventName, handler)` in a host's source: the
source line and the event name. -/
structure Subscription where
  line : Nat
  eventName : String
  deriving DecidableEq, Repr

/-- The event names of `on(eventName, handler)` in spec §6. -/
def specEventNames : List String := ["eventAdd", "eventUpdate", "eventRemove", "viewChange"]

/-- The subscriptions of `CalendarDemo.setupEventListeners`. -/
def CalendarDemo.subscriptions : List Subscription :=
  [ { line := 100, eventName := "eventAdd" },
    { line := 105, eventName := "eventUpdate" },
    { line := 110, eventName := "eventRemove" } ]

/-- The subscriptions of `MinimalCalendar.setupEventListeners`. -/
def MinimalCalendar.subscriptions : List Subscription :=
  [ { line := 99, eventName := "eventClick" },
    { line := 106, eventName := "dateClick" },
    { line := 112, eventName := "viewChange" } ]

/-! ## Store lemmas -/

theorem getEventsInRange_events (s : EventStore) (a b : Int) :
    (s.getEventsInRange a b).2.events = s.events := by
  unfold EventStore.getEventsInRange
  split
  · rfl
  · dsimp only
    split <;> rfl

theorem getEventsInRange_result (s : EventStore) (h : s.CacheValid) (a b : Int) :
    (s.getEventsInRange a b).1 = rangeQuery s.events a b := by
  unfold EventStore.getEventsInRange
  split
  · next c hc =>
    have hmem := List.mem_of_find?_eq_some hc
    have hkey := List.find?_some hc
    simp only [CacheEntry.hasKey, Bool.and_eq_true, decide_eq_true_eq] at hkey
    rw [h c hmem, hkey.1, hkey.2]
  · dsimp only
    split <;> rfl

theorem getEventsInRange_cacheValid (s : EventStore) (h : s.CacheValid) (a b : Int) :
    (s.getEventsInRange a b).2.CacheValid := by
  unfold EventStore.getEventsInRange
  split
  · next c hc =>
    have hmem := List.mem_of_find?_eq_some hc
    intro x hx
    simp only [List.mem_cons, List.mem_filter] at hx
    rcases hx with rfl | ⟨hx, _⟩
    · exact h _ hmem
    · exact h x hx
  · dsimp only
    split
    · intro x hx
      have hx' := List.mem_of_mem_dropLast hx
      simp only [List.mem_cons] at hx'
      rcases hx' with rfl | hx'
      · rfl
      · exact h x hx'
    · intro x hx
      simp only [List.mem_cons] at hx
      rcases hx with rfl | hx
      · rfl
      · exact h x hx

theorem clear_cacheValid (s : EventStore) : s.clear.CacheValid := by
  intro c hc
  simp [EventStore.clear] at hc

theorem new_cacheValid (capacity : Nat) (p : DuplicatePolicy) (m : MissingPolicy) :
    (EventStore.new capacity p m).CacheValid := by
  intro c hc
  simp [EventStore.new] at hc

/-- A successful `addEvent` leaves no stale cache entry. -/
theorem addEvent_cacheValid (s : EventStore) (e r : EventData) (s' : EventStore)
    (h : s.addEvent e = Except.ok (r, s')) : s'.CacheValid := by
  have hc : s'.cache = [] := by
    unfold EventStore.addEvent at h
    dsimp only at h
    split at h
    · split at h
      · split at h
        · cases h
        · cases h
          rfl
      · cases h
        rfl
    · cases h
  intro c hmem
  rw [hc] at hmem
  cases hmem

/-- A successful `removeEvent` leaves no stale cache entry. -/
theorem removeEvent_cacheValid (s : EventStore) (hs : s.CacheValid) (id : String)
    (s' : EventStore) (h : s.removeEvent id = Except.ok s') : s'.CacheValid := by
  unfold EventStore.removeEvent at h
  split at h
  · cases h
    intro c hmem
    cases hmem
  · split at h
    · cases h
      exact hs
    · cases h

/-- Adding an event whose normalized form is valid and whose id is not stored
appends the normalized form and empties the cache. -/
theorem addEvent_fresh (s : EventStore) (e : EventData)
    (hv : EventStore.isValid (Event.normalize e) = true)
    (hid : ∀ x ∈ s.events, x.id ≠ e.id) :
    s.addEvent e = Except.ok (Event.normalize e,
      { s with events := s.events ++ [Event.normalize e], cache := [] }) := by
  have hany : (s.events.any (fun x => decide (x.id = (Event.normalize e).id))) = false := by
    rw [List.any_eq_false]
    intro x hx
    have := hid x hx
    simpa [Event.normalize] using this
  simp only [EventStore.addEvent, hv, hany, if_true]
  rfl

/-- Items of a range query carry the id of the stored event they come from. -/
theorem expandEvent_id (a b : Int) (e : EventData) :
    ∀ it ∈ expandEvent a b e, it.event.id = e.id := by
  intro it hit
  unfold expandEvent at hit
  split at hit
  · simp at hit
  · dsimp only at hit
    split at hit
    · unfold expandRecurring at hit
      simp only [List.mem_map, List.mem_filter] at hit
      obtain ⟨k, _, rfl⟩ := hit
      rfl
    · split at hit
      · simp only [List.mem_singleton] at hit
        rw [hit]
      · simp at hit

/-- Excluding an id from a range-query result amounts to querying the stored
events without that id. -/
theorem overlapCandidates_rangeQuery (events : List EventData) (a b : Int) (cand : EventData) :
    overlapCandidates (rangeQuery events a b) cand =
      rangeQuery (events.filter (fun x => !decide (x.id = cand.id))) a b := by
  induction events with
  | nil => rfl
  | cons e rest ih =>
    have hsplit : rangeQuery (e :: rest) a b = expandEvent a b e ++ rangeQuery rest a b := by
      simp [rangeQuery]
    have hcands : overlapCandidates (expandEvent a b e ++ rangeQuery rest a b) cand =
        overlapCandidates (expandEvent a b e) cand ++ overlapCandidates (rangeQuery rest a b) cand := by
      simp [overlapCandidates]
    rw [hsplit, hcands, ih]
    by_cases hid : e.id = cand.id
    · have h1 : overlapCandidates (expandEvent a b e) cand = [] := by
        unfold overlapCandidates
        rw [List.filter_eq_nil_iff]
        intro it hit
        simp [expandEvent_id a b e it hit, hid]
      simp [h1, List.filter_cons, hid]
    · have h1 : overlapCandidates (expandEvent a b e) cand = expandEvent a b e := by
        unfold overlapCandidates
        rw [List.filter_eq_self]
        intro it hit
        simp [expandEvent_id a b e it hit, hid]
      simp [h1, List.filter_cons, hid, rangeQuery]

/-! ## Conflict detector lemmas -/

theorem analyse_eq (cd : ConflictDetector) (s : EventStore) (hs : s.CacheValid)
    (cand : EventData) (st : Int) (hst : cand.start = some st) :
    (cd.analyse s cand).1 =
      (rangeQuery (s.events.filter (fun x => !decide (x.id = cand.id))) st
        (cand.«end».getD st)).flatMap
        (fun it => (cd.classify cand it.event).map (fun c => (it, c))) := by
  simp only [ConflictDetector.analyse, hst, ConflictDetector.detect]
  rw [getEventsInRange_result s hs, overlapCandidates_rangeQuery]

theorem sharesAttendee_of_mem (x y : EventData) (r : Attendee)
    (hx : r ∈ x.attendees) (hy : r ∈ y.attendees) :
    sharesAttendee r.resource x y = true := by
  unfold sharesAttendee
  rw [List.any_eq_true]
  refine ⟨r, hx, ?_⟩
  simp only [beq_self_eq_true, Bool.true_and]
  rw [List.any_eq_true]
  exact ⟨r, hy, by simp⟩

theorem classify_resource (cd : ConflictDetector) (cand other : EventData)
    (h : sharesAttendee true cand other = true) :
    (cd.classify cand other).filter (fun c => decide (c.type = ConflictType.Resource)) =
      [{ type := ConflictType.Resource
         description := cd.description ConflictType.Resource cand other
         severity := cd.severity ConflictType.Resource cand other }] := by
  unfold ConflictDetector.classify
  rw [h]
  generalize (!cand.allDay && !other.allDay &&
    (sharesAttendee false cand other || !true)) = t
  cases t <;> simp

theorem classify_resource_only (cd : ConflictDetector) (cand other : EventData)
    (h : sharesAttendee true cand other = true) (hp : sharesAttendee false cand other = false) :
    cd.classify cand other =
      [{ type := ConflictType.Resource
         description := cd.description ConflictType.Resource cand other
         severity := cd.severity ConflictType.Resource cand other }] := by
  unfold ConflictDetector.classify
  rw [h, hp]
  simp

/-! ## Normalization (C1, C2) -/

/-- In the debug script's first case the singular category becomes the only member. -/
theorem normalize_testData :
    (Event.normalize testData).categories = some ["meeting"] ∧
      (Event.normalize testData).category = none := by
  decide

/-- C1: for every input that carries a singular `category` `c`, the normalized
form has no `category` key and its `categories` is the collection of exactly that
one value, `[c]`. -/
theorem normalize_folds_category (data : EventData) (c : String)
    (h : data.category = some c) :
    (Event.normalize data).category = none ∧
      (Event.normalize data).categories = some [c] := by
  refine ⟨rfl, ?_⟩
  simp only [Event.normalize, h, foldCategory]

/-- Witness of C1 on the two inputs of the debug script: `testData`, and the
argument of `event2`, which carries `categories` of its own as well. -/
theorem normalize_folds_category_witness :
    ((Event.normalize testData).category = none ∧
        (Event.normalize testData).categories = some ["meeting"]) ∧
      ((Event.normalize event2Data).category = none ∧
        (Event.normalize event2Data).categories = some ["meeting"]) :=
  ⟨normalize_folds_category testData "meeting" rfl,
   normalize_folds_category event2Data "meeting" rfl⟩

/-- C2: `Event.normalize` is idempotent: normalizing a normalized form changes
nothing, whatever `category` and `categories` the input carries. -/
theorem normalize_idempotent (data : EventData) :
    Event.normalize (Event.normalize data) = Event.normalize data := by
  simp [Event.normalize, foldCategory]

/-! ## Host accesses (C3, C4) -/

/-- C3 (as stated, refuted): the demo reads `calendar.eventStore`, a member that
is not an operation of the interface of spec §6, so not every access of the hosts
is one of the listed operations. -/
theorem hosts_leave_spec_interface :
    ¬ ∀ a ∈ CalendarDemo.coreAccesses ++ MinimalCalendar.coreAccesses,
        (a.object, a.member) ∈ specInterface := by
  decide

/-- C3 (amended): every member the hosts call or read on a core object is an
operation of the interface of spec §6 or one of the five further members
`Calendar.eventStore`, `EventStore.optimizer`, `Optimizer.getCacheStats`,
`Calendar.getEvents`, `Calendar.goToDate`; and each of those five is used. -/
theorem hosts_use_interface_or_extensions :
    (∀ a ∈ CalendarDemo.coreAccesses ++ MinimalCalendar.coreAccesses,
        (a.object, a.member) ∈ specInterface ∨ (a.object, a.member) ∈ hostExtensions) ∧
      (∀ m ∈ hostExtensions, m ∉ specInterface ∧
        ∃ a ∈ CalendarDemo.coreAccesses ++ MinimalCalendar.coreAccesses,
          (a.object, a.member) = m) := by
  decide

/-- C4 (as stated, refuted): `MinimalCalendar` subscribes to `eventClick`, which
is not one of `eventAdd`, `eventUpdate`, `eventRemove`, `viewChange`. -/
theorem hosts_subscribe_outside_spec_names :
    ¬ ∀ sub ∈ CalendarDemo.subscriptions ++ MinimalCalendar.subscriptions,
        sub.eventName ∈ specEventNames := by
  decide

/-- C4 (amended): every subscription of `CalendarDemo` uses one of the four event
names of spec §6, and every subscription of `MinimalCalendar` uses one of
`eventClick`, `dateClick`, `viewChange`. -/
theorem host_subscription_names :
    (∀ sub ∈ CalendarDemo.subscriptions, sub.eventName ∈ specEventNames) ∧
      (∀ sub ∈ MinimalCalendar.subscriptions,
        sub.eventName ∈ ["eventClick", "dateClick", "viewChange"]) ∧
      (∀ sub ∈ CalendarDemo.subscriptions ++ MinimalCalendar.subscriptions,
        sub.eventName ∈ specEventNames ++ ["eventClick", "dateClick"]) := by
  decide

/-! ## Conflict detection (C5, C6, C7) -/

/-- C5: let the store hold, apart from `B`, exactly the non-recurring event `A`,
where `A` spans 14:00-16:00 and `B` spans 15:00-17:00 of the same day and both
list the same attendee `r` flagged `resource: true`. Then `checkConflicts(B)`
reports exactly one conflict of type Resource, and that conflict is the one with
`A`. When `A` and `B` share no person attendee (as the demo's two events) it is
the only conflict reported. -/
theorem checkConflicts_shared_room (cd : ConflictDetector) (s : EventStore)
    (A B : EventData) (d : Int) (r : Attendee)
    (hA : A.start = some (d + 14 * HOUR) ∧ A.«end» = some (d + 16 * HOUR))
    (hB : B.start = some (d + 15 * HOUR) ∧ B.«end» = some (d + 17 * HOUR))
    (hrec : A.recurring = false)
    (hrA : r ∈ A.attendees) (hrB : r ∈ B.attendees) (hres : r.resource = true)
    (hs : s.CacheValid)
    (hstore : s.events.filter (fun x => !decide (x.id = B.id)) = [A]) :
    (cd.analyse s B).1.filter (fun p => decide (p.2.type = ConflictType.Resource)) =
        [({ event := A, occurrence := none },
          { type := ConflictType.Resource
            description := cd.description ConflictType.Resource B A
            severity := cd.severity ConflictType.Resource B A })] ∧
      ((cd.checkConflicts s B).1.conflicts.filter
        (fun c => decide (c.type = ConflictType.Resource))).length = 1 ∧
      (sharesAttendee false B A = false →
        (cd.checkConflicts s B).1 =
          { hasConflicts := true
            totalConflicts := 1
            conflicts :=
              [{ type := ConflictType.Resource
                 description := cd.description ConflictType.Resource B A
                 severity := cd.severity ConflictType.Resource B A }] }) := by
  have hshare : sharesAttendee true B A = true := by
    have := sharesAttendee_of_mem B A r hrB hrA
    rwa [hres] at this
  have hq : rangeQuery [A] (d + 15 * HOUR) (d + 17 * HOUR) = [{ event := A, occurrence := none }] := by
    have hi : spansIntersect (d + 14 * HOUR) (d + 16 * HOUR) (d + 15 * HOUR) (d + 17 * HOUR) = true := by
      simp only [spansIntersect, HOUR, Bool.and_eq_true, decide_eq_true_eq]
      omega
    simp [rangeQuery, expandEvent, hA.1, hA.2, hrec, hi]
  have han := analyse_eq cd s hs B (d + 15 * HOUR) hB.1
  rw [hstore, hB.2, Option.getD_some, hq] at han
  simp only [List.flatMap_cons, List.flatMap_nil, List.append_nil] at han
  have hcc : (cd.checkConflicts s B).1.conflicts = (cd.analyse s B).1.map Prod.snd := rfl
  have hsnd : (cd.analyse s B).1.map Prod.snd = cd.classify B A := by
    rw [han, List.map_map]
    simp [Function.comp_def]
  refine ⟨?_, ?_, ?_⟩
  · rw [han, List.filter_map]
    simp only [Function.comp_def]
    rw [classify_resource cd B A hshare]
    rfl
  · rw [hcc, hsnd, classify_resource cd B A hshare]
    rfl
  · intro hperson
    simp only [ConflictDetector.checkConflicts, hsnd,
      classify_resource_only cd B A hshare hperson, ConflictResult.ofConflicts]
    rfl

/-- Witness of C5: the demo's "Product Workshop" (14:00-16:00) and "Client
Presentation" (15:00-17:00), both with the attendee "Conference Room A" flagged
`resource: true`, in a store reached by adding the two to a fresh store. -/
theorem checkConflicts_shared_room_witness :
    addEach freshStore [productWorkshop 1000 0, clientPresentation 1000 0] = Except.ok roomStore ∧
      (sampleDetector.checkConflicts roomStore (clientPresentation 1000 0)).1 =
        { hasConflicts := true
          totalConflicts := 1
          conflicts :=
            [{ type := ConflictType.Resource
               description := "overlaps with an existing booking of the same resource"
               severity := Severity.high }] } :=
  ⟨rfl,
   (checkConflicts_shared_room sampleDetector roomStore (productWorkshop 1000 0)
      (clientPresentation 1000 0) 172800000
      { name := "Conference Room A", email := "room-a@company.com",
        responseStatus := none, resource := true }
      (by decide) (by decide) (by decide) (by decide) (by decide) (by decide)
      (by intro c hc; cases hc) (by decide)).2.2 (by decide)⟩

/-- C6: every conflict that `checkConflicts(e)` returns comes from an overlap
candidate whose id differs from `e`'s id, i.e. no returned conflict is a conflict
of `e` with itself; and in a store that holds only `e`, `checkConflicts(e)` has
`hasConflicts = false`. -/
theorem checkConflicts_excludes_self (cd : ConflictDetector) (s : EventStore) (e : EventData) :
    (cd.checkConflicts s e).1.conflicts = (cd.analyse s e).1.map Prod.snd ∧
      (∀ p ∈ (cd.analyse s e).1, p.1.event.id ≠ e.id) ∧
      (s.CacheValid → s.events = [e] → (cd.checkConflicts s e).1.hasConflicts = false) := by
  refine ⟨rfl, ?_, ?_⟩
  · intro p hp
    unfold ConflictDetector.analyse at hp
    split at hp
    · simp at hp
    · simp only [ConflictDetector.detect, overlapCandidates, List.mem_flatMap, List.mem_filter,
        List.mem_map] at hp
      obtain ⟨it, ⟨_, hne⟩, c, _, rfl⟩ := hp
      simpa using hne
  · intro hs hev
    cases hst : e.start with
    | none => simp [ConflictDetector.checkConflicts, ConflictDetector.analyse, hst,
        ConflictResult.ofConflicts]
    | some st =>
      have han := analyse_eq cd s hs e st hst
      rw [hev] at han
      simp only [List.filter_cons, decide_True, Bool.not_true, List.filter_nil] at han
      simp [ConflictDetector.checkConflicts, han, rangeQuery, ConflictResult.ofConflicts]

/-- Witness of C6: the store that holds only the debug script's `testData`. -/
theorem checkConflicts_excludes_self_witness :
    addEach freshStore [testData] = Except.ok singleStore ∧
      (sampleDetector.checkConflicts singleStore (Event.normalize testData)).1.hasConflicts
        = false :=
  ⟨rfl,
   (checkConflicts_excludes_self sampleDetector singleStore (Event.normalize testData)).2.2
      (by intro c hc; cases hc) rfl⟩

/-- C7: for every detector, store and candidate, the result of `checkConflicts`
has `totalConflicts` equal to the length of `conflicts` and `hasConflicts` true
exactly when `totalConflicts > 0`; so the list the demo pushes for an event in
`detectAndShowConflicts`, reading `conflicts` only under `hasConflicts`, is the
list of all its conflicts. -/
theorem checkConflicts_counts (cd : ConflictDetector) (s : EventStore) (cand : EventData) :
    (cd.checkConflicts s cand).1.totalConflicts = (cd.checkConflicts s cand).1.conflicts.length ∧
      ((cd.checkConflicts s cand).1.hasConflicts = true ↔
        0 < (cd.checkConflicts s cand).1.totalConflicts) ∧
      (∀ acc : List DisplayedConflict,
        (detectStep cd (acc, s) cand).1 =
          acc ++ (cd.checkConflicts s cand).1.conflicts.map (fun c =>
            { type := c.type, description := c.description, severity := c.severity,
              eventTitle := cand.title })) := by
  refine ⟨rfl, ?_, ?_⟩
  · simp [ConflictDetector.checkConflicts, ConflictResult.ofConflicts]
  · intro acc
    unfold detectStep
    dsimp only
    split
    · rfl
    · next h =>
      have hlen : (cd.checkConflicts s cand).1.conflicts = [] := by
        simp only [ConflictDetector.checkConflicts, ConflictResult.ofConflicts,
          decide_eq_true_eq, Bool.not_eq_true, decide_eq_false_iff_not, not_lt,
          Nat.le_zero, List.length_eq_zero] at h ⊢
        exact h
      rw [hlen]
      simp

/-! ## Clearing the store (C9) -/

/-- C9: for every store state, after `clear()` the result of `getStats()` has
`totalEvents = 0` and cache hits, misses and evictions all `0`, and
`getAllEvents()` is empty. -/
theorem clear_resets (s : EventStore) :
    s.clear.getStats.totalEvents = 0 ∧
      s.clear.getStats.cache.hits = 0 ∧
      s.clear.getStats.cache.misses = 0 ∧
      s.clear.getStats.cache.evictions = 0 ∧
      s.clear.getAllEvents = [] :=
  ⟨rfl, rfl, rfl, rfl, rfl⟩

/-! ## Recurrence expansion (C8) -/

theorem weekdayRule_allows (t : Int) :
    weekdayRule.allows t = decide (1 ≤ (t / DAY + 4) % 7 ∧ (t / DAY + 4) % 7 ≤ 5) := by
  have h0 : 0 ≤ (t / DAY + 4) % 7 := Int.emod_nonneg _ (by decide)
  have h7 : (t / DAY + 4) % 7 < 7 := Int.emod_lt_of_pos _ (by decide)
  unfold RecurrenceRule.allows weekdayOf weekdayRule
  generalize (t / DAY + 4) % 7 = x at h0 h7 ⊢
  interval_cases x <;> decide

theorem weekdays_in_seven (x : Int) (h0 : 0 ≤ x) (h7 : x < 7) :
    ((List.range 7).filter
      (fun i : Nat => decide (1 ≤ (x + (i : Int)) % 7 ∧ (x + (i : Int)) % 7 ≤ 5))).length = 5 := by
  interval_cases x <;> decide

/-- A weekday-only daily series of 09:00-09:15 whose template lies on day `e0`
has five occurrences in the seven whole days from day `w` on. -/
theorem standup_week_length (e : EventData) (e0 w b : Int)
    (hb : (w + 7) * DAY - 1 ≤ b ∧ b ≤ (w + 7) * DAY) :
    (expandRecurring e weekdayRule (e0 * DAY + 9 * HOUR) (15 * MINUTE) (w * DAY) b).length
      = 5 := by
  have hstep : weekdayRule.freq.step = DAY := rfl
  have hfirst : -((e0 * DAY + 9 * HOUR + 15 * MINUTE - w * DAY) / DAY) = w - e0 := by
    simp only [DAY, HOUR, MINUTE]
    omega
  have hlast : (b - (e0 * DAY + 9 * HOUR)) / DAY = w - e0 + 6 := by
    simp only [DAY, HOUR] at *
    omega
  unfold expandRecurring
  simp only [hstep, hfirst, hlast]
  rw [List.length_map, show (w - e0 + 6 - (w - e0) + 1).toNat = 7 by omega, List.filter_map,
    List.length_map]
  have h2 : (List.range 7).filter ((fun (k : Int) =>
      weekdayRule.allows (e0 * DAY + 9 * HOUR + k * DAY) &&
        spansIntersect (e0 * DAY + 9 * HOUR + k * DAY)
          (e0 * DAY + 9 * HOUR + k * DAY + 15 * MINUTE) (w * DAY) b) ∘
        (fun (j : Nat) => w - e0 + (j : Int))) =
      (List.range 7).filter (fun i : Nat =>
        decide (1 ≤ ((w + 4) % 7 + (i : Int)) % 7 ∧ ((w + 4) % 7 + (i : Int)) % 7 ≤ 5)) := by
    apply List.filter_congr
    intro i hi
    rw [List.mem_range] at hi
    have hsp : spansIntersect (e0 * DAY + 9 * HOUR + (w - e0 + (i : Int)) * DAY)
        (e0 * DAY + 9 * HOUR + (w - e0 + (i : Int)) * DAY + 15 * MINUTE) (w * DAY) b = true := by
      simp only [spansIntersect, Bool.and_eq_true, decide_eq_true_eq, DAY, HOUR, MINUTE] at *
      omega
    simp only [Function.comp_apply, hsp, Bool.and_true, weekdayRule_allows]
    rw [decide_eq_decide]
    simp only [DAY, HOUR] at *
    constructor <;> intro h <;> omega
  rw [h2]
  exact weekdays_in_seven _ (Int.emod_nonneg _ (by decide)) (Int.emod_lt_of_pos _ (by decide))

/-- C8: for a store holding one recurring event of 09:00-09:15 with a daily
frequency restricted to MO, TU, WE, TH, FR (its template on any day `e0`),
`getEventsInRange` over every window of seven consecutive whole days, from the
midnight that begins day `w` (the window may end with the last instant of its
seventh day or with the following midnight), returns exactly five items, each
an occurrence of that event. -/
theorem standup_five_per_week (s : EventStore) (e : EventData) (e0 w b : Int)
    (hstart : e.start = some (e0 * DAY + 9 * HOUR))
    (hend : e.«end» = some (e0 * DAY + 9 * HOUR + 15 * MINUTE))
    (hrec : e.recurring = true)
    (hrule : e.recurrenceRule = some weekdayRule)
    (hs : s.CacheValid) (hev : s.events = [e])
    (hb : (w + 7) * DAY - 1 ≤ b ∧ b ≤ (w + 7) * DAY) :
    (s.getEventsInRange (w * DAY) b).1.length = 5 ∧
      ∀ it ∈ (s.getEventsInRange (w * DAY) b).1, it.event.id = e.id ∧ it.occurrence ≠ none := by
  have hq : (s.getEventsInRange (w * DAY) b).1 =
      expandRecurring e weekdayRule (e0 * DAY + 9 * HOUR) (15 * MINUTE) (w * DAY) b := by
    rw [getEventsInRange_result s hs, hev]
    simp [rangeQuery, expandEvent, hstart, hend, hrec, hrule]
  rw [hq]
  refine ⟨standup_week_length e e0 w b hb, ?_⟩
  intro it hit
  unfold expandRecurring at hit
  simp only [List.mem_map, List.mem_filter] at hit
  obtain ⟨k, _, rfl⟩ := hit
  exact ⟨rfl, by simp⟩

/-- Witness of C8: the demo's "Daily Standup" added on Monday, day `11`, queried
over the seven whole days `11 .. 17`, and over the seven whole days `4 .. 10`. -/
theorem standup_five_per_week_witness :
    (standupStore.getEventsInRange (11 * DAY) (18 * DAY)).1.length = 5 ∧
      (standupStore.getEventsInRange (4 * DAY) (11 * DAY)).1.length = 5 :=
  ⟨(standup_five_per_week standupStore (dailyStandup 1000 (11 * DAY)) 11 11 (18 * DAY)
      (by decide) (by decide) rfl rfl (by intro c hc; cases hc) rfl (by decide)).1,
   (standup_five_per_week standupStore (dailyStandup 1000 (11 * DAY)) 11 4 (11 * DAY)
      (by decide) (by decide) rfl rfl (by intro c hc; cases hc) rfl (by decide)).1⟩

/-! ## Ids of the form `event-N` -/

theorem digitValue_digitChar (d : Nat) (h : d < 10) : digitValue (Nat.digitChar d) = d := by
  interval_cases d <;> rfl

theorem digitsValue_toDigitsCore (f : Nat) : ∀ (n : Nat) (ds : List Char), n < f →
    digitsValue 0 (Nat.toDigitsCore 10 f n ds) = digitsValue n ds := by
  induction f with
  | zero => intro n ds h; omega
  | succ f ih =>
    intro n ds h
    unfold Nat.toDigitsCore
    dsimp only
    split
    · next h0 =>
      have hn : n % 10 = n := by omega
      simp only [digitsValue, List.foldl_cons,
        digitValue_digitChar (n % 10) (Nat.mod_lt _ (by decide))]
      rw [hn]
      simp
    · next h0 =>
      rw [ih (n / 10) _ (by omega)]
      simp only [digitsValue, List.foldl_cons,
        digitValue_digitChar (n % 10) (Nat.mod_lt _ (by decide))]
      congr 1
      omega

theorem toString_nat_injective (a b : Nat) (h : toString a = toString b) : a = b := by
  have h1 : Nat.toDigits 10 a = Nat.toDigits 10 b := by
    have := congrArg String.data h
    simpa [toString, Nat.repr, List.asString] using this
  have ha := digitsValue_toDigitsCore (a + 1) a [] (by omega)
  have hb := digitsValue_toDigitsCore (b + 1) b [] (by omega)
  unfold Nat.toDigits at h1
  rw [h1, hb] at ha
  simpa [digitsValue] using ha.symm

/-- Distinct counter values give distinct ids. -/
theorem eventId_inj (a b : Nat) : eventId a = eventId b ↔ a = b := by
  constructor
  · intro h
    apply toString_nat_injective
    have := congrArg String.data h
    simp only [eventId, String.data_append, List.append_cancel_left_eq] at this
    exact String.ext this
  · rintro rfl
    rfl

/-! ## Loading the samples (C10) -/

theorem normalize_id (e : EventData) : (Event.normalize e).id = e.id := rfl

/-- Adding, one by one, valid events whose ids are distinct from each other and
from every stored id appends their normalized forms. -/
theorem addEach_fresh : ∀ (es : List EventData) (s : EventStore),
    (∀ e ∈ es, EventStore.isValid (Event.normalize e) = true) →
    (∀ e ∈ es, ∀ x ∈ s.events, x.id ≠ e.id) →
    (es.map (fun e => e.id)).Nodup →
    ∃ s', addEach s es = Except.ok s' ∧ s'.events = s.events ++ es.map Event.normalize := by
  intro es
  induction es with
  | nil =>
    intro s _ _ _
    exact ⟨s, rfl, by simp⟩
  | cons e rest ih =>
    intro s hv hid hnd
    have hadd := addEvent_fresh s e (hv e (List.mem_cons_self _ _))
      (hid e (List.mem_cons_self _ _))
    rw [List.map_cons, List.nodup_cons] at hnd
    obtain ⟨s', hs', hev⟩ := ih
      { s with events := s.events ++ [Event.normalize e], cache := [] }
      (fun x hx => hv x (List.mem_cons_of_mem _ hx))
      (by
        intro x hx y hy
        simp only [List.mem_append, List.mem_singleton] at hy
        rcases hy with hy | rfl
        · exact hid x (List.mem_cons_of_mem _ hx) y hy
        · rw [normalize_id]
          intro heq
          exact hnd.1 (List.mem_map.mpr ⟨x, hx, heq.symm⟩))
      hnd.2
    refine ⟨s', ?_, ?_⟩
    · simp only [addEach, hadd]
      exact hs'
    · rw [hev]
      simp

theorem sampleEvents_valid (c : Nat) (today : Int) :
    ∀ e ∈ sampleEvents c today, EventStore.isValid (Event.normalize e) = true := by
  intro e he
  simp only [sampleEvents, List.mem_cons, List.mem_singleton, List.not_mem_nil, or_false] at he
  rcases he with rfl | rfl | rfl | rfl | rfl | rfl | rfl | rfl <;>
    simp [EventStore.isValid, Event.normalize, quarterlyBusinessReview, dailyStandup,
      productWorkshop, clientPresentation, securityTraining, oneOnOne, companyHoliday,
      remoteTeamSync, EventData.empty, dateAt, HOUR, MINUTE]

theorem sampleEvents_ids_nodup (c : Nat) (today : Int) :
    ((sampleEvents c today).map (fun e => e.id)).Nodup := by
  simp [sampleEvents, quarterlyBusinessReview, dailyStandup, productWorkshop,
    clientPresentation, securityTraining, oneOnOne, companyHoliday, remoteTeamSync,
    eventId_inj]

theorem sampleEvents_normalized (c : Nat) (today : Int) :
    (sampleEvents c today).map Event.normalize = sampleEvents c today := rfl

theorem queryDays_events : ∀ (days : List (Int × Int)) (s : EventStore),
    (queryDays s days).2.events = s.events := by
  intro days
  induction days with
  | nil => intro s; rfl
  | cons day rest ih =>
    intro s
    obtain ⟨a, b⟩ := day
    simp only [queryDays]
    rw [ih, getEventsInRange_events]

theorem render_events (d : CalendarDemo) : d.render.eventStore.events = d.eventStore.events := by
  simp only [CalendarDemo.render, CalendarDemo.eventStore, Calendar.getViewData]
  exact queryDays_events _ _

theorem checkConflicts_events (cd : ConflictDetector) (s : EventStore) (e : EventData) :
    (cd.checkConflicts s e).2.events = s.events := by
  simp only [ConflictDetector.checkConflicts, ConflictDetector.analyse]
  split
  · rfl
  · exact getEventsInRange_events _ _ _

theorem detectFold_events (cd : ConflictDetector) : ∀ (es : List EventData)
    (acc : List DisplayedConflict × EventStore),
    (es.foldl (detectStep cd) acc).2.events = acc.2.events := by
  intro es
  induction es with
  | nil => intro acc; rfl
  | cons e rest ih =>
    intro acc
    rw [List.foldl_cons, ih]
    exact checkConflicts_events cd acc.2 e

theorem detectAndShowConflicts_events (d : CalendarDemo) :
    d.detectAndShowConflicts.eventStore.events = d.eventStore.events := by
  simp only [CalendarDemo.detectAndShowConflicts, CalendarDemo.updateConflictInfo,
    CalendarDemo.withStore, CalendarDemo.eventStore]
  exact detectFold_events d.conflictDetector _ _

/-- One run of `loadSampleEvents` succeeds and leaves exactly its eight samples. -/
theorem loadSampleEvents_ok (d : CalendarDemo) (today : Int) :
    ∃ d', d.loadSampleEvents today = Except.ok d' ∧
      d'.eventStore.getAllEvents = sampleEvents d.eventIdCounter today ∧
      d'.eventIdCounter = d.eventIdCounter + 8 := by
  obtain ⟨s', hs', hev⟩ := addEach_fresh (sampleEvents d.eventIdCounter today)
    d.eventStore.clear (sampleEvents_valid _ _)
    (by intro e _ x hx; simp [EventStore.clear] at hx) (sampleEvents_ids_nodup _ _)
  refine ⟨(({ d with eventIdCounter := d.eventIdCounter + 8 } : CalendarDemo).withStore
    s').render.updateStatistics.detectAndShowConflicts, ?_, ?_, ?_⟩
  · simp only [CalendarDemo.loadSampleEvents, hs']
  · simp only [EventStore.getAllEvents]
    rw [detectAndShowConflicts_events]
    show (CalendarDemo.render _).eventStore.events = _
    rw [render_events]
    simp only [CalendarDemo.withStore, CalendarDemo.eventStore, hev, sampleEvents_normalized]
    simp [EventStore.clear]
  · rfl

/-- C10: for every prior state of the demo (any stored events, any counter),
`loadSampleEvents` succeeds and leaves in the store exactly the eight sample
events built in that call, in order, and nothing stored before; so running it a
second time again leaves eight stored events (those of the second call), not
sixteen. -/
theorem loadSampleEvents_replaces (d : CalendarDemo) (today : Int) :
    ∃ d', d.loadSampleEvents today = Except.ok d' ∧
      d'.eventStore.getAllEvents = sampleEvents d.eventIdCounter today ∧
      d'.eventStore.getAllEvents.length = 8 ∧
      ∀ today2 : Int, ∃ d'', d'.loadSampleEvents today2 = Except.ok d'' ∧
        d''.eventStore.getAllEvents = sampleEvents (d.eventIdCounter + 8) today2 ∧
        d''.eventStore.getAllEvents.length = 8 := by
  obtain ⟨d', h1, h2, h3⟩ := loadSampleEvents_ok d today
  refine ⟨d', h1, h2, by rw [h2]; rfl, ?_⟩
  intro today2
  obtain ⟨d'', k1, k2, _⟩ := loadSampleEvents_ok d' today2
  rw [h3] at k2
  exact ⟨d'', k1, k2, by rw [k2]; rfl⟩

/-! ## Binary64 rounding -/

theorem roundHalfEven_near (x : ℚ) : |(roundHalfEven x : ℚ) - x| ≤ 1 / 2 := by
  have h1 := Int.floor_le x
  have h2 := Int.lt_floor_add_one x
  unfold roundHalfEven
  split_ifs with a b c
  · rw [abs_le]; constructor <;> linarith
  · rw [abs_le]; push_cast; constructor <;> linarith
  · rw [abs_le]; constructor <;> linarith
  · rw [abs_le]; push_cast; constructor <;> linarith

theorem roundHalfEven_eq (x : ℚ) (m : Int) (h1 : (m : ℚ) - 1 / 2 < x) (h2 : x < m + 1 / 2) :
    roundHalfEven x = m := by
  have hn := roundHalfEven_near x
  rw [abs_le] at hn
  have h3 : ((roundHalfEven x : ℚ) - m) < 1 := by linarith [hn.1, hn.2]
  have h4 : (-1 : ℚ) < (roundHalfEven x : ℚ) - m := by linarith [hn.1, hn.2]
  have h5 : (roundHalfEven x - m : Int) < 1 := by exact_mod_cast h3
  have h6 : (-1 : Int) < roundHalfEven x - m := by exact_mod_cast h4
  omega

theorem binade_eq (q : ℚ) (e : Int) (h1 : (2 : ℚ) ^ e ≤ q) (h2 : q < (2 : ℚ) ^ (e + 1)) :
    binade q = e := by
  have hq : 0 < q := lt_of_lt_of_le (by positivity) h1
  have a : e ≤ Int.log 2 q := (Int.zpow_le_iff_le_log (by norm_num) hq).mp (by exact_mod_cast h1)
  have b : Int.log 2 q < e + 1 := (Int.lt_zpow_iff_log_lt (by norm_num) hq).mp (by exact_mod_cast h2)
  unfold binade
  omega

theorem toDouble_eq (q : ℚ) (e m : Int) (h1 : (2 : ℚ) ^ e ≤ q) (h2 : q < (2 : ℚ) ^ (e + 1))
    (h3 : (m : ℚ) - 1 / 2 < q * (2 : ℚ) ^ (52 - e)) (h4 : q * (2 : ℚ) ^ (52 - e) < m + 1 / 2) :
    toDouble q = m * (2 : ℚ) ^ (e - 52) := by
  have hq : 0 < q := lt_of_lt_of_le (by positivity) h1
  unfold toDouble
  rw [if_neg hq.ne', if_pos hq, binade_eq q e h1 h2, roundHalfEven_eq _ m h3 h4]

theorem toDouble_error (q : ℚ) (hq : 0 ≤ q) : |toDouble q - q| ≤ q * (2 : ℚ) ^ (-53 : Int) := by
  rcases hq.eq_or_lt with h0 | hpos
  · simp [toDouble, ← h0]
  · unfold toDouble
    rw [if_neg hpos.ne', if_pos hpos]
    have hle : (2 : ℚ) ^ binade q ≤ q := by
      have := Int.zpow_log_le_self (b := 2) (r := q) (by norm_num) hpos
      simpa [binade] using this
    have hx : q = q * (2 : ℚ) ^ (52 - binade q) * (2 : ℚ) ^ (binade q - 52) := by
      rw [mul_assoc, ← zpow_add₀ (by norm_num : (2 : ℚ) ≠ 0)]
      simp
    have hn := roundHalfEven_near (q * (2 : ℚ) ^ (52 - binade q))
    have hp : (0 : ℚ) < (2 : ℚ) ^ (binade q - 52) := by positivity
    have h53 : (2 : ℚ) ^ (binade q - 52) * (1 / 2) = (2 : ℚ) ^ binade q * (2 : ℚ) ^ (-53 : Int) := by
      rw [← zpow_add₀ (by norm_num : (2 : ℚ) ≠ 0), show binade q + (-53) = (binade q - 52) + (-1) by ring,
        zpow_add₀ (by norm_num : (2 : ℚ) ≠ 0)]
      norm_num
    calc |(roundHalfEven (q * (2 : ℚ) ^ (52 - binade q)) : ℚ) * (2 : ℚ) ^ (binade q - 52) - q|
        = |((roundHalfEven (q * (2 : ℚ) ^ (52 - binade q)) : ℚ) - q * (2 : ℚ) ^ (52 - binade q))
            * (2 : ℚ) ^ (binade q - 52)| := by
          rw [sub_mul, ← hx]
      _ = |(roundHalfEven (q * (2 : ℚ) ^ (52 - binade q)) : ℚ) - q * (2 : ℚ) ^ (52 - binade q)|
            * (2 : ℚ) ^ (binade q - 52) := by rw [abs_mul, abs_of_pos hp]
      _ ≤ 1 / 2 * (2 : ℚ) ^ (binade q - 52) := by
          exact mul_le_mul_of_nonneg_right hn hp.le
      _ = (2 : ℚ) ^ binade q * (2 : ℚ) ^ (-53 : Int) := by rw [mul_comm, h53]
      _ ≤ q * (2 : ℚ) ^ (-53 : Int) := by
          exact mul_le_mul_of_nonneg_right hle (by positivity)


theorem roundHalfEven_mono (x y : ℚ) (h : x ≤ y) : roundHalfEven x ≤ roundHalfEven y := by
  by_contra hlt
  push_neg at hlt
  have hx := roundHalfEven_near x
  have hy := roundHalfEven_near y
  rw [abs_le] at hx hy
  have h1 : (roundHalfEven y : ℚ) + 1 ≤ roundHalfEven x := by exact_mod_cast hlt
  have hxy : x = y := by linarith [hx.1, hx.2, hy.1, hy.2]
  rw [hxy] at hlt
  exact lt_irrefl _ hlt

theorem roundHalfEven_intCast (n : Int) : roundHalfEven (n : ℚ) = n := by
  apply roundHalfEven_eq <;> linarith

theorem binade_spec (q : ℚ) (hq : 0 < q) :
    (2 : ℚ) ^ binade q ≤ q ∧ q < (2 : ℚ) ^ (binade q + 1) := by
  constructor
  · have := Int.zpow_log_le_self (b := 2) (r := q) (by norm_num) hq
    simpa [binade] using this
  · have := Int.lt_zpow_succ_log_self (b := 2) (by norm_num) q
    simpa [binade] using this

/-- The significand of a positive value lies between `2 ^ 52` and `2 ^ 53`. -/
theorem significand_bounds (q : ℚ) (hq : 0 < q) :
    (2 : ℚ) ^ (52 : Int) ≤ q * (2 : ℚ) ^ (52 - binade q) ∧
      q * (2 : ℚ) ^ (52 - binade q) ≤ (2 : ℚ) ^ (53 : Int) := by
  obtain ⟨h1, h2⟩ := binade_spec q hq
  have hp : (0 : ℚ) < (2 : ℚ) ^ (52 - binade q) := by positivity
  constructor
  · have : (2 : ℚ) ^ (52 : Int) = (2 : ℚ) ^ binade q * (2 : ℚ) ^ (52 - binade q) := by
      rw [← zpow_add₀ (by norm_num : (2 : ℚ) ≠ 0)]
      congr 1
      ring
    rw [this]
    exact mul_le_mul_of_nonneg_right h1 hp.le
  · have : (2 : ℚ) ^ (53 : Int) = (2 : ℚ) ^ (binade q + 1) * (2 : ℚ) ^ (52 - binade q) := by
      rw [← zpow_add₀ (by norm_num : (2 : ℚ) ≠ 0)]
      congr 1
      ring
    rw [this]
    exact mul_le_mul_of_nonneg_right h2.le hp.le

theorem toDouble_pos_eq (q : ℚ) (hq : 0 < q) :
    toDouble q = roundHalfEven (q * (2 : ℚ) ^ (52 - binade q)) * (2 : ℚ) ^ (binade q - 52) := by
  unfold toDouble
  rw [if_neg hq.ne', if_pos hq]

/-- A positive value rounds into the closure of its own binade. -/
theorem toDouble_binade (q : ℚ) (hq : 0 < q) :
    (2 : ℚ) ^ binade q ≤ toDouble q ∧ toDouble q ≤ (2 : ℚ) ^ (binade q + 1) := by
  obtain ⟨h1, h2⟩ := significand_bounds q hq
  have hp : (0 : ℚ) < (2 : ℚ) ^ (binade q - 52) := by positivity
  have r1 : (2 : Int) ^ (52 : Nat) ≤ roundHalfEven (q * (2 : ℚ) ^ (52 - binade q)) := by
    have := roundHalfEven_mono _ _ h1
    have e : ((2 : ℚ) ^ (52 : Int)) = (((2 : Int) ^ (52 : Nat) : Int) : ℚ) := by norm_num
    rw [e, roundHalfEven_intCast] at this
    exact this
  have r2 : roundHalfEven (q * (2 : ℚ) ^ (52 - binade q)) ≤ (2 : Int) ^ (53 : Nat) := by
    have := roundHalfEven_mono _ _ h2
    have e : ((2 : ℚ) ^ (53 : Int)) = (((2 : Int) ^ (53 : Nat) : Int) : ℚ) := by norm_num
    rw [e, roundHalfEven_intCast] at this
    exact this
  rw [toDouble_pos_eq q hq]
  constructor
  · have : (2 : ℚ) ^ binade q = (2 : ℚ) ^ (52 : Int) * (2 : ℚ) ^ (binade q - 52) := by
      rw [← zpow_add₀ (by norm_num : (2 : ℚ) ≠ 0)]
      congr 1
      ring
    rw [this]
    apply mul_le_mul_of_nonneg_right _ hp.le
    have : ((2 : ℚ) ^ (52 : Int)) = (((2 : Int) ^ (52 : Nat) : Int) : ℚ) := by norm_num
    rw [this]
    exact_mod_cast r1
  · have : (2 : ℚ) ^ (binade q + 1) = (2 : ℚ) ^ (53 : Int) * (2 : ℚ) ^ (binade q - 52) := by
      rw [← zpow_add₀ (by norm_num : (2 : ℚ) ≠ 0)]
      congr 1
      ring
    rw [this]
    apply mul_le_mul_of_nonneg_right _ hp.le
    have : ((2 : ℚ) ^ (53 : Int)) = (((2 : Int) ^ (53 : Nat) : Int) : ℚ) := by norm_num
    rw [this]
    exact_mod_cast r2

theorem toDouble_pos (q : ℚ) (hq : 0 < q) : 0 < toDouble q :=
  lt_of_lt_of_le (by positivity) (toDouble_binade q hq).1

theorem toDouble_neg (q : ℚ) : toDouble (-q) = -toDouble q := by
  rcases lt_trichotomy q 0 with h | h | h
  · have h' : 0 < -q := by linarith
    unfold toDouble
    rw [if_neg h'.ne', if_pos h', if_neg h.ne, if_neg (not_lt.mpr h.le)]
    simp
  · simp [h, toDouble]
  · have h' : -q < 0 := by linarith
    unfold toDouble
    rw [if_neg h'.ne, if_neg (not_lt.mpr h'.le), if_neg h.ne', if_pos h, neg_neg]

theorem toDouble_mono_pos (p q : ℚ) (hp : 0 < p) (h : p ≤ q) : toDouble p ≤ toDouble q := by
  have hq : 0 < q := lt_of_lt_of_le hp h
  have hlog : binade p ≤ binade q := Int.log_mono_right hp h
  rcases hlog.eq_or_lt with he | hlt
  · rw [toDouble_pos_eq p hp, toDouble_pos_eq q hq, he]
    apply mul_le_mul_of_nonneg_right _ (by positivity)
    have := roundHalfEven_mono (p * (2 : ℚ) ^ (52 - binade q)) (q * (2 : ℚ) ^ (52 - binade q))
      (mul_le_mul_of_nonneg_right h (by positivity))
    exact_mod_cast this
  · calc toDouble p ≤ (2 : ℚ) ^ (binade p + 1) := (toDouble_binade p hp).2
      _ ≤ (2 : ℚ) ^ binade q := zpow_le_zpow_right₀ (by norm_num) (by omega)
      _ ≤ toDouble q := (toDouble_binade q hq).1

theorem toDouble_zero : toDouble 0 = 0 := by simp [toDouble]

theorem toDouble_mono (p q : ℚ) (h : p ≤ q) : toDouble p ≤ toDouble q := by
  rcases lt_trichotomy p 0 with hp | hp | hp
  · rcases lt_trichotomy q 0 with hq | hq | hq
    · have := toDouble_mono_pos (-q) (-p) (by linarith) (by linarith)
      rw [toDouble_neg, toDouble_neg] at this
      linarith
    · rw [hq, toDouble_zero]
      have := toDouble_pos (-p) (by linarith)
      rw [toDouble_neg] at this
      linarith
    · have h1 := toDouble_pos (-p) (by linarith)
      rw [toDouble_neg] at h1
      have h2 := toDouble_pos q hq
      linarith
  · rw [hp, toDouble_zero]
    rcases h.eq_or_lt with hq | hq
    · rw [← hq, hp, toDouble_zero]
    · rw [hp] at hq
      exact (toDouble_pos q hq).le
  · exact toDouble_mono_pos p q hp h

/-- Integers below `2 ^ 53` in absolute value are binary64 values. -/
theorem toDouble_natCast (n : Nat) (h : n < 2 ^ 53) : toDouble (n : ℚ) = n := by
  rcases Nat.eq_zero_or_pos n with h0 | hpos
  · simp [h0, toDouble_zero]
  · have hq : (0 : ℚ) < n := by exact_mod_cast hpos
    obtain ⟨h1, h2⟩ := binade_spec (n : ℚ) hq
    have hlt : binade (n : ℚ) < 53 := by
      have : (2 : ℚ) ^ binade (n : ℚ) < (2 : ℚ) ^ (53 : Int) := by
        calc (2 : ℚ) ^ binade (n : ℚ) ≤ n := h1
          _ < (2 : ℚ) ^ (53 : Int) := by
            have : ((n : Nat) : ℚ) < ((2 ^ 53 : Nat) : ℚ) := by exact_mod_cast h
            norm_num at this ⊢
            exact this
      exact (zpow_lt_zpow_iff_right₀ (by norm_num : (1 : ℚ) < 2)).mp this
    obtain ⟨k, hk⟩ : ∃ k : Nat, (k : Int) = 52 - binade (n : ℚ) := ⟨(52 - binade (n : ℚ)).toNat, by omega⟩
    rw [toDouble_pos_eq _ hq]
    have hx : (n : ℚ) * (2 : ℚ) ^ (52 - binade (n : ℚ)) = (((n * 2 ^ k : Nat) : Int) : ℚ) := by
      rw [← hk]
      push_cast
      rw [zpow_natCast]
    rw [hx, roundHalfEven_intCast, ← hx, mul_assoc, ← zpow_add₀ (by norm_num : (2 : ℚ) ≠ 0)]
    simp

theorem toDouble_intCast (n : Int) (h : |n| < 2 ^ 53) : toDouble (n : ℚ) = n := by
  rcases le_or_lt 0 n with hn | hn
  · obtain ⟨m, rfl⟩ := Int.eq_ofNat_of_zero_le hn
    have : m < 2 ^ 53 := by
      rw [abs_of_nonneg hn] at h
      exact_mod_cast h
    exact_mod_cast toDouble_natCast m this
  · obtain ⟨m, hm⟩ := Int.eq_ofNat_of_zero_le (show 0 ≤ -n by omega)
    have hlt : m < 2 ^ 53 := by
      rw [abs_of_neg hn, hm] at h
      exact_mod_cast h
    have := toDouble_natCast m hlt
    have e : (n : ℚ) = -((m : Nat) : ℚ) := by
      have : (n : ℚ) = -((-n : Int) : ℚ) := by push_cast; ring
      rw [this, hm]
      push_cast
      rfl
    rw [e, toDouble_neg, this]

/-- Scaling by a power of two is exact. -/
theorem toDouble_mul_two_zpow (q : ℚ) (k : Int) :
    toDouble (q * (2 : ℚ) ^ k) = toDouble q * (2 : ℚ) ^ k := by
  have key : ∀ p : ℚ, 0 < p → toDouble (p * (2 : ℚ) ^ k) = toDouble p * (2 : ℚ) ^ k := by
    intro p hp
    have hk : (0 : ℚ) < (2 : ℚ) ^ k := by positivity
    obtain ⟨h1, h2⟩ := binade_spec p hp
    have hb : binade (p * (2 : ℚ) ^ k) = binade p + k := by
      apply binade_eq
      · rw [zpow_add₀ (by norm_num : (2 : ℚ) ≠ 0)]
        exact mul_le_mul_of_nonneg_right h1 hk.le
      · rw [show binade p + k + 1 = (binade p + 1) + k by ring,
          zpow_add₀ (by norm_num : (2 : ℚ) ≠ 0)]
        exact mul_lt_mul_of_pos_right h2 hk
    rw [toDouble_pos_eq _ (mul_pos hp hk), toDouble_pos_eq _ hp, hb]
    have hs : p * (2 : ℚ) ^ k * (2 : ℚ) ^ (52 - (binade p + k)) = p * (2 : ℚ) ^ (52 - binade p) := by
      rw [mul_assoc, ← zpow_add₀ (by norm_num : (2 : ℚ) ≠ 0)]
      congr 2
      ring
    rw [hs, mul_assoc, ← zpow_add₀ (by norm_num : (2 : ℚ) ≠ 0)]
    congr 2
    ring
  rcases lt_trichotomy q 0 with h | h | h
  · have := key (-q) (by linarith)
    rw [neg_mul, toDouble_neg, toDouble_neg] at this
    linarith
  · simp [h, toDouble_zero]
  · exact key q h

/-! ## The cache hit rate (C16) -/

/-- The binary64 percentage of a ratio in `[0, 1]` lies in `[0, 100]` and is
within `2 ^ (-45)` of the exact percentage. -/
theorem percentage_bounds (x : ℚ) (h0 : 0 ≤ x) (h1 : x ≤ 1) :
    0 ≤ toDouble (toDouble x * 100) ∧ toDouble (toDouble x * 100) ≤ 100 ∧
      |toDouble (toDouble x * 100) - 100 * x| ≤ (2 : ℚ) ^ (-45 : Int) := by
  have ha0 : 0 ≤ toDouble x := by
    have := toDouble_mono 0 x h0
    rwa [toDouble_zero] at this
  have ha1 : toDouble x ≤ 1 := by
    have := toDouble_mono x 1 h1
    have e : toDouble (1 : ℚ) = 1 := by exact_mod_cast toDouble_natCast 1 (by norm_num)
    rwa [e] at this
  have hb0 : 0 ≤ toDouble (toDouble x * 100) := by
    have := toDouble_mono 0 (toDouble x * 100) (by positivity)
    rwa [toDouble_zero] at this
  have hb1 : toDouble (toDouble x * 100) ≤ 100 := by
    have := toDouble_mono (toDouble x * 100) 100 (by linarith)
    have e : toDouble (100 : ℚ) = 100 := by exact_mod_cast toDouble_natCast 100 (by norm_num)
    rwa [e] at this
  refine ⟨hb0, hb1, ?_⟩
  have ea := toDouble_error x h0
  have eb := toDouble_error (toDouble x * 100) (by positivity)
  rw [abs_le] at ea eb ⊢
  have hu : (2 : ℚ) ^ (-53 : Int) = 1 / 9007199254740992 := by norm_num
  have hv : (2 : ℚ) ^ (-45 : Int) = 1 / 35184372088832 := by norm_num
  rw [hu] at ea eb
  rw [hv]
  constructor <;> nlinarith [ea.1, ea.2, eb.1, eb.2]

/-- Two numbers on the same side of every half-integer round to the same integer. -/
theorem mathRound_eq_of_near (b y δ : ℚ) (hb : |b - y| ≤ δ)
    (hfar : ∀ k : Int, δ < |y - (k + 1 / 2)|) : mathRound b = mathRound y := by
  unfold mathRound
  rw [Int.floor_eq_iff]
  have h1 := Int.floor_le (y + 1 / 2)
  have h2 := Int.lt_floor_add_one (y + 1 / 2)
  have f1 := hfar (Int.floor (y + 1 / 2) - 1)
  have f2 := hfar (Int.floor (y + 1 / 2))
  push_cast at f1
  rw [abs_le] at hb
  have g1 : δ < y - (Int.floor (y + 1 / 2) - 1 + 1 / 2) := by
    rwa [abs_of_nonneg (by linarith)] at f1
  have g2 : δ < (Int.floor (y + 1 / 2) + 1 / 2) - y := by
    rw [abs_of_neg (by linarith)] at f2
    linarith
  constructor <;> linarith [hb.1, hb.2]

theorem mathRound_mono (x y : ℚ) (h : x ≤ y) : mathRound x ≤ mathRound y :=
  Int.floor_mono (by linarith)

/-- C16 (as stated, refuted): for 23 hits and 17 misses the exact percentage is
57.5, which rounds to 58, but the binary64 product `(23 / 40) * 100` is
57.49999999999999 and `Math.round` gives 57. -/
theorem hitRate_not_exact :
    hitRate 23 17 = 57 ∧ hitRateExact 23 17 = 58 ∧ hitRate 23 17 ≠ hitRateExact 23 17 := by
  have h1 : toDouble ((23 : ℚ) / 40) = 5179139571476070 * (2 : ℚ) ^ (-53 : Int) := by
    have := toDouble_eq (23 / 40) (-1) 5179139571476070 (by norm_num) (by norm_num)
      (by norm_num) (by norm_num)
    simpa using this
  have h2 : toDouble (5179139571476070 * (2 : ℚ) ^ (-53 : Int) * 100) =
      8092405580431359 * (2 : ℚ) ^ (-47 : Int) := by
    have := toDouble_eq (5179139571476070 * (2 : ℚ) ^ (-53 : Int) * 100) 5 8092405580431359
      (by norm_num) (by norm_num) (by norm_num) (by norm_num)
    simpa using this
  have a : hitRate 23 17 = 57 := by
    have e : ((23 : Nat) : ℚ) / (((23 + 17 : Nat)) : ℚ) = 23 / 40 := by norm_num
    simp only [hitRate, e, h1, h2, mathRound]
    rw [if_pos (by norm_num), Int.floor_eq_iff]
    norm_num
  have b : hitRateExact 23 17 = 58 := by
    simp only [hitRateExact, mathRound]
    rw [if_pos (by norm_num), Int.floor_eq_iff]
    norm_num
  refine ⟨a, b, ?_⟩
  rw [a, b]
  decide

/-- C16 (amended): for all counters `hits` and `misses` the hit rate computed in
`updateStatistics` is an integer between 0 and 100; it is 0 when
`hits + misses = 0` (the division is then not performed); otherwise it is
`Math.round` of the binary64 product `(hits / (hits + misses)) * 100`, which
differs from `100 * hits / (hits + misses)` rounded to the nearest integer
(halves up) by at most one, and equals it whenever the exact percentage is
farther than `2 ^ (-45)` from every half-integer. -/
theorem hitRate_spec (hits misses : Nat) :
    0 ≤ hitRate hits misses ∧ hitRate hits misses ≤ 100 ∧
      (hits + misses = 0 → hitRate hits misses = 0) ∧
      |hitRate hits misses - hitRateExact hits misses| ≤ 1 ∧
      ((∀ k : Int, (2 : ℚ) ^ (-45 : Int) <
          |(100 * hits : ℚ) / ((hits + misses : Nat) : ℚ) - (k + 1 / 2)|) →
        hitRate hits misses = hitRateExact hits misses) := by
  rcases Nat.eq_zero_or_pos (hits + misses) with h0 | hpos
  · simp [hitRate, hitRateExact, h0]
  · have ht : (0 : ℚ) < ((hits + misses : Nat) : ℚ) := by exact_mod_cast hpos
    have hx0 : (0 : ℚ) ≤ (hits : ℚ) / ((hits + misses : Nat) : ℚ) := by positivity
    have hx1 : (hits : ℚ) / ((hits + misses : Nat) : ℚ) ≤ 1 := by
      rw [div_le_one ht]
      exact_mod_cast Nat.le_add_right hits misses
    obtain ⟨b0, b1, berr⟩ := percentage_bounds _ hx0 hx1
    have hy : 100 * ((hits : ℚ) / ((hits + misses : Nat) : ℚ)) =
        (100 * hits : ℚ) / ((hits + misses : Nat) : ℚ) := by ring
    rw [hy] at berr
    have hr : hitRate hits misses =
        mathRound (toDouble (toDouble ((hits : ℚ) / ((hits + misses : Nat) : ℚ)) * 100)) := by
      simp only [hitRate, if_pos hpos]
    have he : hitRateExact hits misses =
        mathRound ((100 * hits : ℚ) / ((hits + misses : Nat) : ℚ)) := by
      simp only [hitRateExact, if_pos hpos]
    have hv : (2 : ℚ) ^ (-45 : Int) = 1 / 35184372088832 := by norm_num
    rw [abs_le, hv] at berr
    refine ⟨?_, ?_, ?_, ?_, ?_⟩
    · rw [hr]
      have := mathRound_mono 0 _ b0
      have e : mathRound 0 = 0 := by
        unfold mathRound
        rw [Int.floor_eq_iff]
        norm_num
      omega
    · rw [hr]
      have := mathRound_mono _ 100 b1
      have e : mathRound 100 = 100 := by
        unfold mathRound
        rw [Int.floor_eq_iff]
        norm_num
      omega
    · intro h
      omega
    · rw [hr, he, abs_le]
      have m1 := mathRound_mono _ _ (show toDouble (toDouble ((hits : ℚ) /
        ((hits + misses : Nat) : ℚ)) * 100) ≤ (100 * hits : ℚ) / ((hits + misses : Nat) : ℚ) + 1
        by linarith [berr.2])
      have m2 := mathRound_mono _ _ (show (100 * hits : ℚ) / ((hits + misses : Nat) : ℚ) - 1 ≤
        toDouble (toDouble ((hits : ℚ) / ((hits + misses : Nat) : ℚ)) * 100)
        by linarith [berr.1])
      have s1 : ∀ y : ℚ, mathRound (y + 1) = mathRound y + 1 := by
        intro y
        unfold mathRound
        rw [show y + 1 + 1 / 2 = (y + 1 / 2) + 1 by ring, Int.floor_add_one]
      have s2 : ∀ y : ℚ, mathRound (y - 1) = mathRound y - 1 := by
        intro y
        unfold mathRound
        rw [show y - 1 + 1 / 2 = (y + 1 / 2) - 1 by ring, Int.floor_sub_one]
      rw [s1] at m1
      rw [s2] at m2
      constructor <;> omega
    · intro hfar
      rw [hr, he]
      apply mathRound_eq_of_near _ _ ((2 : ℚ) ^ (-45 : Int)) _ hfar
      rw [abs_le, hv]
      exact berr

/-- Witness of C16 (amended): one hit and one miss give 50, as the exact
rounding does. -/
theorem hitRate_spec_witness : hitRate 1 1 = hitRateExact 1 1 ∧ hitRate 0 0 = 0 :=
  ⟨(hitRate_spec 1 1).2.2.2.2 (by
      intro k
      have e : (100 * ((1 : Nat) : ℚ)) / (((1 + 1 : Nat)) : ℚ) = 50 := by norm_num
      rw [e]
      have hv : (2 : ℚ) ^ (-45 : Int) = 1 / 35184372088832 := by norm_num
      rw [hv]
      rcases le_or_lt k 49 with h | h
      · have : (k : ℚ) ≤ 49 := by exact_mod_cast h
        rw [abs_of_pos (by linarith)]
        linarith
      · have : (50 : ℚ) ≤ k := by exact_mod_cast h
        rw [abs_of_neg (by linarith)]
        linarith),
   (hitRate_spec 0 0).2.2.1 rfl⟩

/-! ## The random event (C13, C14) -/

theorem isDraw_nonneg (r : ℚ) (hr : IsDraw r) : 0 ≤ r := hr.1

theorem isDraw_lt_one (r : ℚ) (hr : IsDraw r) : r < 1 := by
  have : (0 : ℚ) < (2 : ℚ) ^ (-53 : Int) := by positivity
  linarith [hr.2]

/-- The index `Math.floor(Math.random() * n)` is one of `0, ..., n - 1`. -/
theorem randomIndex_bounds (r : ℚ) (hr : IsDraw r) (n : Nat) (hn : 0 < n) :
    0 ≤ randomIndex r n ∧ randomIndex r n < n := by
  have hn' : (0 : ℚ) < n := by exact_mod_cast hn
  have hq : 0 ≤ r * n := mul_nonneg hr.1 hn'.le
  have h0 : 0 ≤ toDouble (r * n) := by
    have := toDouble_mono 0 (r * n) hq
    rwa [toDouble_zero] at this
  have herr := toDouble_error (r * n) hq
  rw [abs_le] at herr
  have hu : (2 : ℚ) ^ (-53 : Int) = 1 / 9007199254740992 := by norm_num
  have hr2 := hr.2
  rw [hu] at herr hr2
  unfold randomIndex
  constructor
  · exact Int.floor_nonneg.mpr h0
  · rw [Int.floor_lt]
    push_cast
    have h1 : r * n ≤ (1 - 1 / 9007199254740992) * n :=
      mul_le_mul_of_nonneg_right hr2 hn'.le
    nlinarith [herr.2, h1]

theorem toDouble_half : toDouble (1 / 2 : ℚ) = 1 / 2 := by
  have := toDouble_mul_two_zpow 1 (-1)
  have e : toDouble (1 : ℚ) = 1 := by exact_mod_cast toDouble_natCast 1 (by norm_num)
  rw [e] at this
  norm_num at this
  exact this

theorem toDouble_three_halves : toDouble (3 / 2 : ℚ) = 3 / 2 := by
  have := toDouble_mul_two_zpow 3 (-1)
  have e : toDouble (3 : ℚ) = 3 := by exact_mod_cast toDouble_natCast 3 (by norm_num)
  rw [e] at this
  norm_num at this
  exact this

/-- Rounding keeps a value between two integers below `2 ^ 53`. -/
theorem toDouble_between (lo hi : Nat) (q : ℚ) (hhi : hi < 2 ^ 53) (h1 : (lo : ℚ) ≤ q)
    (h2 : q ≤ hi) : (lo : ℚ) ≤ toDouble q ∧ toDouble q ≤ hi := by
  have hlo : lo < 2 ^ 53 := by
    have : (lo : ℚ) ≤ hi := le_trans h1 h2
    have : lo ≤ hi := by exact_mod_cast this
    omega
  constructor
  · have := toDouble_mono _ _ h1
    rwa [toDouble_natCast lo hlo] at this
  · have := toDouble_mono _ _ h2
    rwa [toDouble_natCast hi hhi] at this

/-- The duration is between 30 and 120 minutes. -/
theorem randomDuration_bounds (r : ℚ) (hr : IsDraw r) :
    1800000 ≤ randomDuration r ∧ randomDuration r ≤ 7200000 := by
  have h1 := isDraw_lt_one r hr
  have a0 : 0 ≤ toDouble (r * (3 / 2)) := by
    have := toDouble_mono 0 (r * (3 / 2)) (by linarith [hr.1])
    rwa [toDouble_zero] at this
  have a1 : toDouble (r * (3 / 2)) ≤ 3 / 2 := by
    have := toDouble_mono (r * (3 / 2)) (3 / 2) (by linarith)
    rwa [toDouble_three_halves] at this
  have b0 : 1 / 2 ≤ toDouble (1 / 2 + toDouble (r * (3 / 2))) := by
    have := toDouble_mono (1 / 2) (1 / 2 + toDouble (r * (3 / 2))) (by linarith)
    rwa [toDouble_half] at this
  have b1 : toDouble (1 / 2 + toDouble (r * (3 / 2))) ≤ 2 := by
    have := toDouble_mono (1 / 2 + toDouble (r * (3 / 2))) 2 (by linarith)
    have e : toDouble (2 : ℚ) = 2 := by exact_mod_cast toDouble_natCast 2 (by norm_num)
    rwa [e] at this
  have c := toDouble_between 30 120 (toDouble (1 / 2 + toDouble (r * (3 / 2))) * 60)
    (by norm_num) (by push_cast; linarith) (by push_cast; linarith)
  push_cast at c
  have d := toDouble_between 1800 7200
    (toDouble (toDouble (1 / 2 + toDouble (r * (3 / 2))) * 60) * 60)
    (by norm_num) (by push_cast; linarith [c.1]) (by push_cast; linarith [c.2])
  push_cast at d
  have e := toDouble_between 1800000 7200000
    (toDouble (toDouble (toDouble (1 / 2 + toDouble (r * (3 / 2))) * 60) * 60) * 1000)
    (by norm_num) (by push_cast; linarith [d.1]) (by push_cast; linarith [d.2])
  push_cast at e
  exact e

/-- Dropping the fraction keeps a number between two integers. -/
theorem timeClip_between (x : ℚ) (a b : Int) (h1 : (a : ℚ) ≤ x) (h2 : x ≤ b) :
    a ≤ timeClip x ∧ timeClip x ≤ b := by
  unfold timeClip
  split
  · exact ⟨Int.le_floor.mpr h1, Int.floor_le_iff.mpr (by linarith)⟩
  · exact ⟨Int.le_ceil_iff.mpr (by linarith), Int.ceil_le.mpr h2⟩

/-- The binary64 draw `(74 j + 37) / 1024` selects index `j` of fourteen. -/
theorem randomIndex_fourteen (j : Nat) (hj : j ≤ 13) :
    IsDraw (((74 * j + 37 : Nat) : ℚ) * (2 : ℚ) ^ (-10 : Int)) ∧
      toDouble (((74 * j + 37 : Nat) : ℚ) * (2 : ℚ) ^ (-10 : Int)) =
        ((74 * j + 37 : Nat) : ℚ) * (2 : ℚ) ^ (-10 : Int) ∧
      randomIndex (((74 * j + 37 : Nat) : ℚ) * (2 : ℚ) ^ (-10 : Int)) 14 = j := by
  have hjq : (j : ℚ) ≤ 13 := by exact_mod_cast hj
  have hj0 : (0 : ℚ) ≤ j := by positivity
  have hz : (2 : ℚ) ^ (-10 : Int) = 1 / 1024 := by norm_num
  have hu : (2 : ℚ) ^ (-53 : Int) = 1 / 9007199254740992 := by norm_num
  refine ⟨⟨by positivity, ?_⟩, ?_, ?_⟩
  · rw [hz, hu]
    push_cast
    linarith
  · rw [toDouble_mul_two_zpow, toDouble_natCast _ (by omega)]
  · unfold randomIndex
    have e : ((74 * j + 37 : Nat) : ℚ) * (2 : ℚ) ^ (-10 : Int) * ((14 : Nat) : ℚ) =
        ((1036 * j + 518 : Nat) : ℚ) * (2 : ℚ) ^ (-10 : Int) := by
      push_cast
      ring
    rw [e, toDouble_mul_two_zpow, toDouble_natCast _ (by omega), Int.floor_eq_iff, hz]
    push_cast
    constructor <;> linarith

theorem daysOffset_bounds (r : ℚ) (hr : IsDraw r) : -7 ≤ daysOffset r ∧ daysOffset r ≤ 6 := by
  have := randomIndex_bounds r hr 14 (by norm_num)
  unfold daysOffset
  constructor <;> omega

/-- C13 (the code, evaluated): for every draw the offset
`Math.floor(Math.random() * 14) - 7` is an integer from -7 to 6; each of these
fourteen values is produced by some binary64 draw; and no draw produces +7, the
upper end named by the comment "-7 to +7 days". -/
theorem daysOffset_range :
    (∀ r : ℚ, IsDraw r → -7 ≤ daysOffset r ∧ daysOffset r ≤ 6) ∧
      (∀ k : Int, -7 ≤ k → k ≤ 6 → ∃ r : ℚ, IsDraw r ∧ toDouble r = r ∧ daysOffset r = k) ∧
      ¬ ∃ r : ℚ, IsDraw r ∧ daysOffset r = 7 := by
  have hrange : ∀ r : ℚ, IsDraw r → -7 ≤ daysOffset r ∧ daysOffset r ≤ 6 := daysOffset_bounds
  refine ⟨hrange, ?_, ?_⟩
  · intro k h1 h2
    obtain ⟨j, hj⟩ : ∃ j : Nat, (j : Int) = k + 7 := ⟨(k + 7).toNat, by omega⟩
    obtain ⟨a, b, c⟩ := randomIndex_fourteen j (by omega)
    exact ⟨_, a, b, by unfold daysOffset; rw [c]; omega⟩
  · rintro ⟨r, hr, h7⟩
    have := (hrange r hr).2
    omega

/-- Witness of C13: the draw `0` gives the offset -7, which is in range. -/
theorem daysOffset_range_witness : -7 ≤ daysOffset 0 ∧ daysOffset 0 ≤ 6 :=
  daysOffset_range.1 0 ⟨le_refl 0, by norm_num⟩

/-- The start of the random event is a time value below `2 ^ 53` with room for
the duration. -/
theorem randomStart_bounds (today k h m : Int) (htoday : |today| ≤ 8639999136000000)
    (hk : -7 ≤ k ∧ k ≤ 6) (hh : 9 ≤ h ∧ h ≤ 16) (hm : m = 0 ∨ m = 30) :
    |dateAt today k h m + 1800000| < 2 ^ 53 ∧ |dateAt today k h m + 7200000| < 2 ^ 53 := by
  rw [abs_le] at htoday
  have h1 := Int.emod_nonneg today (show (86400000 : Int) ≠ 0 by norm_num)
  have h2 := Int.emod_lt_of_pos today (show (0 : Int) < 86400000 by norm_num)
  simp only [dateAt, startOfDay, DAY, HOUR, MINUTE]
  rw [abs_lt, abs_lt]
  rcases hm with rfl | rfl <;> norm_num <;> omega

theorem randomHour_bounds (r : ℚ) (hr : IsDraw r) : 9 ≤ randomHour r ∧ randomHour r ≤ 16 := by
  have := randomIndex_bounds r hr 8 (by norm_num)
  unfold randomHour
  constructor <;> omega

theorem randomMinute_cases (r : ℚ) : randomMinute r = 0 ∨ randomMinute r = 30 := by
  unfold randomMinute
  split
  · exact Or.inl rfl
  · exact Or.inr rfl

/-- The end of the random event lies 30 to 120 minutes after its start. -/
theorem randomEnd_bounds (today : Int) (rand : Nat → ℚ) (hrand : ∀ i, IsDraw (rand i))
    (htoday : |today| ≤ 8639999136000000) :
    dateAt today (daysOffset (rand 0)) (randomHour (rand 1)) (randomMinute (rand 2)) + 1800000 ≤
        timeClip (toDouble ((dateAt today (daysOffset (rand 0)) (randomHour (rand 1))
          (randomMinute (rand 2)) : ℚ) + randomDuration (rand 3))) ∧
      timeClip (toDouble ((dateAt today (daysOffset (rand 0)) (randomHour (rand 1))
          (randomMinute (rand 2)) : ℚ) + randomDuration (rand 3))) ≤
        dateAt today (daysOffset (rand 0)) (randomHour (rand 1)) (randomMinute (rand 2))
          + 7200000 := by
  have hd := randomDuration_bounds (rand 3) (hrand 3)
  have hs := randomStart_bounds today (daysOffset (rand 0)) (randomHour (rand 1))
    (randomMinute (rand 2)) htoday (daysOffset_bounds _ (hrand 0))
    (randomHour_bounds _ (hrand 1)) (randomMinute_cases _)
  exact timeClip_between _ _ _
    (by
      have := toDouble_mono _ _ (show (((dateAt today (daysOffset (rand 0))
        (randomHour (rand 1)) (randomMinute (rand 2)) + 1800000 : Int)) : ℚ) ≤
        (dateAt today (daysOffset (rand 0)) (randomHour (rand 1)) (randomMinute (rand 2)) : ℚ)
          + randomDuration (rand 3) by push_cast; linarith [hd.1])
      rwa [toDouble_intCast _ hs.1] at this)
    (by
      have := toDouble_mono _ _ (show
        (dateAt today (daysOffset (rand 0)) (randomHour (rand 1)) (randomMinute (rand 2)) : ℚ)
          + randomDuration (rand 3) ≤ (((dateAt today (daysOffset (rand 0))
        (randomHour (rand 1)) (randomMinute (rand 2)) + 7200000 : Int)) : ℚ)
        by push_cast; linarith [hd.2])
      rwa [toDouble_intCast _ hs.2] at this)

theorem randomTitle_some (rand : Nat → ℚ) (hrand : ∀ i, IsDraw (rand i)) :
    ∃ t, titles.get? (randomIndex (rand (5 + 2 * numAttendees (rand 4))) 8).toNat = some t ∧
      t ∈ titles := by
  have := randomIndex_bounds (rand (5 + 2 * numAttendees (rand 4))) (hrand _) 8 (by norm_num)
  have hi : (randomIndex (rand (5 + 2 * numAttendees (rand 4))) 8).toNat < 8 := by omega
  generalize (randomIndex (rand (5 + 2 * numAttendees (rand 4))) 8).toNat = i at hi
  interval_cases i <;> simp [titles]

/-- The random event passes the store's validation. -/
theorem randomEvent_isValid (c : Nat) (today : Int) (rand : Nat → ℚ)
    (hrand : ∀ i, IsDraw (rand i)) (htoday : |today| ≤ 8639999136000000) :
    EventStore.isValid (Event.normalize (randomEvent c today rand)) = true := by
  obtain ⟨t, ht, _⟩ := randomTitle_some rand hrand
  have hb := randomEnd_bounds today rand hrand htoday
  simp only [EventStore.isValid, Event.normalize, randomEvent, EventData.empty, ht,
    Option.isSome_some, Bool.and_self, Bool.false_or, Bool.true_and, decide_eq_true_eq]
  omega

/-- C14: for all draws in `[0, 1)` and every `today` at least ten days inside
the range of `Date` (so that the dates computed from it are valid ones), the
event generated by `addRandomEvent` has an id, a title from the list, and a start
on the hour or half hour of an hour between 9 and 16; its end lies between 30
and 120 minutes after its start, so `start <= end`; hence it satisfies the
store's acceptance condition and `addEvent` raises no validation failure for it. -/
theorem randomEvent_valid (c : Nat) (today : Int) (rand : Nat → ℚ)
    (hrand : ∀ i, IsDraw (rand i)) (htoday : |today| ≤ 8639999136000000) :
    ∃ (h m s e : Int) (t : String),
      (randomEvent c today rand).id = some (eventId (c + 1)) ∧
      (randomEvent c today rand).title = some t ∧ t ∈ titles ∧
      (randomEvent c today rand).start = some s ∧
      (randomEvent c today rand).«end» = some e ∧
      s = startOfDay today + daysOffset (rand 0) * DAY + h * HOUR + m * MINUTE ∧
      9 ≤ h ∧ h ≤ 16 ∧ (m = 0 ∨ m = 30) ∧
      s ≤ e ∧ 30 * MINUTE ≤ e - s ∧ e - s ≤ 120 * MINUTE ∧
      EventStore.isValid (Event.normalize (randomEvent c today rand)) = true ∧
      ∀ store : EventStore,
        store.addEvent (randomEvent c today rand) ≠ Except.error StoreError.validation := by
  have hh := randomHour_bounds (rand 1) (hrand 1)
  have hm := randomMinute_cases (rand 2)
  obtain ⟨t, ht, htm⟩ := randomTitle_some rand hrand
  have hb := randomEnd_bounds today rand hrand htoday
  have hvalid := randomEvent_isValid c today rand hrand htoday
  refine ⟨randomHour (rand 1), randomMinute (rand 2), _, _, t, rfl, ht, htm, rfl, rfl, rfl,
    hh.1, hh.2, hm, by omega, ?_, ?_, hvalid, ?_⟩
  · simp only [MINUTE]
    omega
  · simp only [MINUTE]
    omega
  · intro store hcontra
    unfold EventStore.addEvent at hcontra
    simp only [hvalid, if_true] at hcontra
    split at hcontra
    · split at hcontra <;> cases hcontra
    · cases hcontra

/-- Witness of C14: all draws `0`, on day `11` of the time line. -/
theorem randomEvent_valid_witness :
    EventStore.isValid (Event.normalize (randomEvent 1000 (11 * DAY) (fun _ => 0))) = true := by
  obtain ⟨_, _, _, _, _, _, _, _, _, _, _, _, _, _, _, _, _, hv, _⟩ :=
    randomEvent_valid 1000 (11 * DAY) (fun _ => 0) (fun _ => ⟨le_refl 0, by norm_num⟩)
      (by simp only [DAY]; norm_num)
  exact hv

/-! ## Adding a random event (C11) -/

theorem randomEvent_normalized (c : Nat) (today : Int) (rand : Nat → ℚ) :
    Event.normalize (randomEvent c today rand) = randomEvent c today rand := rfl

theorem withStore_events (d : CalendarDemo) (s : EventStore) :
    (d.withStore s).eventStore.events = s.events := rfl

/-- The outcome of `addRandomEvent` on a well-formed call: the counter advances,
the event is appended or not, and nothing but the store, the counter and the
conflict panel changes. -/
theorem addRandomEvent_events (d : CalendarDemo) (rand : Nat → ℚ) (today : Int)
    (proceed : Bool) (hrand : ∀ i, IsDraw (rand i)) (htoday : |today| ≤ 8639999136000000)
    (hfresh : ∀ x ∈ d.eventStore.events, x.id ≠ some (eventId (d.eventIdCounter + 1))) :
    ∃ d', d.addRandomEvent rand today proceed = Except.ok d' ∧
      d'.eventIdCounter = d.eventIdCounter + 1 ∧
      d'.eventStore.events =
        (if ((d.conflictDetector.checkConflicts d.eventStore
            (randomEvent d.eventIdCounter today rand)).1.hasConflicts && !proceed) = true
          then d.eventStore.events
          else d.eventStore.events ++ [randomEvent d.eventIdCounter today rand]) ∧
      d'.currentView = d.currentView ∧ d'.calendar.view = d.calendar.view ∧
      d'.renderedBy = d.renderedBy := by
  have hvalid := randomEvent_isValid d.eventIdCounter today rand hrand htoday
  have hev := checkConflicts_events d.conflictDetector d.eventStore
    (randomEvent d.eventIdCounter today rand)
  by_cases hc : ((d.conflictDetector.checkConflicts d.eventStore
      (randomEvent d.eventIdCounter today rand)).1.hasConflicts && !proceed) = true
  · have hres : d.addRandomEvent rand today proceed = Except.ok
        (({ d with eventIdCounter := d.eventIdCounter + 1 } : CalendarDemo).withStore
          (d.conflictDetector.checkConflicts d.eventStore
            (randomEvent d.eventIdCounter today rand)).2) := by
      simp only [CalendarDemo.addRandomEvent, hc, if_true]
    refine ⟨_, hres, rfl, ?_, rfl, rfl, rfl⟩
    rw [if_pos hc]
    exact hev
  · have hadd := addEvent_fresh
      (d.conflictDetector.checkConflicts d.eventStore (randomEvent d.eventIdCounter today rand)).2
      (randomEvent d.eventIdCounter today rand) hvalid
      (by
        intro x hx
        rw [hev] at hx
        exact hfresh x hx)
    rw [randomEvent_normalized, hev] at hadd
    have hres : d.addRandomEvent rand today proceed = Except.ok
        (({ d with eventIdCounter := d.eventIdCounter + 1 } : CalendarDemo).withStore
          { (d.conflictDetector.checkConflicts d.eventStore
              (randomEvent d.eventIdCounter today rand)).2 with
            events := d.eventStore.events ++ [randomEvent d.eventIdCounter today rand]
            cache := [] }).detectAndShowConflicts := by
      simp only [CalendarDemo.addRandomEvent, hc, hadd, Bool.false_eq_true, if_false]
    refine ⟨_, hres, rfl, ?_, rfl, rfl, rfl⟩
    rw [if_neg hc, detectAndShowConflicts_events]
    rfl

/-- C11: `addRandomEvent` checks for conflicts before adding. For draws of
`Math.random()`, a `today` ten days inside the range of `Date` and an id `event-(c+1)` that is
not stored, the call returns, and the generated event is appended to the stored
events if `checkConflicts` reported `hasConflicts = false` for it or the user
confirmed the prompt; when there are conflicts and the user declines, the stored
events are exactly what they were. So the event is stored afterwards if and only
if there was no conflict or the user confirmed. -/
theorem addRandomEvent_adds_iff (d : CalendarDemo) (rand : Nat → ℚ) (today : Int)
    (proceed : Bool) (hrand : ∀ i, IsDraw (rand i)) (htoday : |today| ≤ 8639999136000000)
    (hfresh : ∀ x ∈ d.eventStore.events, x.id ≠ some (eventId (d.eventIdCounter + 1))) :
    ∃ d', d.addRandomEvent rand today proceed = Except.ok d' ∧
      (((d.conflictDetector.checkConflicts d.eventStore
            (randomEvent d.eventIdCounter today rand)).1.hasConflicts = false ∨ proceed = true) →
        d'.eventStore.getAllEvents =
          d.eventStore.getAllEvents ++ [randomEvent d.eventIdCounter today rand]) ∧
      (((d.conflictDetector.checkConflicts d.eventStore
            (randomEvent d.eventIdCounter today rand)).1.hasConflicts = true ∧ proceed = false) →
        d'.eventStore.getAllEvents = d.eventStore.getAllEvents) ∧
      (randomEvent d.eventIdCounter today rand ∈ d'.eventStore.getAllEvents ↔
        ((d.conflictDetector.checkConflicts d.eventStore
            (randomEvent d.eventIdCounter today rand)).1.hasConflicts = false ∨
          proceed = true)) := by
  obtain ⟨d', hok, _, hev, _, _, _⟩ := addRandomEvent_events d rand today proceed hrand htoday hfresh
  have hnotin : randomEvent d.eventIdCounter today rand ∉ d.eventStore.events := by
    intro hmem
    exact hfresh _ hmem rfl
  refine ⟨d', hok, ?_, ?_, ?_⟩
  · intro hcond
    have hc : ¬ ((d.conflictDetector.checkConflicts d.eventStore
        (randomEvent d.eventIdCounter today rand)).1.hasConflicts && !proceed) = true := by
      rcases hcond with h | h <;> simp [h]
    rw [if_neg hc] at hev
    exact hev
  · rintro ⟨h1, h2⟩
    have hc : ((d.conflictDetector.checkConflicts d.eventStore
        (randomEvent d.eventIdCounter today rand)).1.hasConflicts && !proceed) = true := by
      simp [h1, h2]
    rw [if_pos hc] at hev
    exact hev
  · simp only [EventStore.getAllEvents]
    rw [hev]
    split
    · next hc =>
      simp only [Bool.and_eq_true, Bool.not_eq_true'] at hc
      constructor
      · intro h
        exact absurd h hnotin
      · rintro (h | h)
        · rw [hc.1] at h
          cases h
        · rw [hc.2] at h
          cases h
    · next hc =>
      constructor
      · intro _
        cases hh : (d.conflictDetector.checkConflicts d.eventStore
          (randomEvent d.eventIdCounter today rand)).1.hasConflicts
        · exact Or.inl rfl
        · right
          cases hp : proceed
          · exact absurd (by simp [hh, hp]) hc
          · rfl
      · intro _
        simp

/-! ## The performance probe (C12) -/

theorem batchId_inj (a b : Nat) : batchId a = batchId b ↔ a = b := by
  constructor
  · intro h
    apply toString_nat_injective
    have := congrArg String.data h
    simp only [batchId, String.data_append, List.append_cancel_left_eq] at this
    exact String.ext this
  · rintro rfl
    rfl

/-- A batch of valid events whose ids are distinct from each other and from
every stored id is appended in normalized form. -/
theorem addEvents_fresh : ∀ (es : List EventData) (s : EventStore),
    (∀ e ∈ es, EventStore.isValid (Event.normalize e) = true) →
    (∀ e ∈ es, ∀ x ∈ s.events, x.id ≠ e.id) →
    (es.map (fun e => e.id)).Nodup →
    ∃ r, s.addEvents es = Except.ok r ∧ r.2.events = s.events ++ es.map Event.normalize := by
  intro es
  induction es with
  | nil =>
    intro s _ _ _
    exact ⟨([], s), rfl, by simp⟩
  | cons e rest ih =>
    intro s hv hid hnd
    have hadd := addEvent_fresh s e (hv e (List.mem_cons_self _ _))
      (hid e (List.mem_cons_self _ _))
    rw [List.map_cons, List.nodup_cons] at hnd
    obtain ⟨r, hr, hev⟩ := ih
      { s with events := s.events ++ [Event.normalize e], cache := [] }
      (fun x hx => hv x (List.mem_cons_of_mem _ hx))
      (by
        intro x hx y hy
        simp only [List.mem_append, List.mem_singleton] at hy
        rcases hy with hy | rfl
        · exact hid x (List.mem_cons_of_mem _ hx) y hy
        · rw [normalize_id]
          intro heq
          exact hnd.1 (List.mem_map.mpr ⟨x, hx, heq.symm⟩))
      hnd.2
    refine ⟨(Event.normalize e :: r.1, r.2), ?_, ?_⟩
    · simp only [EventStore.addEvents, hadd, hr]
    · rw [hev]
      simp

/-- Removing a stored id succeeds and drops the events with that id. -/
theorem removeEvent_present (s : EventStore) (id : String)
    (h : ∃ x ∈ s.events, x.id = some id) :
    s.removeEvent id = Except.ok { s with
      events := s.events.filter (fun x => !decide (x.id = some id)), cache := [] } := by
  have hany : s.events.any (fun x => decide (x.id = some id)) = true := by
    rw [List.any_eq_true]
    obtain ⟨x, hx, hid⟩ := h
    exact ⟨x, hx, by simpa using hid⟩
  simp only [EventStore.removeEvent, hany, if_true]

/-- Removing, one by one, distinct ids that are all stored succeeds and drops
exactly the events with those ids. -/
theorem removeEach_present : ∀ (ids : List String) (s : EventStore), ids.Nodup →
    (∀ id ∈ ids, ∃ x ∈ s.events, x.id = some id) →
    ∃ s', removeEach s ids = Except.ok s' ∧
      s'.events = s.events.filter (fun x => !ids.any (fun id => decide (x.id = some id))) := by
  intro ids
  induction ids with
  | nil =>
    intro s _ _
    exact ⟨s, rfl, by simp⟩
  | cons id rest ih =>
    intro s hnd hpres
    rw [List.nodup_cons] at hnd
    have hrm := removeEvent_present s id (hpres id (List.mem_cons_self _ _))
    obtain ⟨s', hs', hev⟩ := ih
      { s with events := s.events.filter (fun x => !decide (x.id = some id)), cache := [] }
      hnd.2
      (by
        intro id' hid'
        obtain ⟨x, hx, hxid⟩ := hpres id' (List.mem_cons_of_mem _ hid')
        refine ⟨x, ?_, hxid⟩
        simp only [List.mem_filter, Bool.not_eq_true', decide_eq_false_iff_not]
        refine ⟨hx, ?_⟩
        rw [hxid]
        intro heq
        have : id' = id := Option.some.inj heq
        rw [this] at hid'
        exact hnd.1 hid')
    refine ⟨s', ?_, ?_⟩
    · simp only [removeEach, hrm]
      exact hs'
    · rw [hev]
      simp only [List.filter_filter, List.any_cons]
      apply List.filter_congr
      intro x _
      cases decide (x.id = some id) <;> simp

theorem testEvent_valid (k : PerfClock) (hk : k.Forward) :
    EventStore.isValid (Event.normalize (testEvent k)) = true := by
  have := hk.1
  simp only [EventStore.isValid, Event.normalize, testEvent, EventData.empty,
    Option.isSome_some, Bool.and_self, Bool.false_or, Bool.true_and, decide_eq_true_eq]
  omega

theorem batchEvents_valid (k : PerfClock) (hk : k.Forward) :
    ∀ e ∈ batchEvents k, EventStore.isValid (Event.normalize e) = true := by
  intro e he
  simp only [batchEvents, List.mem_map, List.mem_range] at he
  obtain ⟨i, _, rfl⟩ := he
  have := hk.2 i
  simp only [EventStore.isValid, Event.normalize, batchEvent, EventData.empty,
    Option.isSome_some, Bool.and_self, Bool.false_or, Bool.true_and, decide_eq_true_eq]
  omega

theorem batchEvents_ids (k : PerfClock) :
    (batchEvents k).map (fun e => e.id) = (List.range 100).map (fun i => some (batchId i)) := by
  simp [batchEvents, batchEvent, EventData.empty, Function.comp_def]

theorem batchEvents_filterMap_ids (k : PerfClock) :
    (batchEvents k).filterMap (fun e => e.id) = (List.range 100).map batchId := by
  simp only [batchEvents, List.filterMap_map]
  have h : ((fun e => e.id) ∘ batchEvent k : Nat → Option String) = some ∘ batchId := rfl
  rw [h, List.filterMap_eq_map]

theorem batchIds_nodup : ((List.range 100).map batchId).Nodup := by
  apply List.Nodup.map _ (List.nodup_range 100)
  intro a b h
  exact (batchId_inj a b).mp h

/-- The outcome of `measurePerformance`: only the store is replaced, by one with
the same events. -/
theorem measurePerformance_store (d : CalendarDemo) (k : PerfClock) (hk : k.Forward)
    (hfree : ∀ e ∈ d.eventStore.events,
      e.id ≠ some (perfTestId k.idStamp) ∧ ∀ i, i < 100 → e.id ≠ some (batchId i)) :
    ∃ s4, d.measurePerformance k = Except.ok (d.withStore s4) ∧
      s4.events = d.eventStore.events := by
  -- the test event goes in
  obtain ⟨s1, hs1, hs1ev⟩ : ∃ s1, d.eventStore.addEvent (testEvent k) =
      Except.ok (Event.normalize (testEvent k), s1) ∧
      s1.events = d.eventStore.events ++ [Event.normalize (testEvent k)] :=
    ⟨_, addEvent_fresh d.eventStore (testEvent k) (testEvent_valid k hk)
      (fun x hx => (hfree x hx).1), rfl⟩
  -- the query and the check leave the events alone
  have hc : (d.conflictDetector.checkConflicts
      (s1.getEventsInRange k.queryStart (k.queryEndBase + 86400000 * 30)).2
      (testEvent k)).2.events = d.eventStore.events ++ [Event.normalize (testEvent k)] := by
    rw [checkConflicts_events, getEventsInRange_events, hs1ev]
  -- the test event goes out
  have hfilter : (d.eventStore.events ++ [Event.normalize (testEvent k)]).filter
      (fun x => !decide (x.id = some (perfTestId k.idStamp))) = d.eventStore.events := by
    rw [List.filter_append]
    have h1 : d.eventStore.events.filter
        (fun x => !decide (x.id = some (perfTestId k.idStamp))) = d.eventStore.events := by
      rw [List.filter_eq_self]
      intro x hx
      simpa using (hfree x hx).1
    have h2 : [Event.normalize (testEvent k)].filter
        (fun x => !decide (x.id = some (perfTestId k.idStamp))) = [] := by
      simp [testEvent, Event.normalize]
    rw [h1, h2, List.append_nil]
  obtain ⟨s2, hs2, hs2ev⟩ : ∃ s2, (d.conflictDetector.checkConflicts
      (s1.getEventsInRange k.queryStart (k.queryEndBase + 86400000 * 30)).2
      (testEvent k)).2.removeEvent (perfTestId k.idStamp) = Except.ok s2 ∧
      s2.events = d.eventStore.events := by
    refine ⟨_, removeEvent_present _ (perfTestId k.idStamp) ?_, ?_⟩
    · rw [hc]
      exact ⟨Event.normalize (testEvent k), by simp, rfl⟩
    · show List.filter _ _ = _
      rw [hc, hfilter]
  -- the batch goes in
  obtain ⟨b, hb, hbev⟩ := addEvents_fresh (batchEvents k) s2 (batchEvents_valid k hk)
    (by
      intro e he x hx
      rw [hs2ev] at hx
      simp only [batchEvents, List.mem_map, List.mem_range] at he
      obtain ⟨i, hi, rfl⟩ := he
      exact (hfree x hx).2 i hi)
    (by
      rw [batchEvents_ids]
      apply List.Nodup.map _ (List.nodup_range 100)
      intro a c h
      exact (batchId_inj a c).mp (Option.some.inj h))
  rw [hs2ev] at hbev
  -- the batch goes out
  obtain ⟨s4, hs4, hs4ev⟩ := removeEach_present ((List.range 100).map batchId) b.2 batchIds_nodup
    (by
      intro id hid
      simp only [List.mem_map, List.mem_range] at hid
      obtain ⟨i, hi, rfl⟩ := hid
      refine ⟨Event.normalize (batchEvent k i), ?_, rfl⟩
      rw [hbev]
      apply List.mem_append_right
      simp only [batchEvents, List.mem_map, List.mem_range]
      exact ⟨batchEvent k i, ⟨i, hi, rfl⟩, rfl⟩)
  have hfinal : s4.events = d.eventStore.events := by
    rw [hs4ev, hbev, List.filter_append]
    have h1 : d.eventStore.events.filter
        (fun x => !((List.range 100).map batchId).any (fun id => decide (x.id = some id)))
        = d.eventStore.events := by
      rw [List.filter_eq_self]
      intro x hx
      simp only [Bool.not_eq_true', List.any_eq_false, List.mem_map, List.mem_range,
        decide_eq_true_eq]
      rintro id ⟨i, hi, rfl⟩
      exact (hfree x hx).2 i hi
    have h2 : ((batchEvents k).map Event.normalize).filter
        (fun x => !((List.range 100).map batchId).any (fun id => decide (x.id = some id)))
        = [] := by
      rw [List.filter_eq_nil_iff]
      intro x hx
      simp only [batchEvents, List.mem_map, List.mem_range] at hx
      obtain ⟨_, ⟨i, hi, rfl⟩, rfl⟩ := hx
      simp only [Bool.not_eq_true', Bool.not_eq_false, List.any_eq_true, List.mem_map,
        List.mem_range, decide_eq_true_eq]
      exact ⟨batchId i, ⟨i, hi, rfl⟩, rfl⟩
    rw [h1, h2, List.append_nil]
  refine ⟨s4, ?_, hfinal⟩
  simp only [CalendarDemo.measurePerformance, hs1, hs2, hb, batchEvents_filterMap_ids, hs4]

/-- C12: `measurePerformance` cleans up after itself. For a clock that does not
run backwards and a store that holds no event whose id is the generated
`perf-test-` id or one of `batch-0` .. `batch-99`, the call returns and the
stored events (ids and contents, in order) are those stored before it: the test
event and the hundred batch events were added and removed again. -/
theorem measurePerformance_restores (d : CalendarDemo) (k : PerfClock) (hk : k.Forward)
    (hfree : ∀ e ∈ d.eventStore.events,
      e.id ≠ some (perfTestId k.idStamp) ∧ ∀ i, i < 100 → e.id ≠ some (batchId i)) :
    ∃ d', d.measurePerformance k = Except.ok d' ∧
      d'.eventStore.getAllEvents = d.eventStore.getAllEvents ∧
      (∀ id, d'.eventStore.getEvent id = d.eventStore.getEvent id) ∧
      d'.eventIdCounter = d.eventIdCounter := by
  obtain ⟨s4, hok, hev⟩ := measurePerformance_store d k hk hfree
  refine ⟨d.withStore s4, hok, hev, ?_, rfl⟩
  intro id
  simp only [EventStore.getEvent, withStore_events, hev]

/-! ## The views of the demo and of the calendar (C19) -/

theorem ofName_name (v : ViewType) : ViewType.ofName? v.name = some v := by
  cases v <;> decide

theorem ofName_eq_some (name : String) (v : ViewType) (h : ViewType.ofName? name = some v) :
    name = v.name := by
  unfold ViewType.ofName? at h
  split at h
  · cases h
    assumption
  · split at h
    · cases h
      assumption
    · split at h
      · cases h
        assumption
      · split at h
        · cases h
          assumption
        · cases h

theorem rendererFor_eq_ofName (view : String) : rendererFor view = ViewType.ofName? view := rfl

theorem ofName_of_mem (name : String) (h : name ∈ viewNames) :
    ∃ v, ViewType.ofName? name = some v := by
  simp only [viewNames, List.mem_cons, List.mem_singleton, List.not_mem_nil, or_false] at h
  rcases h with rfl | rfl | rfl | rfl
  · exact ⟨ViewType.month, by decide⟩
  · exact ⟨ViewType.week, by decide⟩
  · exact ⟨ViewType.day, by decide⟩
  · exact ⟨ViewType.list, by decide⟩

theorem name_mem_viewNames (v : ViewType) : v.name ∈ viewNames := by
  cases v <;> decide

/-- Rendering re-selects the renderer of `currentView` and changes neither view. -/
theorem render_view (d : CalendarDemo) :
    d.render.currentView = d.currentView ∧ d.render.calendar.view = d.calendar.view ∧
      d.render.renderedBy = rendererFor d.currentView ∧
      d.render.eventIdCounter = d.eventIdCounter :=
  ⟨rfl, rfl, rfl, rfl⟩

theorem render_viewInvariant (d : CalendarDemo)
    (h : d.currentView = d.calendar.view.name) : d.render.ViewInvariant := by
  obtain ⟨h1, h2, h3, _⟩ := render_view d
  have hr : rendererFor d.currentView = some d.calendar.view := by
    rw [h, rendererFor_eq_ofName, ofName_name]
  refine ⟨?_, ?_, ?_⟩
  · rw [h1, h2, h]
  · rw [h1, h2, hr]
  · rw [h3, h2, hr]

theorem loadSampleEvents_view (d d' : CalendarDemo) (today : Int)
    (h : d.loadSampleEvents today = Except.ok d') :
    d'.currentView = d.currentView ∧ d'.calendar.view = d.calendar.view ∧
      d'.renderedBy = rendererFor d.currentView := by
  unfold CalendarDemo.loadSampleEvents at h
  dsimp only at h
  split at h
  · cases h
  · cases h
    exact ⟨rfl, rfl, rfl⟩

theorem addRandomEvent_view (d d' : CalendarDemo) (rand : Nat → ℚ) (today : Int)
    (proceed : Bool) (h : d.addRandomEvent rand today proceed = Except.ok d') :
    d'.currentView = d.currentView ∧ d'.calendar.view = d.calendar.view ∧
      d'.renderedBy = d.renderedBy := by
  unfold CalendarDemo.addRandomEvent at h
  dsimp only at h
  split at h
  · cases h
    exact ⟨rfl, rfl, rfl⟩
  · split at h
    · cases h
    · cases h
      exact ⟨rfl, rfl, rfl⟩

theorem measurePerformance_view (d d' : CalendarDemo) (k : PerfClock)
    (h : d.measurePerformance k = Except.ok d') :
    d'.currentView = d.currentView ∧ d'.calendar.view = d.calendar.view ∧
      d'.renderedBy = d.renderedBy ∧ d'.eventIdCounter = d.eventIdCounter := by
  unfold CalendarDemo.measurePerformance at h
  split at h
  · cases h
  · dsimp only at h
    split at h
    · cases h
    · split at h
      · cases h
      · split at h
        · cases h
        · cases h
          exact ⟨rfl, rfl, rfl, rfl⟩

/-- Every handler keeps the two views equal, provided the view buttons carry
view names. -/
theorem viewInvariant_step (buttons : List String) (hb : ∀ v ∈ buttons, v ∈ viewNames)
    (d d' : CalendarDemo) (a : DemoAction) (hinv : d.ViewInvariant)
    (ha : a.Admissible buttons) (hstep : d.step a = Except.ok d') : d'.ViewInvariant := by
  obtain ⟨i1, i2, i3⟩ := hinv
  cases a with
  | viewButton view =>
    obtain ⟨v, hv⟩ := ofName_of_mem view (hb view ha)
    simp only [CalendarDemo.step] at hstep
    cases hstep
    apply render_viewInvariant
    show view = (d.calendar.setView view).view.name
    simp only [Calendar.setView, hv]
    exact ofName_eq_some view v hv
  | prevBtn =>
    simp only [CalendarDemo.step] at hstep
    cases hstep
    exact render_viewInvariant _ i1
  | todayBtn now =>
    simp only [CalendarDemo.step] at hstep
    cases hstep
    exact render_viewInvariant _ i1
  | nextBtn =>
    simp only [CalendarDemo.step] at hstep
    cases hstep
    exact render_viewInvariant _ i1
  | addEventBtn rand today proceed =>
    obtain ⟨h1, h2, h3⟩ := addRandomEvent_view d d' rand today proceed hstep
    exact ⟨by rw [h1, h2, i1], by rw [h1, h2, i2], by rw [h3, h2, i3]⟩
  | detectConflictsBtn =>
    simp only [CalendarDemo.step] at hstep
    cases hstep
    exact ⟨i1, i2, i3⟩
  | loadSampleBtn today =>
    obtain ⟨h1, h2, h3⟩ := loadSampleEvents_view d d' today hstep
    exact ⟨by rw [h1, h2, i1], by rw [h1, h2, i2], by rw [h3, h2, i2]⟩
  | clearBtn =>
    simp only [CalendarDemo.step] at hstep
    cases hstep
    exact render_viewInvariant (d.withStore d.eventStore.clear) i1
  | performanceTick k =>
    obtain ⟨h1, h2, h3, _⟩ := measurePerformance_view d d' k hstep
    exact ⟨by rw [h1, h2, i1], by rw [h1, h2, i2], by rw [h3, h2, i3]⟩

theorem viewInvariant_create (cd : ConflictDetector) (capacity : Nat)
    (onDuplicate : DuplicatePolicy) (onMissing : MissingPolicy)
    (viewDays : ViewType → Int → List (Int × Int)) (shiftDate : ViewType → Int → Int → Int)
    (now today : Int) (d : CalendarDemo)
    (h : CalendarDemo.create cd capacity onDuplicate onMissing viewDays shiftDate now today
      = Except.ok d) : d.ViewInvariant := by
  unfold CalendarDemo.create at h
  dsimp only at h
  split at h
  · cases h
  · next d1 hd1 =>
    cases h
    obtain ⟨h1, h2, _⟩ := loadSampleEvents_view _ d1 today hd1
    have : d1.render.ViewInvariant := render_viewInvariant d1 (by rw [h1, h2]; rfl)
    exact this

/-- C19: on a page whose view buttons carry the names of the four views, in
every reachable state of the demo `currentView` is the name of the calendar's
current view and is one of month, week, day, list; so `render()` selects the
renderer of the view whose structure `getViewData()` returns, and the calendar
pane shown was produced by it (never left empty). This holds after `init()` and
is preserved by every handler, a view-button click included. -/
theorem currentView_matches (buttons : List String) (hb : ∀ v ∈ buttons, v ∈ viewNames)
    (d : CalendarDemo) (hist : List Nat) (h : CalendarDemo.Trace buttons d hist) :
    d.currentView = d.calendar.view.name ∧ d.currentView ∈ viewNames ∧
      rendererFor d.currentView = some d.calendar.view ∧
      d.renderedBy = some d.calendar.view ∧
      d.render.renderedBy = some d.render.calendar.view := by
  have hinv : d.ViewInvariant := by
    induction h with
    | init cd capacity onDuplicate onMissing viewDays shiftDate now today d hd =>
      exact viewInvariant_create cd capacity onDuplicate onMissing viewDays shiftDate now today d hd
    | step d d' hist a _ ha hstep ih =>
      exact viewInvariant_step buttons hb d d' a ih ha hstep
  obtain ⟨i1, i2, i3⟩ := hinv
  refine ⟨i1, ?_, i2, i3, (render_viewInvariant d i1).2.2⟩
  rw [i1]
  exact name_mem_viewNames _

/-! ## Unique ids (C15) -/

theorem perfTestId_ne_eventId (t : Int) (n : Nat) : perfTestId t ≠ eventId n := by
  intro h
  have h1 := congrArg String.data h
  simp only [perfTestId, eventId, String.data_append] at h1
  rw [List.cons_append, List.cons_append] at h1
  exact absurd (List.cons.inj h1).1 (by decide)

theorem batchId_ne_eventId (i n : Nat) : batchId i ≠ eventId n := by
  intro h
  have h1 := congrArg String.data h
  simp only [batchId, eventId, String.data_append] at h1
  rw [List.cons_append, List.cons_append] at h1
  exact absurd (List.cons.inj h1).1 (by decide)

theorem setView_eventStore (c : Calendar) (view : String) :
    (c.setView view).eventStore = c.eventStore := by
  unfold Calendar.setView
  split <;> rfl

/-- The ids of the samples are `event-(c+1)` .. `event-(c+8)`, in order. -/
theorem sampleEvents_ids (c : Nat) (today : Int) :
    (sampleEvents c today).map (fun e => e.id) =
      ((List.range 8).map (fun i => c + 1 + i)).map (fun n => some (eventId n)) := rfl

theorem loadSampleEvents_counter (d d' : CalendarDemo) (today : Int)
    (h : d.loadSampleEvents today = Except.ok d') :
    d'.eventStore.events = sampleEvents d.eventIdCounter today ∧
      d'.eventIdCounter = d.eventIdCounter + 8 := by
  obtain ⟨d'', h1, h2, h3⟩ := loadSampleEvents_ok d today
  rw [h] at h1
  cases h1
  exact ⟨h2, h3⟩

/-- Appending the freshly generated numbers keeps the invariant. -/
theorem idsInvariant_extend (d d' : CalendarDemo) (hist : List Nat) (k : Nat)
    (hinv : d.IdsInvariant hist)
    (hc : d'.eventIdCounter = d.eventIdCounter + k)
    (hev : ∀ e ∈ d'.eventStore.events,
      (∃ n ∈ hist, e.id = some (eventId n)) ∨
        ∃ i, i < k ∧ e.id = some (eventId (d.eventIdCounter + 1 + i)))
    (hnd : (d'.eventStore.events.map (fun e => e.id)).Nodup) :
    d'.IdsInvariant (hist ++ (List.range k).map (fun i => d.eventIdCounter + 1 + i)) := by
  obtain ⟨h1, h2, _, _⟩ := hinv
  refine ⟨?_, ?_, ?_, hnd⟩
  · rw [List.pairwise_append]
    refine ⟨h1, ?_, ?_⟩
    · rw [List.pairwise_map]
      exact (List.pairwise_lt_range k).imp (fun h => by omega)
    · intro m hm n hn
      simp only [List.mem_map, List.mem_range] at hn
      obtain ⟨i, _, rfl⟩ := hn
      have := h2 m hm
      omega
  · intro n hn
    rw [List.mem_append] at hn
    rcases hn with hn | hn
    · have := h2 n hn
      omega
    · simp only [List.mem_map, List.mem_range] at hn
      obtain ⟨i, hi, rfl⟩ := hn
      omega
  · intro e he
    rcases hev e he with ⟨n, hn, hid⟩ | ⟨i, hi, hid⟩
    · exact ⟨n, List.mem_append_left _ hn, hid⟩
    · exact ⟨_, List.mem_append_right _
        (List.mem_map.mpr ⟨i, List.mem_range.mpr hi, rfl⟩), hid⟩

/-- A state with the same counter and the same stored events keeps the
invariant. -/
theorem idsInvariant_same (d d' : CalendarDemo) (hist : List Nat) (hinv : d.IdsInvariant hist)
    (hc : d'.eventIdCounter = d.eventIdCounter)
    (hev : d'.eventStore.events = d.eventStore.events) : d'.IdsInvariant hist := by
  obtain ⟨h1, h2, h3, h4⟩ := hinv
  exact ⟨h1, by rw [hc]; exact h2, by rw [hev]; exact h3, by rw [hev]; exact h4⟩

/-- The invariant keeps every id that a handler will generate out of the store
and above the numbers used before. -/
theorem idsInvariant_fresh (d : CalendarDemo) (hist : List Nat) (hinv : d.IdsInvariant hist)
    (n : Nat) (hn : d.eventIdCounter < n) :
    (∀ m ∈ hist, m < n) ∧ ∀ e ∈ d.eventStore.events, e.id ≠ some (eventId n) := by
  obtain ⟨_, h2, h3, _⟩ := hinv
  constructor
  · intro m hm
    have := h2 m hm
    omega
  · intro e he heq
    obtain ⟨m, hm, hid⟩ := h3 e he
    rw [hid] at heq
    have := (eventId_inj m n).mp (Option.some.inj heq)
    have := h2 m hm
    omega

theorem idsInvariant_perfFree (d : CalendarDemo) (hist : List Nat) (hinv : d.IdsInvariant hist)
    (k : PerfClock) : ∀ e ∈ d.eventStore.events,
      e.id ≠ some (perfTestId k.idStamp) ∧ ∀ i, i < 100 → e.id ≠ some (batchId i) := by
  intro e he
  obtain ⟨m, _, hid⟩ := hinv.2.2.1 e he
  rw [hid]
  constructor
  · intro h
    exact perfTestId_ne_eventId _ _ (Option.some.inj h).symm
  · intro i _ h
    exact batchId_ne_eventId _ _ (Option.some.inj h).symm

theorem sampleEvents_mem_ids (c : Nat) (today : Int) :
    ∀ e ∈ sampleEvents c today, ∃ i, i < 8 ∧ e.id = some (eventId (c + 1 + i)) := by
  intro e he
  have hmem : e.id ∈ (sampleEvents c today).map (fun e => e.id) := List.mem_map.mpr ⟨e, he, rfl⟩
  rw [sampleEvents_ids] at hmem
  simp only [List.mem_map, List.mem_range] at hmem
  obtain ⟨_, ⟨i, hi, rfl⟩, hid⟩ := hmem
  exact ⟨i, hi, hid.symm⟩

/-- Every handler keeps the invariant and extends the history by what it
generated. -/
theorem idsInvariant_step (buttons : List String) (d d' : CalendarDemo) (hist : List Nat)
    (a : DemoAction) (hinv : d.IdsInvariant hist) (ha : a.Admissible buttons)
    (hstep : d.step a = Except.ok d') :
    d'.IdsInvariant (hist ++ a.generated d.eventIdCounter) := by
  cases a with
  | viewButton view =>
    simp only [CalendarDemo.step] at hstep
    cases hstep
    simp only [DemoAction.generated, List.append_nil]
    exact idsInvariant_same d _ hist hinv rfl
      ((render_events _).trans (congrArg EventStore.events (setView_eventStore d.calendar view)))
  | prevBtn =>
    simp only [CalendarDemo.step] at hstep
    cases hstep
    simp only [DemoAction.generated, List.append_nil]
    exact idsInvariant_same d _ hist hinv rfl (render_events _)
  | todayBtn now =>
    simp only [CalendarDemo.step] at hstep
    cases hstep
    simp only [DemoAction.generated, List.append_nil]
    exact idsInvariant_same d _ hist hinv rfl (render_events _)
  | nextBtn =>
    simp only [CalendarDemo.step] at hstep
    cases hstep
    simp only [DemoAction.generated, List.append_nil]
    exact idsInvariant_same d _ hist hinv rfl (render_events _)
  | addEventBtn rand today proceed =>
    obtain ⟨d'', hok, hc, hev, _⟩ := addRandomEvent_events d rand today proceed ha.1 ha.2
      (idsInvariant_fresh d hist hinv _ (Nat.lt_succ_self _)).2
    simp only [CalendarDemo.step] at hstep
    rw [hstep] at hok
    cases hok
    have hgen : (DemoAction.addEventBtn rand today proceed).generated d.eventIdCounter =
        (List.range 1).map (fun i => d.eventIdCounter + 1 + i) := rfl
    rw [hgen]
    apply idsInvariant_extend d d' hist 1 hinv hc
    · intro e he
      rw [hev] at he
      split at he
      · exact Or.inl (hinv.2.2.1 e he)
      · rw [List.mem_append, List.mem_singleton] at he
        rcases he with he | rfl
        · exact Or.inl (hinv.2.2.1 e he)
        · exact Or.inr ⟨0, by omega, rfl⟩
    · rw [hev]
      split
      · exact hinv.2.2.2
      · rw [List.map_append, List.nodup_append]
        refine ⟨hinv.2.2.2, by simp, ?_⟩
        intro x hx hx'
        simp only [List.map_cons, List.map_nil, List.mem_singleton] at hx'
        simp only [List.mem_map] at hx
        obtain ⟨e, he, rfl⟩ := hx
        exact (idsInvariant_fresh d hist hinv _ (Nat.lt_succ_self _)).2 e he hx'
  | detectConflictsBtn =>
    simp only [CalendarDemo.step] at hstep
    cases hstep
    simp only [DemoAction.generated, List.append_nil]
    exact idsInvariant_same d _ hist hinv rfl (detectAndShowConflicts_events _)
  | loadSampleBtn today =>
    simp only [CalendarDemo.step] at hstep
    obtain ⟨hev, hc⟩ := loadSampleEvents_counter d d' today hstep
    have hgen : (DemoAction.loadSampleBtn today).generated d.eventIdCounter =
        (List.range 8).map (fun i => d.eventIdCounter + 1 + i) := rfl
    rw [hgen]
    apply idsInvariant_extend d d' hist 8 hinv hc
    · intro e he
      rw [hev] at he
      exact Or.inr (sampleEvents_mem_ids _ _ e he)
    · rw [hev]
      exact sampleEvents_ids_nodup _ _
  | clearBtn =>
    simp only [CalendarDemo.step] at hstep
    cases hstep
    simp only [DemoAction.generated, List.append_nil]
    obtain ⟨h1, h2, _, _⟩ := hinv
    have hev : ((d.withStore d.eventStore.clear).render.updateStatistics.updateConflictInfo
        []).eventStore.events = [] := by
      show (CalendarDemo.render _).eventStore.events = []
      rw [render_events]
      rfl
    refine ⟨h1, h2, ?_, ?_⟩
    · intro e he
      rw [hev] at he
      cases he
    · rw [hev]
      exact List.nodup_nil
  | performanceTick k =>
    obtain ⟨s4, hok, hev⟩ := measurePerformance_store d k ha (idsInvariant_perfFree d hist hinv k)
    simp only [CalendarDemo.step] at hstep
    rw [hstep] at hok
    cases hok
    simp only [DemoAction.generated, List.append_nil]
    exact idsInvariant_same d _ hist hinv rfl hev

/-- From a state with the invariant every admissible handler runs to its end. -/
theorem step_succeeds (buttons : List String) (d : CalendarDemo) (hist : List Nat)
    (a : DemoAction) (hinv : d.IdsInvariant hist) (ha : a.Admissible buttons) :
    ∃ d', d.step a = Except.ok d' := by
  cases a with
  | viewButton view => exact ⟨_, rfl⟩
  | prevBtn => exact ⟨_, rfl⟩
  | todayBtn now => exact ⟨_, rfl⟩
  | nextBtn => exact ⟨_, rfl⟩
  | addEventBtn rand today proceed =>
    obtain ⟨d', hok, _⟩ := addRandomEvent_events d rand today proceed ha.1 ha.2
      (idsInvariant_fresh d hist hinv _ (Nat.lt_succ_self _)).2
    exact ⟨d', hok⟩
  | detectConflictsBtn => exact ⟨_, rfl⟩
  | loadSampleBtn today =>
    obtain ⟨d', hok, _⟩ := loadSampleEvents_ok d today
    exact ⟨d', hok⟩
  | clearBtn => exact ⟨_, rfl⟩
  | performanceTick k =>
    obtain ⟨s4, hok, _⟩ := measurePerformance_store d k ha (idsInvariant_perfFree d hist hinv k)
    exact ⟨_, hok⟩

/-- The constructor and `init()` run to their end and establish the invariant
with the history `1001 .. 1008`. -/
theorem create_ok (cd : ConflictDetector) (capacity : Nat) (onDuplicate : DuplicatePolicy)
    (onMissing : MissingPolicy) (viewDays : ViewType → Int → List (Int × Int))
    (shiftDate : ViewType → Int → Int → Int) (now today : Int) :
    ∃ d, CalendarDemo.create cd capacity onDuplicate onMissing viewDays shiftDate now today
      = Except.ok d := by
  unfold CalendarDemo.create
  dsimp only
  obtain ⟨d1, h1, _⟩ := loadSampleEvents_ok
    { calendar :=
        { view := ViewType.month, date := now, weekStartsOn := 0,
          eventStore := EventStore.new capacity onDuplicate onMissing,
          viewDays := viewDays, shiftDate := shiftDate }
      conflictDetector := cd
      currentView := "month"
      eventIdCounter := 1000
      renderedBy := none
      renderedDays := []
      statsPanel := { totalEvents := 0, recurringEvents := 0, attendeeEvents := 0,
                      cacheHitRate := 0, cacheHits := 0, cacheMisses := 0, cacheEvictions := 0 }
      conflictInfo := [] } today
  rw [h1]
  exact ⟨_, rfl⟩

theorem idsInvariant_create (cd : ConflictDetector) (capacity : Nat)
    (onDuplicate : DuplicatePolicy) (onMissing : MissingPolicy)
    (viewDays : ViewType → Int → List (Int × Int)) (shiftDate : ViewType → Int → Int → Int)
    (now today : Int) (d : CalendarDemo)
    (h : CalendarDemo.create cd capacity onDuplicate onMissing viewDays shiftDate now today
      = Except.ok d) :
    d.IdsInvariant ((List.range 8).map (fun i => 1000 + 1 + i)) := by
  unfold CalendarDemo.create at h
  dsimp only at h
  split at h
  · cases h
  · next d1 hd1 =>
    cases h
    obtain ⟨hev, hc⟩ := loadSampleEvents_counter _ d1 today hd1
    have hev' : d1.render.updateStatistics.eventStore.events = sampleEvents 1000 today := by
      show (CalendarDemo.render _).eventStore.events = _
      rw [render_events, hev]
    have hc' : d1.render.updateStatistics.eventIdCounter = 1008 := hc
    refine ⟨by decide, ?_, ?_, ?_⟩
    · intro n hn
      rw [hc']
      simp only [List.mem_map, List.mem_range] at hn
      obtain ⟨i, hi, rfl⟩ := hn
      omega
    · intro e he
      rw [hev'] at he
      obtain ⟨i, hi, hid⟩ := sampleEvents_mem_ids 1000 today e he
      exact ⟨1000 + 1 + i, List.mem_map.mpr ⟨i, List.mem_range.mpr hi, rfl⟩, hid⟩
    · rw [hev']
      exact sampleEvents_ids_nodup _ _

/-- What a handler generates is what the code puts into the ids it builds. -/
theorem generated_sound (c : Nat) (today : Int) (rand : Nat → ℚ) (proceed : Bool) :
    (sampleEvents c today).map (fun e => e.id) =
        ((DemoAction.loadSampleBtn today).generated c).map (fun n => some (eventId n)) ∧
      [(randomEvent c today rand).id] =
        ((DemoAction.addEventBtn rand today proceed).generated c).map
          (fun n => some (eventId n)) :=
  ⟨rfl, rfl⟩

/-- C15: ids are unique within the demo's store. In every reachable state, with
`hist` the numbers `N` of all ids `event-N` generated so far (samples and random
events, declined ones included) in order of generation: `hist` is strictly
increasing, every `N` in it is at most `eventIdCounter`, every stored event has
an id `event-N` with `N` in `hist`, and no two stored events share an id.
Whatever handler runs next, each number it generates is larger than all earlier
ones and its id is not stored, so `addEvent` is never called with an `event-N`
id that is already stored; and every admissible handler runs to its end. -/
theorem eventIds_unique (buttons : List String) (d : CalendarDemo) (hist : List Nat)
    (h : CalendarDemo.Trace buttons d hist) :
    hist.Pairwise (fun m n => m < n) ∧
      (∀ n ∈ hist, n ≤ d.eventIdCounter) ∧
      (∀ e ∈ d.eventStore.getAllEvents, ∃ n ∈ hist, e.id = some (eventId n)) ∧
      (d.eventStore.getAllEvents.map (fun e => e.id)).Nodup ∧
      (∀ a : DemoAction, ∀ n ∈ a.generated d.eventIdCounter,
        (∀ m ∈ hist, m < n) ∧ ∀ e ∈ d.eventStore.getAllEvents, e.id ≠ some (eventId n)) ∧
      (∀ a : DemoAction, a.Admissible buttons → ∃ d', d.step a = Except.ok d') := by
  have hinv : d.IdsInvariant hist := by
    induction h with
    | init cd capacity onDuplicate onMissing viewDays shiftDate now today d hd =>
      exact idsInvariant_create cd capacity onDuplicate onMissing viewDays shiftDate now today d hd
    | step d d' hist a _ ha hstep ih =>
      exact idsInvariant_step buttons d d' hist a ih ha hstep
  refine ⟨hinv.1, hinv.2.1, hinv.2.2.1, hinv.2.2.2, ?_, ?_⟩
  · intro a n hn
    apply idsInvariant_fresh d hist hinv
    cases a <;> simp only [DemoAction.generated, List.not_mem_nil, List.mem_singleton,
      List.mem_map, List.mem_range] at hn
    · omega
    · obtain ⟨i, _, rfl⟩ := hn
      omega
  · intro a ha
    exact step_succeeds buttons d hist a hinv ha

/-! ## Showing the conflicts (C17) -/

theorem checkConflicts_cacheValid (cd : ConflictDetector) (s : EventStore) (hs : s.CacheValid)
    (e : EventData) : (cd.checkConflicts s e).2.CacheValid := by
  simp only [ConflictDetector.checkConflicts, ConflictDetector.analyse]
  split
  · exact hs
  · exact getEventsInRange_cacheValid s hs _ _

/-- With no stale cache entry the result of a check depends on the stored events
only. -/
theorem checkConflicts_result (cd : ConflictDetector) (s s' : EventStore) (hs : s.CacheValid)
    (hs' : s'.CacheValid) (hev : s.events = s'.events) (e : EventData) :
    (cd.checkConflicts s e).1 = (cd.checkConflicts s' e).1 := by
  simp only [ConflictDetector.checkConflicts, ConflictDetector.analyse]
  split
  · rfl
  · dsimp only
    rw [getEventsInRange_result s hs, getEventsInRange_result s' hs', hev]

/-- The loop of `detectAndShowConflicts` collects, in order, the conflicts of
every event. -/
theorem detectFold_conflicts (cd : ConflictDetector) (s : EventStore) (hs : s.CacheValid) :
    ∀ (es : List EventData) (acc : List DisplayedConflict) (si : EventStore),
      si.CacheValid → si.events = s.events →
      (es.foldl (detectStep cd) (acc, si)).1 =
        acc ++ es.flatMap (fun e => (cd.checkConflicts s e).1.conflicts.map (fun c =>
          { type := c.type, description := c.description, severity := c.severity,
            eventTitle := e.title })) := by
  intro es
  induction es with
  | nil =>
    intro acc si _ _
    simp
  | cons e rest ih =>
    intro acc si hsi hev
    rw [List.foldl_cons]
    have hstep : detectStep cd (acc, si) e =
        (acc ++ (cd.checkConflicts s e).1.conflicts.map (fun c =>
          { type := c.type, description := c.description, severity := c.severity,
            eventTitle := e.title }),
         (cd.checkConflicts si e).2) := by
      have hres := checkConflicts_result cd si s hsi hs hev e
      unfold detectStep
      dsimp only
      rw [hres]
      split
      · rfl
      · next h =>
        have hnil : (cd.checkConflicts s e).1.conflicts = [] := by
          simp only [ConflictDetector.checkConflicts, ConflictResult.ofConflicts,
            decide_eq_true_eq, Bool.not_eq_true, decide_eq_false_iff_not, not_lt,
            Nat.le_zero, List.length_eq_zero] at h ⊢
          exact h
        rw [hnil]
        simp
    rw [hstep, ih _ _ (checkConflicts_cacheValid cd si hsi e)
      ((checkConflicts_events cd si e).trans hev)]
    simp

/-- Dropping the elements that contribute nothing does not change a concatenation. -/
theorem flatMap_filter_of_nil {α β : Type} (p : α → Bool) (f : α → List β)
    (h : ∀ a, p a = false → f a = []) (l : List α) :
    l.flatMap f = (l.filter p).flatMap f := by
  induction l with
  | nil => rfl
  | cons a rest ih =>
    rw [List.flatMap_cons, List.filter_cons]
    cases hp : p a
    · rw [h a hp, ih]
      simp
    · rw [ih]
      simp

/-- C17: `detectAndShowConflicts` hands to `updateConflictInfo` exactly the
concatenation, in `getAllEvents()` order, of the `conflicts` of `checkConflicts(e)`
for each stored event `e` whose result has `hasConflicts = true`, each conflict
keeping its type, description and severity and gaining `eventTitle = e.title`.
So the number of displayed conflicts is the sum of the lengths of those lists,
and the list is empty (shown as "No conflicts detected") exactly when no stored
event has a conflict. -/
theorem detectAndShowConflicts_shows (d : CalendarDemo) (hs : d.eventStore.CacheValid) :
    d.detectAndShowConflicts.conflictInfo =
        (d.eventStore.getAllEvents.filter
          (fun e => (d.conflictDetector.checkConflicts d.eventStore e).1.hasConflicts)).flatMap
          (fun e => (d.conflictDetector.checkConflicts d.eventStore e).1.conflicts.map
            (DisplayedConflict.ofConflict e.title)) ∧
      d.detectAndShowConflicts.conflictInfo.length =
        ((d.eventStore.getAllEvents.filter
          (fun e => (d.conflictDetector.checkConflicts d.eventStore e).1.hasConflicts)).map
          (fun e => (d.conflictDetector.checkConflicts d.eventStore e).1.conflicts.length)).sum ∧
      (d.detectAndShowConflicts.conflictInfo = [] ↔
        ∀ e ∈ d.eventStore.getAllEvents,
          (d.conflictDetector.checkConflicts d.eventStore e).1.hasConflicts = false) := by
  have hall : d.detectAndShowConflicts.conflictInfo =
      d.eventStore.events.flatMap
        (fun e => (d.conflictDetector.checkConflicts d.eventStore e).1.conflicts.map
          (DisplayedConflict.ofConflict e.title)) := by
    have := detectFold_conflicts d.conflictDetector d.eventStore hs d.eventStore.events []
      d.eventStore hs rfl
    simp only [List.nil_append] at this
    exact this
  have hnil : ∀ e : EventData,
      (d.conflictDetector.checkConflicts d.eventStore e).1.hasConflicts = false ↔
      (d.conflictDetector.checkConflicts d.eventStore e).1.conflicts = [] := by
    intro e
    simp [ConflictDetector.checkConflicts, ConflictResult.ofConflicts]
  have hfilter := flatMap_filter_of_nil
    (fun e => (d.conflictDetector.checkConflicts d.eventStore e).1.hasConflicts)
    (fun e => (d.conflictDetector.checkConflicts d.eventStore e).1.conflicts.map
      (DisplayedConflict.ofConflict e.title))
    (fun e he => by
      show List.map _ (d.conflictDetector.checkConflicts d.eventStore e).1.conflicts = []
      rw [(hnil e).mp he]
      rfl)
    d.eventStore.events
  refine ⟨?_, ?_, ?_⟩
  · rw [hall]
    exact hfilter
  · rw [hall, hfilter]
    simp only [EventStore.getAllEvents, List.length_flatMap]
    congr 1
    apply List.map_congr_left
    intro e _
    simp only [Function.comp_apply, List.length_map]
  · rw [hall]
    simp only [EventStore.getAllEvents, List.flatMap_eq_nil_iff, List.map_eq_nil_iff]
    constructor
    · intro h e he
      exact (hnil e).mpr (h e he)
    · intro h e he
      exact (hnil e).mp (h e he)

/-- Witness of C17: the demo holding the "Product Workshop" and the "Client
Presentation". -/
theorem detectAndShowConflicts_shows_witness :
    roomDemo.detectAndShowConflicts.conflictInfo.length =
      ((roomDemo.eventStore.getAllEvents.filter
        (fun e => (roomDemo.conflictDetector.checkConflicts roomDemo.eventStore e).1.hasConflicts)).map
        (fun e =>
          (roomDemo.conflictDetector.checkConflicts roomDemo.eventStore e).1.conflicts.length)).sum :=
  (detectAndShowConflicts_shows roomDemo (by intro c hc; cases hc)).2.1

/-! ## The wrapper before and after initialisation (C18) -/

/-- C18: while `calendar` is unset, `addEvent`, `removeEvent`, `setView` and
`navigateToDate` make no call on the core and return `undefined`, and `getEvents`
returns the empty list; once `calendar` is set each of them forwards exactly one
call with the same argument to the calendar. `calendar` is unset in a new
wrapper and stays unset when `connectedCallback` fails to load or to construct
the core; it is set when `connectedCallback` succeeds. -/
theorem wrapper_guards (w : MinimalCalendar) (eventData : EventData) (eventId viewType : String)
    (date now : Int) :
    (w.calendar = none →
      w.addEvent eventData = ([], Returned.undefined) ∧
      w.removeEvent eventId = ([], Returned.undefined) ∧
      w.setView viewType = ([], Returned.undefined) ∧
      w.navigateToDate date = ([], Returned.undefined) ∧
      w.getEvents = ([], Returned.emptyArray)) ∧
    (w.calendar ≠ none →
      w.addEvent eventData =
        ([CalendarCall.addEvent eventData], Returned.resultOf (CalendarCall.addEvent eventData)) ∧
      w.removeEvent eventId =
        ([CalendarCall.removeEvent eventId],
          Returned.resultOf (CalendarCall.removeEvent eventId)) ∧
      w.setView viewType = ([CalendarCall.setView viewType], Returned.undefined) ∧
      w.navigateToDate date = ([CalendarCall.goToDate date], Returned.undefined) ∧
      w.getEvents = ([CalendarCall.getEvents], Returned.resultOf CalendarCall.getEvents)) ∧
    MinimalCalendar.new.calendar = none ∧
    (MinimalCalendar.new.connectedCallback now (some InitStep.loadScript)).calendar = none ∧
    (MinimalCalendar.new.connectedCallback now (some InitStep.createCalendar)).calendar = none ∧
    (MinimalCalendar.new.connectedCallback now none).calendar ≠ none := by
  refine ⟨?_, ?_, rfl, rfl, rfl, ?_⟩
  · intro h
    simp only [MinimalCalendar.addEvent, MinimalCalendar.removeEvent, MinimalCalendar.setView,
      MinimalCalendar.navigateToDate, MinimalCalendar.getEvents, h, and_self]
  · intro h
    cases hc : w.calendar with
    | none => exact absurd hc h
    | some c =>
      simp only [MinimalCalendar.addEvent, MinimalCalendar.removeEvent, MinimalCalendar.setView,
        MinimalCalendar.navigateToDate, MinimalCalendar.getEvents, hc, and_self]
  · simp [MinimalCalendar.connectedCallback, MinimalCalendar.new]

/-- Witness of C18: a new wrapper makes no call, an initialised one forwards. -/
theorem wrapper_guards_witness :
    MinimalCalendar.new.addEvent testData = ([], Returned.undefined) ∧
      (MinimalCalendar.new.connectedCallback 0 none).addEvent testData =
        ([CalendarCall.addEvent testData], Returned.resultOf (CalendarCall.addEvent testData)) :=
  ⟨((wrapper_guards MinimalCalendar.new testData "test-1" "week" 0 0).1 rfl).1,
   ((wrapper_guards (MinimalCalendar.new.connectedCallback 0 none) testData "test-1" "week" 0
      0).2.1 (by decide)).1⟩

/-! ## Witnesses of the demo's properties -/

theorem randomIndex_zero (n : Nat) : randomIndex 0 n = 0 := by
  simp [randomIndex, toDouble_zero]

theorem randomDuration_zero : randomDuration 0 = 1800000 := by
  have e1 : toDouble ((1 / 2 : ℚ) * 60) = 30 := by
    rw [show (1 / 2 : ℚ) * 60 = ((30 : Nat) : ℚ) by norm_num, toDouble_natCast 30 (by norm_num)]
    norm_num
  have e2 : toDouble ((30 : ℚ) * 60) = 1800 := by
    rw [show (30 : ℚ) * 60 = ((1800 : Nat) : ℚ) by norm_num,
      toDouble_natCast 1800 (by norm_num)]
    norm_num
  have e3 : toDouble ((1800 : ℚ) * 1000) = 1800000 := by
    rw [show (1800 : ℚ) * 1000 = ((1800000 : Nat) : ℚ) by norm_num,
      toDouble_natCast 1800000 (by norm_num)]
    norm_num
  unfold randomDuration
  rw [zero_mul, toDouble_zero, add_zero, toDouble_half, e1, e2, e3]

/-- The event built on day `18` with the counter at 1000 from draws that are all
`0`. -/
theorem randomEvent_zero : randomEvent 1000 (18 * DAY) (fun _ => 0) = zeroDrawEvent := by
  have hstart : dateAt (18 * DAY) (-7) 9 0 = 11 * DAY + 9 * HOUR := by decide
  have hend : timeClip (toDouble (((11 * DAY + 9 * HOUR : Int) : ℚ) + 1800000)) =
      11 * DAY + 9 * HOUR + 30 * MINUTE := by
    have e : ((11 * DAY + 9 * HOUR : Int) : ℚ) + 1800000 = ((984600000 : Int) : ℚ) := by
      simp only [DAY, HOUR]
      norm_num
    rw [e, toDouble_intCast _ (by norm_num)]
    simp only [timeClip, DAY, HOUR, MINUTE]
    norm_num
  have hmin : randomMinute 0 = 0 := by simp [randomMinute]
  have hnum : numAttendees 0 = 1 := by simp [numAttendees, randomIndex_zero]
  have hlt : (0 : ℚ) < 1 / 2 := by norm_num
  have hatt : List.map (randomAttendee fun _ => 0) (List.range 1) =
      [ { name := "Alice Johnson", email := "alice@company.com",
          responseStatus := some ResponseStatus.accepted, resource := false } ] := by
    simp only [List.range_succ, List.range_zero, List.nil_append, List.map_cons, List.map_nil,
      randomAttendee, randomIndex_zero]
    rfl
  simp only [randomEvent, daysOffset, randomHour, hmin, hnum, randomIndex_zero,
    randomDuration_zero, hlt, if_true]
  rw [show (0 : Int) - 7 = -7 by norm_num, show (9 : Int) + 0 = 9 by norm_num, hstart, hend,
    hatt]
  rfl

/-- Witness of C11: the demo holds the "Daily Standup" of Monday, day `11`, and
the generated event falls on that day from 09:00 to 09:30, so it conflicts: when
the user declines the stored events stay as they were, and when the user
confirms the event is added. -/
theorem addRandomEvent_adds_iff_witness :
    (standupDemo.conflictDetector.checkConflicts standupDemo.eventStore
        (randomEvent 1000 (18 * DAY) (fun _ => 0))).1.hasConflicts = true ∧
      (∃ d', standupDemo.addRandomEvent (fun _ => 0) (18 * DAY) false = Except.ok d' ∧
        d'.eventStore.getAllEvents = standupDemo.eventStore.getAllEvents ∧
        randomEvent 1000 (18 * DAY) (fun _ => 0) ∉ d'.eventStore.getAllEvents) ∧
      (∃ d', standupDemo.addRandomEvent (fun _ => 0) (18 * DAY) true = Except.ok d' ∧
        d'.eventStore.getAllEvents =
          standupDemo.eventStore.getAllEvents ++ [randomEvent 1000 (18 * DAY) (fun _ => 0)]) := by
  have hc : (standupDemo.conflictDetector.checkConflicts standupDemo.eventStore
      (randomEvent 1000 (18 * DAY) (fun _ => 0))).1.hasConflicts = true := by
    rw [randomEvent_zero]
    decide
  have hdraw : ∀ i : Nat, IsDraw ((fun _ => (0 : ℚ)) i) := fun _ => ⟨le_refl 0, by norm_num⟩
  have htoday : |18 * DAY| ≤ 8639999136000000 := by decide
  have hfresh : ∀ x ∈ standupDemo.eventStore.events,
      x.id ≠ some (eventId (standupDemo.eventIdCounter + 1)) := by
    intro x hx
    have hx' : x ∈ [dailyStandup 1000 (11 * DAY)] := hx
    rw [List.mem_singleton] at hx'
    rw [hx']
    decide
  obtain ⟨d1, a1, _, a3, a4⟩ :=
    addRandomEvent_adds_iff standupDemo (fun _ => 0) (18 * DAY) false hdraw htoday hfresh
  obtain ⟨d2, b1, b2, _, _⟩ :=
    addRandomEvent_adds_iff standupDemo (fun _ => 0) (18 * DAY) true hdraw htoday hfresh
  refine ⟨hc, ⟨d1, a1, a3 ⟨hc, rfl⟩, ?_⟩, ⟨d2, b1, b2 (Or.inr rfl)⟩⟩
  intro hmem
  rcases a4.mp hmem with h | h
  · have h' : (standupDemo.conflictDetector.checkConflicts standupDemo.eventStore
        (randomEvent 1000 (18 * DAY) (fun _ => 0))).1.hasConflicts = false := h
    rw [hc] at h'
    cases h'
  · cases h

/-- Witness of C12: the probe on a demo with an empty store and a clock that
stands still. -/
theorem measurePerformance_restores_witness :
    ∃ d', emptyDemo.measurePerformance stillClock = Except.ok d' ∧
      d'.eventStore.getAllEvents = [] := by
  obtain ⟨d', h1, h2, _⟩ := measurePerformance_restores emptyDemo stillClock
    ⟨le_refl (0 : Int), fun _ => le_refl (0 : Int)⟩ (by intro x hx; cases hx)
  exact ⟨d', h1, h2⟩

/-- Witness of C15: the demo as constructed at instant `0`. -/
theorem eventIds_unique_witness :
    ∃ d, CalendarDemo.create sampleDetector 100 DuplicatePolicy.overwrite MissingPolicy.silent
        weekOfDays shiftByDays 0 0 = Except.ok d ∧
      (d.eventStore.getAllEvents.map (fun e => e.id)).Nodup := by
  obtain ⟨d, hd⟩ := create_ok sampleDetector 100 DuplicatePolicy.overwrite MissingPolicy.silent
    weekOfDays shiftByDays 0 0
  exact ⟨d, hd, (eventIds_unique viewNames d _
    (CalendarDemo.Trace.init _ _ _ _ _ _ _ _ d hd)).2.2.2.1⟩

/-- Witness of C19: the demo as constructed, after a click on the week button. -/
theorem currentView_matches_witness :
    ∃ d d', CalendarDemo.create sampleDetector 100 DuplicatePolicy.overwrite
        MissingPolicy.silent weekOfDays shiftByDays 0 0 = Except.ok d ∧
      d.step (DemoAction.viewButton "week") = Except.ok d' ∧
      d'.currentView = d'.calendar.view.name ∧ d'.renderedBy = some d'.calendar.view := by
  obtain ⟨d, hd⟩ := create_ok sampleDetector 100 DuplicatePolicy.overwrite MissingPolicy.silent
    weekOfDays shiftByDays 0 0
  have h := currentView_matches viewNames (fun v hv => hv) _ _
    (CalendarDemo.Trace.step d _ _ (DemoAction.viewButton "week")
      (CalendarDemo.Trace.init _ _ _ _ _ _ _ _ d hd)
      (show "week" ∈ viewNames by decide) rfl)
  exact ⟨d, _, hd, rfl, h.1, h.2.2.2.1⟩

end ForceCalendar
